import Mathlib

/-!
Shallow embedding of `chat_replay_downloader.py` (lbmaian/chat-downloader).

Conventions used throughout:
* Python `str` values are modelled as `List Char` (wrappers taking `String`
  keep the source names where convenient).
* Python integers are `Int`/`Nat`; Python floats are modelled as `ℚ`
  (the claims under verification only concern their ordering and
  integer-truncation behaviour, not IEEE rounding).
* Fallible Python code (code that can raise) returns `Option`/`Except`;
  `none`/`.error` marks the raise.
* JSON values are modelled by the inductive `JVal`; Python `dict`s are
  insertion-ordered association lists (JSON-decoded dicts have unique keys,
  which theorems assume explicitly via `Nodup` where it matters).
* Host-environment-dependent library calls (`datetime.strftime` rendering,
  local-timezone epoch conversion) are abstracted behind small computable
  stand-ins or oracle parameters; each such point is marked in a comment.
-/

/-! ## Decimal / hexadecimal digits and Python `int()` parsing -/

/-- The decimal digit character for `d < 10` (unreachable default). -/
def digitChar10 : Nat → Char
  | 0 => '0' | 1 => '1' | 2 => '2' | 3 => '3' | 4 => '4'
  | 5 => '5' | 6 => '6' | 7 => '7' | 8 => '8' | 9 => '9'
  | _ => '*'

/-- The lowercase hexadecimal digit character for `d < 16`. -/
def digitChar16 : Nat → Char
  | 0 => '0' | 1 => '1' | 2 => '2' | 3 => '3' | 4 => '4'
  | 5 => '5' | 6 => '6' | 7 => '7' | 8 => '8' | 9 => '9'
  | 10 => 'a' | 11 => 'b' | 12 => 'c' | 13 => 'd' | 14 => 'e' | 15 => 'f'
  | _ => '*'

/-- Numeric value of a decimal digit character. -/
def digitVal (c : Char) : Nat := c.toNat - 48

/-- Decimal rendering of a natural number (digits prepended to `acc`),
    matching Python `str(n)` for nonnegative `n`.  Structural recursion on a
    fuel argument (any fuel above the value suffices) keeps the definition
    kernel-reducible. -/
def natToDecAux : Nat → Nat → List Char → List Char
  | 0, _, acc => acc
  | fuel + 1, n, acc =>
    if n < 10 then digitChar10 n :: acc
    else natToDecAux fuel (n / 10) (digitChar10 (n % 10) :: acc)

def natToDec (n : Nat) : List Char := natToDecAux (n + 1) n []

/-- Decimal rendering of an integer, matching Python `str(n)`. -/
def intToDec (n : Int) : List Char :=
  if n < 0 then '-' :: natToDec n.natAbs else natToDec n.natAbs

/-- Lowercase hexadecimal rendering of a natural number. -/
def natToHexAux : Nat → Nat → List Char → List Char
  | 0, _, acc => acc
  | fuel + 1, n, acc =>
    if n < 16 then digitChar16 n :: acc
    else natToHexAux fuel (n / 16) (digitChar16 (n % 16) :: acc)

def natToHex (n : Nat) : List Char := natToHexAux (n + 1) n []

/-- Python whitespace test (approximates `str.isspace` on the ASCII range). -/
def pyIsWS (c : Char) : Bool := c.isWhitespace

/-- Strip whitespace from both ends, as Python `str.strip()`. -/
def pyStrip (l : List Char) : List Char :=
  ((l.dropWhile pyIsWS).reverse.dropWhile pyIsWS).reverse

/-- Digit-run parser for Python `int(str)`: after the optional sign, Python
    accepts decimal digits with single underscores strictly between digits. -/
def pyIntDigitsGo : List Char → Nat → Option Nat
  | [], acc => some acc
  | c :: rest, acc =>
    if c = '_' then
      match rest with
      | [] => none
      | d :: rest' => if d.isDigit then pyIntDigitsGo rest' (acc * 10 + digitVal d) else none
    else if c.isDigit then pyIntDigitsGo rest (acc * 10 + digitVal c) else none

def pyIntDigits : List Char → Option Nat
  | [] => none
  | c :: rest => if c.isDigit then pyIntDigitsGo rest (digitVal c) else none

/-- Model of Python `int(s)` on a string: strips whitespace, allows one sign,
    then a digit run.  `none` models the `ValueError` raise. -/
def pyIntStr (l : List Char) : Option Int :=
  match pyStrip l with
  | [] => none
  | c :: rest =>
    if c = '-' then (pyIntDigits rest).map (fun n => -(n : Int))
    else if c = '+' then (pyIntDigits rest).map (fun n => (n : Int))
    else (pyIntDigits (c :: rest)).map (fun n => (n : Int))

/-- Python `int(float)`: truncation toward zero. -/
def pyTruncRat (q : ℚ) : Int := q.num.tdiv (q.den : Int)

/-- Python `round()` on a rational: round-half-to-even. -/
def pyRound (q : ℚ) : Int :=
  let f : Int := q.floor
  let r : ℚ := q - (f : ℚ)
  if r < 1/2 then f
  else if r > 1/2 then f + 1
  else if f % 2 = 0 then f else f + 1

/-- Python `s.split(sep)` for a single-character separator (no maxsplit):
    every occurrence splits; empty segments are kept; `''.split(sep) = ['']`. -/
def pySplit (sep : Char) : List Char → List (List Char)
  | [] => [[]]
  | c :: rest =>
    match pySplit sep rest with
    | [] => [[]]
    | t :: ts => if c = sep then [] :: t :: ts else (c :: t) :: ts

/-! ## `__time_to_seconds` and `__seconds_to_time` (source lines 256-265) -/

/-- `sum(abs(int(x)) * 60 ** i for i, x in enumerate(reversed(parts)))`,
    where the list argument is already reversed (least-significant first). -/
def weightedSum60 : List Int → Int
  | [] => 0
  | v :: rest => (v.natAbs : Int) + 60 * weightedSum60 rest

/-- Model of `__time_to_seconds` (line 256).  `none` models a raise
    (`ValueError` from `int`, `IndexError` on `''[0]`). -/
def timeToSecondsL (time : List Char) : Option Int := do
  let noCommas := time.filter (fun c => c ≠ ',')       -- time.replace(',', '')
  let parts := pySplit ':' noCommas                    -- .split(':')
  let vals ← parts.mapM pyIntStr
  let total := weightedSum60 vals.reverse
  match time with
  | [] => none                                         -- time[0] IndexError
  | c :: _ => some (total * (if c = '-' then -1 else 1))

def time_to_seconds (time : String) : Option Int := timeToSecondsL time.data

/-- Zero-padded `%02d` rendering used inside `str(timedelta)`. -/
def pad2 (n : Nat) : List Char :=
  if n < 10 then '0' :: natToDec n else natToDec n

/-- Model of `__seconds_to_time` (line 261): `str(timedelta(seconds=n))`
    followed by the (never-firing) `'0:0'` check.  `timedelta` normalises to
    `days` plus a nonnegative remainder; `str` renders `D day(s), H:MM:SS`
    with the day part omitted when zero and `H` unpadded. -/
def secondsToTimeL (n : Int) : List Char :=
  let days : Int := n.fdiv 86400
  let rem : Nat := (n.emod 86400).toNat
  let h := rem / 3600
  let m := rem % 3600 / 60
  let s := rem % 60
  let base := natToDec h ++ ':' :: pad2 m ++ ':' :: pad2 s
  let full :=
    if days = 0 then base
    else intToDec days ++ (' ' :: 'd' :: 'a' :: 'y' :: []) ++
      (if days = 1 ∨ days = -1 then [] else ['s']) ++ (',' :: ' ' :: []) ++ base
  if full = ['0', ':', '0'] then [] else full

def seconds_to_time (n : Int) : String := ⟨secondsToTimeL n⟩

/-! ## `__arbg_int_to_rgba`, `__rgba_to_hex`, `__get_colours` (lines 288-310) -/

/-- Python `(n >> k) & 255` on arbitrary-precision ints: `>>` is a floor
    shift and `& 255` reduces mod 256 into `[0, 255]`. -/
def pyShrMask255 (n : Int) (k : Nat) : Int := (n.fdiv ((2 : Int) ^ k)) % 256

/-- Model of `__arbg_int_to_rgba` (line 289). -/
def arbg_int_to_rgba (n : Int) : List Int :=
  [pyShrMask255 n 16, pyShrMask255 n 8, pyShrMask255 n 0, pyShrMask255 n 24]

/-- Python `'{:02x}'.format(n)`: lowercase hex, zero-padded after the sign to
    width 2. -/
def pyHex02 (n : Int) : List Char :=
  if n < 0 then
    let ds := natToHex n.natAbs
    '-' :: (if ds.length < 1 then List.replicate (1 - ds.length) '0' ++ ds else ds)
  else
    let ds := natToHex n.natAbs
    if ds.length < 2 then List.replicate (2 - ds.length) '0' ++ ds else ds

/-- Model of `__rgba_to_hex` (line 297): `'#{:02x}{:02x}{:02x}{:02x}'`.
    The format string has exactly four slots; star-unpacking fewer values
    raises (modelled by `none`), extra values are ignored. -/
def rgba_to_hex : List Int → Option (List Char)
  | r :: g :: b :: a :: _ =>
    some ('#' :: pyHex02 r ++ pyHex02 g ++ pyHex02 b ++ pyHex02 a)
  | _ => none

/-! ## Abort-condition tokenizer (`_tokenize_abort_condition_group`, lines 880-894)

The Python generator walks `finditer` matches of
`((?:\\.|[^&\\])*)([&]|$)`: a token is a maximal run of escape pairs
(`\` + any non-newline character) and non-`&`/non-`\` characters, ended by an
unescaped `&` or end of string.  A gap between matches (only possible when a
`\` is not followed by a non-newline character) raises the
"unexpected end of string" error; an empty raw token raises the
"condition cannot be empty" error; otherwise the raw token is yielded with
`\&` unescaped to `&` and then `\\` to `\`. -/

inductive AbortParseError where
  | unexpectedEnd                       -- "invalid string (unexpected end of string)"
  | emptyCond                           -- "condition cannot be empty"
  | duplicateCond (name : String)       -- "multiple <name> conditions cannot exist"
  | badChangedFormat                    -- strftime format fails the round-trip test
  | badMinTimeArg                       -- "argument must be in format <hours>:<minutes>"
  | unrecognizedSignal (name : String)  -- "unrecognized signal name"
  | signalNotSole                       -- "signal condition must be only condition"
  | badSignalArg                        -- "argument must be one of: default, disable, enable"
  | unrecognizedCond (raw : String)     -- "unrecognized condition"
  | pyError                             -- a TypeError/AttributeError escaping the parser

/-- Python `raw.replace('\\&', '&')` / `raw.replace('\\\\', '\\')`:
    leftmost non-overlapping replacement of the two-character pattern
    `p1 p2` by the single character `r`. -/
def pyReplace2 (p1 p2 r : Char) : List Char → List Char
  | c1 :: c2 :: rest =>
    if c1 = p1 ∧ c2 = p2 then r :: pyReplace2 p1 p2 r rest
    else c1 :: pyReplace2 p1 p2 r (c2 :: rest)
  | l => l

/-- `raw_cond.replace('\\&', '&').replace('\\\\', '\\')` (line 891). -/
def unescapeCond (l : List Char) : List Char :=
  pyReplace2 '\\' '\\' '\\' (pyReplace2 '\\' '&' '&' l)

/-- Tokenizer state walk; `cur` holds the current raw token reversed. -/
def tokenizeGo : List Char → List Char → Except AbortParseError (List (List Char))
  | [], cur =>
    if cur.isEmpty then .error .emptyCond
    else .ok [unescapeCond cur.reverse]
  | c :: rest, cur =>
    if c = '\\' then
      match rest with
      | [] => .error .unexpectedEnd          -- regex cannot consume a dangling backslash
      | d :: rest' =>
        -- `.` in the Python regex does not match a newline, so `\<newline>`
        -- also leaves an unmatchable gap and raises the same error
        if d = '\n' then .error .unexpectedEnd
        else tokenizeGo rest' (d :: '\\' :: cur)
    else if c = '&' then
      if cur.isEmpty then .error .emptyCond
      else do
        let ts ← tokenizeGo rest []
        pure (unescapeCond cur.reverse :: ts)
    else tokenizeGo rest (c :: cur)

def tokenizeAbortConditionGroup (raw : List Char) : Except AbortParseError (List (List Char)) :=
  tokenizeGo raw []

/-! ## Abort-condition parser (`parse_abort_condition_group`, lines 775-877) -/

inductive SignalAbortType where
  | default | disable | enable

def signalAbortTypeOfString : String → Option SignalAbortType
  | "default" => some .default
  | "disable" => some .disable
  | "enable" => some .enable
  | _ => none

/-- A compiled runtime abort condition (the closures built at lines 807-858).
    `changed_scheduled_start_time`'s direction is one of
    increased/decreased/changed. -/
inductive ChangeType where
  | increased | decreased | changed

inductive PCond where
  | changed_scheduled_start_time (ct : ChangeType) (fmt : String)
  | min_time_until_scheduled_start_time (minSecs : Nat)
  | file_exists (path : Option String)

/-- External-library environment for the parser:
    * `fmtRoundTrips fmt` is the outcome of the
      `strftime`-then-`strptime` round-trip test at lines 800-804
      (host-`datetime`-dependent, so supplied as an oracle);
    * `signalNames` are the names for which `hasattr(signal, name)` holds
      (the POSIX set here; only `SIGINT` is exercised by the claims). -/
structure PyEnv where
  fmtRoundTrips : String → Bool := fun _ => true
  signalNames : List String := ["SIGINT", "SIGQUIT", "SIGTERM", "SIGABRT"]

/-- `raw_cond.split(':', 1)` if `':' in raw_cond` else `(raw_cond, None)`. -/
def pySplitColon1 (l : List Char) : List Char × Option (List Char) :=
  if l.contains ':' then (l.takeWhile (fun c => c ≠ ':'), some ((l.dropWhile (fun c => c ≠ ':')).drop 1))
  else (l, none)

/-- Value of an all-digit run, as computed by Python `int` on it. -/
def decValDigits (l : List Char) : Nat :=
  l.foldl (fun a c => a * 10 + digitVal c) 0

/-- `re.fullmatch(r'(\d+):(\d+)$', arg)` followed by
    `int(m[1]) * 3600 + int(m[2]) * 60` (lines 829-832). -/
def parseHHMM (l : List Char) : Option (Nat × Nat) :=
  let h := l.takeWhile Char.isDigit
  match l.dropWhile Char.isDigit with
  | ':' :: m =>
    if h ≠ [] ∧ m ≠ [] ∧ m.all Char.isDigit then some (decValDigits h, decValDigits m)
    else none
  | _ => none

/-- Update `abort_signals[name] = ty` on an insertion-ordered map. -/
def sigMapSet (name : String) (ty : SignalAbortType) :
    List (String × SignalAbortType) → List (String × SignalAbortType)
  | [] => [(name, ty)]
  | (k, v) :: rest =>
    if k = name then (k, ty) :: rest else (k, v) :: sigMapSet name ty rest

/-- One iteration of the `for raw_cond in raw_conds` loop (lines 781-875).
    `total` is `len(raw_conds)` (used by the signal-singleton check);
    `seen` are the condition names recorded in `cond_name_dict`. -/
def parseCondLoop (env : PyEnv) (total : Nat) :
    List (List Char) → List String → List (String × PCond) →
    List (String × SignalAbortType) →
    Except AbortParseError (List (String × PCond) × List (String × SignalAbortType))
  | [], _, group, sigs => .ok (group, sigs)
  | rawCond :: rest, seen, group, sigs =>
    let rc := pyStrip rawCond
    let (nameCs, argCs) := pySplitColon1 rc
    let condName : String := ⟨nameCs⟩
    if condName ∈ seen then .error (.duplicateCond condName)
    else
      let seen' := condName :: seen
      if condName = "changed_scheduled_start_time" then
        match argCs with
        | none => .error .pyError                      -- None.startswith → AttributeError
        | some fmtArg =>
          let (fmtCs, ct) :=
            match fmtArg with
            | '+' :: fs => (fs, ChangeType.increased)
            | '-' :: fs => (fs, ChangeType.decreased)
            | fs => (fs, ChangeType.changed)
          let fmt : String := ⟨fmtCs⟩
          if env.fmtRoundTrips fmt then
            parseCondLoop env total rest seen'
              (group ++ [(⟨rc⟩, .changed_scheduled_start_time ct fmt)]) sigs
          else .error .badChangedFormat
      else if condName = "min_time_until_scheduled_start_time" then
        match argCs with
        | none => .error .pyError                      -- re.fullmatch(.., None) → TypeError
        | some arg =>
          match parseHHMM arg with
          | none => .error .badMinTimeArg
          | some (h, m) =>
            parseCondLoop env total rest seen'
              (group ++ [(⟨rc⟩, .min_time_until_scheduled_start_time (h * 3600 + m * 60))]) sigs
      else if condName = "file_exists" then
        parseCondLoop env total rest seen'
          (group ++ [(⟨rc⟩, .file_exists (argCs.map (fun a => ⟨a⟩)))]) sigs
      else if nameCs.take 3 = ['S', 'I', 'G'] then
        if condName ∉ env.signalNames then .error (.unrecognizedSignal condName)
        else if total > 1 then .error .signalNotSole
        else
          match argCs.bind (fun a => signalAbortTypeOfString ⟨a⟩) with
          | none => .error .badSignalArg
          | some ty => parseCondLoop env total rest seen' group (sigMapSet condName ty sigs)
      else .error (.unrecognizedCond ⟨rc⟩)

/-- Model of `parse_abort_condition_group` (line 775): tokenize, then fold the
    per-condition dispatch; returns the built condition group together with
    the updated `abort_signals` map. -/
def parse_abort_condition_group (env : PyEnv) (raw : List Char)
    (abortSignals : List (String × SignalAbortType)) :
    Except AbortParseError (List (String × PCond) × List (String × SignalAbortType)) :=
  match tokenizeAbortConditionGroup raw with
  | .error e => .error e
  | .ok rawConds => parseCondLoop env rawConds.length rawConds [] [] abortSignals

/-! ## Abort-condition checker (`AbortConditionChecker`, lines 896-937)

The checker is generic in the state type: a compiled condition is a pair of
its raw string and a function from the state to `Option String`
(`none` models the Python `None`/falsy result). -/

/-- Python truthiness of an `Optional[str]` condition result
    (line 934 `if not cond_result`). -/
def pyTruthyStr : Option String → Bool
  | none => false
  | some s => !(s == "")

/-- Python `' AND '.join(results)` over the accumulated result strings. -/
def joinAnd : List String → String
  | [] => ""
  | [x] => x
  | x :: xs => x ++ " AND " ++ joinAnd xs

/-- `_check_cond_group` body (lines 927-937); `acc` holds `cond_results`
    reversed. -/
def checkCondGroupGo {σ : Type} (st : σ) :
    List (String × (σ → Option String)) → List String → Option String
  | [], acc =>
    let j := joinAnd acc.reverse
    if j = "" then none else some j                    -- `... or None`
  | (_, f) :: rest, acc =>
    match f st with
    | none => none                                     -- falsy: whole group false
    | some s => if s = "" then none else checkCondGroupGo st rest (s :: acc)

def check_cond_group {σ : Type} (st : σ) (g : List (String × (σ → Option String))) :
    Option String :=
  checkCondGroupGo st g []

/-- The group scan of `check` (lines 922-925): the first truthy group raises
    `AbortConditionsSatisfied` (modelled as `.error msg`). -/
def abortCheck {σ : Type} :
    List (List (String × (σ → Option String))) → σ → Except String Unit
  | [], _ => .ok ()
  | g :: rest, st =>
    match check_cond_group st g with
    | some m => .error m
    | none => abortCheck rest st

/-- `AbortConditionChecker.check` (line 903): run the state-updater functions
    (their log output has no effect on the evaluation), then scan the groups. -/
def checkerCheck {σ : Type} (stateFuncs : List (σ → σ))
    (condGroups : List (List (String × (σ → Option String)))) (st : σ) :
    Except String Unit :=
  abortCheck condGroups (stateFuncs.foldl (fun s f => f s) st)

/-! ## Runtime evaluation of compiled conditions

The abort state passed as `**state` to the closures.  Datetimes are modelled
as epoch rationals; `now` is the `time.time()` observed inside the closure;
`fs` models `os.path.isfile`/`os.stat` (the already-formatted ctime/mtime
strings when the path is a file).  `strftime` rendering is environment
dependent and supplied by the `strftime` field. -/

structure AbortState where
  orig_scheduled_start_time : Option ℚ := none
  scheduled_start_time : Option ℚ := none
  now : ℚ := 0
  fs : String → Option (String × String) := fun _ => none
  strftime : String → ℚ → String := fun _ _ => ""

/-- The `min_time_until_scheduled_start_time` closure (lines 834-844):
    false when no scheduled start time is known; otherwise true exactly when
    `scheduled_start_time.timestamp() - time.time()` strictly exceeds
    `min_secs`, returning the human-readable message.  (The datetime
    rendering inside the message is abstracted to `toString` of the
    rationals; only the message's truthiness matters to the claims.) -/
def evalMinTimeUntil (minSecs : Nat) (st : AbortState) : Option String :=
  match st.scheduled_start_time with
  | none => none
  | some sched =>
    let secsUntil : ℚ := sched - st.now
    if secsUntil > (minSecs : ℚ) then
      some ("current time (" ++ toString st.now ++ ") until scheduled start time (" ++
        toString sched ++ "): " ++ toString secsUntil ++ " secs >= " ++
        toString (minSecs : Nat) ++ " secs")
    else none

/-- The `changed_scheduled_start_time` closure (lines 807-825). -/
def evalChangedSST (ct : ChangeType) (fmt : String) (st : AbortState) : Option String :=
  match st.orig_scheduled_start_time, st.scheduled_start_time with
  | some orig, some sched =>
    let dirOk :=
      match ct with
      | .increased => decide (orig < sched)
      | .decreased => decide (orig > sched)
      | .changed => decide (orig ≠ sched)
    if dirOk then
      let origF := st.strftime fmt orig
      let curF := st.strftime fmt sched
      if origF ≠ curF then
        some ("scheduled start time formatted as " ++ fmt ++ " changed to " ++ curF ++
          " (originally " ++ origF ++ ")")
      else none
    else none
  | _, _ => none

/-- The `file_exists` closure (lines 849-857); a `None` path raises a
    TypeError inside `os.path.isfile`. -/
def evalFileExists (path : Option String) (st : AbortState) :
    Except AbortParseError (Option String) :=
  match path with
  | none => .error .pyError
  | some p =>
    match st.fs p with
    | some (ct, mt) =>
      .ok (some ("file " ++ p ++ " exists with ctime " ++ ct ++ " and mtime " ++ mt))
    | none => .ok none

def evalCond (c : PCond) (st : AbortState) : Except AbortParseError (Option String) :=
  match c with
  | .changed_scheduled_start_time ct fmt => .ok (evalChangedSST ct fmt st)
  | .min_time_until_scheduled_start_time k => .ok (evalMinTimeUntil k st)
  | .file_exists p => evalFileExists p st

/-! ## JSON values and Python dict semantics -/

/-- JSON values as produced by Python's `json` module (plus the distinction
    between `int` and `float` numbers, which Python preserves). -/
inductive JVal where
  | null
  | bool (b : Bool)
  | num (n : Int)
  | fnum (q : ℚ)
  | str (s : String)
  | arr (elems : List JVal)
  | obj (fields : List (String × JVal))

/-- Python truthiness. -/
def pyTruthy : JVal → Bool
  | .null => false
  | .bool b => b
  | .num n => n ≠ 0
  | .fnum q => q ≠ 0
  | .str s => s ≠ ""
  | .arr l => !l.isEmpty
  | .obj fs => !fs.isEmpty

/-- Dicts are insertion-ordered association lists.  JSON-decoded dicts have
    unique keys; lookups take the first occurrence. -/
def dictGet (k : String) : List (String × JVal) → Option JVal
  | [] => none
  | (k', v) :: rest => if k' = k then some v else dictGet k rest

def dictHas (k : String) (l : List (String × JVal)) : Bool := (dictGet k l).isSome

/-- `d[k] = v`: update in place at the first occurrence, else append. -/
def dictSet (k : String) (v : JVal) : List (String × JVal) → List (String × JVal)
  | [] => [(k, v)]
  | (k', v') :: rest => if k' = k then (k', v) :: rest else (k', v') :: dictSet k v rest

/-- `d.pop(k)`: remove the first occurrence, returning its value. -/
def dictPop (k : String) : List (String × JVal) → Option (JVal × List (String × JVal))
  | [] => none
  | (k', v) :: rest =>
    if k' = k then some (v, rest)
    else (dictPop k rest).map (fun p => (p.1, (k', v) :: p.2))

/-- `d.pop(k, None)`: remove the first occurrence if present. -/
def dictRemove (k : String) : List (String × JVal) → List (String × JVal)
  | [] => []
  | (k', v) :: rest => if k' = k then rest else (k', v) :: dictRemove k rest

/-- `base.update(upd)`: assign `upd`'s entries in order. -/
def dictUpdate (base upd : List (String × JVal)) : List (String × JVal) :=
  upd.foldl (fun d kv => dictSet kv.1 kv.2 d) base

inductive PyErr where
  | typeError
  | lookupError

/-- Python subscript `v[k]` with a string key: dict lookup; every other type
    raises `TypeError` (string/list subscripts demand integers). -/
def pyIndexS (v : JVal) (k : String) : Except PyErr JVal :=
  match v with
  | .obj fs =>
    match dictGet k fs with
    | some x => .ok x
    | none => .error .lookupError
  | _ => .error .typeError

def pyIndexChain (v : JVal) : List String → Except PyErr JVal
  | [] => .ok v
  | k :: ks =>
    match pyIndexS v k with
    | .ok v' => pyIndexChain v' ks
    | .error e => .error e

/-- Python `'k' == x` between a string literal and a JSON value. -/
def pyEqStr (k : String) : JVal → Bool
  | .str s => s = k
  | _ => false

/-- Substring test on character lists. -/
def strContainsSub (pat : List Char) : List Char → Bool
  | [] => pat.isEmpty
  | c :: rest => pat.isPrefixOf (c :: rest) || strContainsSub pat rest

/-- Python `k in v` for a string `k`: key membership for dicts, substring
    test for strings, element equality for lists; `TypeError` otherwise. -/
def pyContainsKey (v : JVal) (k : String) : Except PyErr Bool :=
  match v with
  | .obj fs => .ok (dictHas k fs)
  | .str s => .ok (strContainsSub k.data s.data)
  | .arr l => .ok (l.any (pyEqStr k))
  | _ => .error .typeError

/-- Python iteration `for x in v`: list elements, string characters,
    dict keys; `TypeError` otherwise. -/
def pyIterate : JVal → Except PyErr (List JVal)
  | .arr l => .ok l
  | .str s => .ok (s.data.map (fun c => .str ⟨[c]⟩))
  | .obj fs => .ok (fs.map (fun kv => .str kv.1))
  | _ => .error .typeError

/-- Python `int(x)` on a JSON value (`none` models the raise). -/
def pyToInt : JVal → Option Int
  | .num n => some n
  | .bool b => some (if b then 1 else 0)
  | .fnum q => some (pyTruncRat q)
  | .str s => pyIntStr s.data
  | _ => none

/-- Python `x == k` against an int literal. -/
def pyEqIntJ (v : JVal) (k : Int) : Bool :=
  match v with
  | .num n => n = k
  | .fnum q => q = (k : ℚ)
  | .bool b => (if b then (1 : Int) else 0) = k
  | _ => false

/-- Python `str(float)`; the exact shortest-repr rendering of non-integral
    floats is abstracted (only ever reached by unknown run objects). -/
def pyFloatStr (q : ℚ) : String :=
  if q.den = 1 then ⟨intToDec q.num⟩ ++ ".0"
  else ⟨intToDec q.num⟩ ++ "/" ++ ⟨natToDec q.den⟩

mutual

/-- Python `repr` of a JSON value (string escaping inside `repr` is
    abstracted; reached only via `str(run)` on unrecognised runs). -/
def pyRepr : JVal → String
  | .null => "None"
  | .bool true => "True"
  | .bool false => "False"
  | .num n => ⟨intToDec n⟩
  | .fnum q => pyFloatStr q
  | .str s => "'" ++ s ++ "'"
  | .arr l => "[" ++ pyReprList l ++ "]"
  | .obj fs => "\x7b" ++ pyReprFields fs ++ "\x7d"

def pyReprList : List JVal → String
  | [] => ""
  | [v] => pyRepr v
  | v :: rest => pyRepr v ++ ", " ++ pyReprList rest

def pyReprFields : List (String × JVal) → String
  | [] => ""
  | [(k, v)] => "'" ++ k ++ "': " ++ pyRepr v
  | (k, v) :: rest => "'" ++ k ++ "': " ++ pyRepr v ++ ", " ++ pyReprFields rest

end

/-- Python `str(x)` at top level (strings unquoted, containers via repr). -/
def pyStr : JVal → String
  | .str s => s
  | v => pyRepr v

/-! ## `__parse_youtube_link` (lines 348-357) and `__parse_message_runs` (line 359) -/

/-- `urllib.parse.urlsplit(text).query`: the part after the first `?` of the
    pre-fragment portion (the fragment starts at the first `#`). -/
def urlQuery (s : List Char) : List Char :=
  let preFrag := s.takeWhile (fun c => c ≠ '#')
  match preFrag.dropWhile (fun c => c ≠ '?') with
  | [] => []
  | _ :: rest => rest

/-- Percent-decoding with `+` → space, as in `urllib.parse.parse_qsl`.
    Each valid `%XX` pair decodes to the byte's character; multi-byte UTF-8
    reassembly is abstracted (each byte stands alone). -/
def hexDigitVal (c : Char) : Option Nat :=
  if c.isDigit then some (c.toNat - 48)
  else if 'a' ≤ c ∧ c ≤ 'f' then some (c.toNat - 87)
  else if 'A' ≤ c ∧ c ≤ 'F' then some (c.toNat - 55)
  else none

def pyUnquotePlus : List Char → List Char
  | [] => []
  | '+' :: rest => ' ' :: pyUnquotePlus rest
  | '%' :: h1 :: h2 :: rest =>
    match hexDigitVal h1, hexDigitVal h2 with
    | some a, some b => Char.ofNat (a * 16 + b) :: pyUnquotePlus rest
    | _, _ => '%' :: pyUnquotePlus (h1 :: h2 :: rest)
  | c :: rest => c :: pyUnquotePlus rest

/-- `urllib.parse.parse_qsl(query)` with default arguments: split on `&`,
    keep only fields having `=` with a nonempty value, unquote both sides. -/
def parseQsl (query : List Char) : List (List Char × List Char) :=
  ((pySplit '&' query).filter (fun f => ¬f.isEmpty)).filterMap (fun f =>
    if f.contains '=' then
      let name := f.takeWhile (fun c => c ≠ '=')
      let value := (f.dropWhile (fun c => c ≠ '=')).drop 1
      if value.isEmpty then none
      else some (pyUnquotePlus name, pyUnquotePlus value)
    else none)

/-- `dict(pairs)[k]` (last occurrence wins), used for `info.get('q')`. -/
def lastAssoc (k : List Char) : List (List Char × List Char) → Option (List Char)
  | [] => none
  | (k', v) :: rest =>
    match lastAssoc k rest with
    | some r => some r
    | none => if k' = k then some v else none

def ytHome : List Char := "https://www.youtube.com".data

/-- Model of `__parse_youtube_link` (line 348). -/
def parse_youtube_link (text : List Char) : List Char :=
  if "/redirect".data.isPrefixOf text ∨ "https://www.youtube.com/redirect".data.isPrefixOf text then
    -- info = dict(parse_qsl(urlsplit(text).query)); return info.get('q') or ''
    match lastAssoc "q".data (parseQsl (urlQuery text)) with
    | some q => if q.isEmpty then [] else q
    | none => []
  else if "//".data.isPrefixOf text then "https:".data ++ text
  else if "/".data.isPrefixOf text then ytHome ++ text
  else text

/-- One run of the `for run in message.get('runs', ())` loop; `none` models
    an uncaught raise inside `__parse_message_runs`. -/
def runsLoop : List JVal → String → Option String
  | [], acc => some acc
  | run :: rest, acc =>
    match pyContainsKey run "text" with
    | .error _ => none
    | .ok true =>
      match run with
      | .obj fs =>
        if dictHas "navigationEndpoint" fs then
          -- try: url = run['navigationEndpoint']['commandMetadata']['webCommandMetadata']['url']
          --      message_text += parse_youtube_link(url)
          -- except: message_text += run['text']
          match pyIndexChain run ["navigationEndpoint", "commandMetadata", "webCommandMetadata", "url"] with
          | .ok (.str u) => runsLoop rest (acc ++ ⟨parse_youtube_link u.data⟩)
          | _ =>
            -- the except-branch fallback; raises out of the loop unless str
            match dictGet "text" fs with
            | some (.str t) => runsLoop rest (acc ++ t)
            | _ => none
        else
          match dictGet "text" fs with
          | some (.str t) => runsLoop rest (acc ++ t)
          | _ => none                      -- `+=` with a non-str raises
      | _ => none                          -- 'text' in a str/list run, but run['text'] raises
    | .ok false =>
      match pyContainsKey run "emoji" with
      | .error _ => none
      | .ok true =>
        match run with
        | .obj fs =>
          match dictGet "emoji" fs with
          | some (.obj ef) =>
            if dictHas "shortcuts" ef then
              match dictGet "shortcuts" ef with
              | some (.arr (s0 :: _)) =>
                match s0 with
                | .str t => runsLoop rest (acc ++ t)
                | _ => none
              | some (.arr []) => none     -- shortcuts[0] IndexError
              | some (.str t) =>
                match t.data with          -- str subscripting: first character
                | c :: _ => runsLoop rest (acc ++ ⟨[c]⟩)
                | [] => none
              | _ => none
            else
              match dictGet "emojiId" ef with
              | some (.str t) => runsLoop rest (acc ++ t)
              | _ => none
          | _ => none                      -- non-dict emoji payloads raise on subscript
        | _ => none
      | .ok false => runsLoop rest (acc ++ pyStr run)   -- message_text += str(run)

/-- Model of `__parse_message_runs` (line 359). -/
def parse_message_runs (message : JVal) : Option String :=
  match message with
  | .str s => some s
  | .obj fs =>
    let runsV := (dictGet "runs" fs).getD (.arr [])    -- message.get('runs', ())
    match pyIterate runsV with
    | .error _ => none
    | .ok runs => runsLoop runs ""
  | _ => none                                          -- .get on a non-dict raises

/-- Model of `__parse_sticker` (line 388).  (A falsy non-string label would
    flow through untouched in Python; it is rendered with `str` here, which
    only affects the stored message payload of that degenerate case.) -/
def parse_sticker (sticker : JVal) : Option String :=
  match sticker with
  | .obj fs =>
    match (dictGet "accessibility" fs).getD (.obj []) with
    | .obj af =>
      match (dictGet "accessibilityData" af).getD (.obj []) with
      | .obj df =>
        let lbl := (dictGet "label" df).getD (.str "")
        if pyTruthy lbl then
          match lbl with
          | .str t => some ("<<" ++ t ++ ">>")
          | _ => none                      -- '<<' + non-str raises
        else some (pyStr lbl)
      | _ => none
    | _ => none
  | _ => none

/-! ## `__parse_item` (lines 683-768) -/

/-- `__IMPORTANT_KEYS_AND_REMAPPINGS` (line 163). -/
def importantRemap : String → Option String
  | "timestampUsec" => some "timestamp"
  | "authorExternalChannelId" => some "author_id"
  | "authorName" => some "author"
  | "message" => some "message"
  | "timestampText" => some "time_text"
  | "purchaseAmountText" => some "amount"
  | "headerBackgroundColor" => some "header_color"
  | "bodyBackgroundColor" => some "body_color"
  | "amount" => some "amount"
  | "startBackgroundColor" => some "body_color"
  | "durationSec" => some "ticker_duration"
  | "detailText" => some "message"
  | "headerPrimaryText" => some "header_primary_text"
  | "headerSubtext" => some "header_subtext"
  | "sticker" => some "sticker"
  | "backgroundColor" => some "body_color"
  | _ => none

/-- `__TYPES_OF_MESSAGES` (line 135). -/
def ignoreRenderers : List String :=
  ["liveChatViewerEngagementMessageRenderer", "liveChatPurchasedProductMessageRenderer",
   "liveChatPlaceholderItemRenderer", "liveChatModeChangeMessageRenderer"]

def messageRenderers : List String := ["liveChatTextMessageRenderer"]

def superchatRenderers : List String :=
  ["liveChatMembershipItemRenderer", "liveChatPaidMessageRenderer",
   "liveChatPaidStickerRenderer", "liveChatTickerPaidStickerItemRenderer",
   "liveChatTickerPaidMessageItemRenderer", "liveChatTickerSponsorItemRenderer"]

/-- The `for key in important_item_info` remap loop (lines 699-705):
    pop the source key, store under the remapped key, unwrap `simpleText`. -/
def remapLoop : List String → List (String × JVal) → Option (List (String × JVal))
  | [], data => some data
  | k :: ks, data =>
    match importantRemap k with
    | none => none                         -- unreachable: keys come from the filter
    | some nk =>
      match dictPop k data with
      | none => none                       -- KeyError
      | some (v, d1) =>
        let d2 := dictSet nk v d1
        let d3 :=
          match v with
          | .obj vf =>
            match dictGet "simpleText" vf with
            | some sv => dictSet nk sv d2
            | none => d2
          | _ => d2
        remapLoop ks d3

/-- `__AUTHORTYPE_ORDER_MAP.get(x, 0)` (line 683): rank of a hashable key,
    defaulting to 0; unhashable keys (lists, dicts) raise. -/
def rankOfIconJ : JVal → Option Nat
  | .str "VERIFIED" => some 1
  | .str "MEMBER" => some 2
  | .str "MODERATOR" => some 3
  | .str "OWNER" => some 4
  | .str _ => some 0
  | .arr _ => none
  | .obj _ => none
  | _ => some 0

def isEmptyStrJ : JVal → Bool
  | .str "" => true
  | _ => false

/-- The `for badge in author_badges` loop (lines 711-721); accumulates the
    appended tooltips (in order) and the running `author_type`. -/
def badgesLoop : List JVal → List JVal → JVal → Option (List JVal × JVal)
  | [], tooltips, authorType => some (tooltips, authorType)
  | badge :: rest, tooltips, authorType =>
    match badge with
    | .obj bf =>
      match dictGet "liveChatAuthorBadgeRenderer" bf with
      | none => badgesLoop rest tooltips authorType          -- falsy `badge_renderer`
      | some brv =>
        if !pyTruthy brv then badgesLoop rest tooltips authorType
        else
          match brv with
          | .obj rf =>
            let tooltip := dictGet "tooltip" rf
            -- icon_type = badge_renderer.get('icon', {}).get('iconType')
            let iconRes : Option (Option JVal) :=
              match dictGet "icon" rf with
              | none => some none
              | some (.obj icf) => some (dictGet "iconType" icf)
              | some _ => none                               -- .get on a non-dict raises
            match iconRes with
            | none => none
            | some icon0 =>
              -- if tooltip: badges.append(tooltip); if not icon_type: icon_type = 'MEMBER'
              let appended :=
                match tooltip with
                | some tv => pyTruthy tv
                | none => false
              let tooltips' := if appended then tooltips ++ [(tooltip.getD .null)] else tooltips
              let icon1 : Option JVal :=
                if appended then
                  match icon0 with
                  | some iv => if pyTruthy iv then some iv else some (.str "MEMBER")
                  | none => some (.str "MEMBER")
                else icon0
              -- if icon_type and (author_type == '' or rank(icon) >= rank(author_type))
              match icon1 with
              | none => badgesLoop rest tooltips' authorType
              | some iv =>
                if !pyTruthy iv then badgesLoop rest tooltips' authorType
                else if isEmptyStrJ authorType then badgesLoop rest tooltips' iv
                else
                  match rankOfIconJ iv, rankOfIconJ authorType with
                  | some ri, some ra =>
                    if ri ≥ ra then badgesLoop rest tooltips' iv
                    else badgesLoop rest tooltips' authorType
                  | _, _ => none                             -- unhashable key raises
          | _ => none                                        -- truthy non-dict renderer raises
    | _ => none                                              -- non-dict badge raises

def joinComma : List String → String
  | [] => ""
  | [x] => x
  | x :: xs => x ++ ", " ++ joinComma xs

def allStrs : List JVal → Option (List String) :=
  List.mapM (fun v => match v with | .str s => some s | _ => none)

/-- The author-badge block of `__parse_item` (lines 707-723). -/
def badgesPhase (pf : List (String × JVal)) (data : List (String × JVal)) :
    Option (List (String × JVal)) :=
  match dictGet "authorBadges" pf with
  | none => some data
  | some ab =>
    if !pyTruthy ab then some data
    else
      match ab with
      | .arr bs =>
        match badgesLoop bs [] (.str "") with
        | none => none
        | some (tooltips, authorType) =>
          match allStrs tooltips with
          | none => none                                     -- ', '.join with non-str raises
          | some ts =>
            some (dictSet "author_type" authorType (dictSet "badges" (.str (joinComma ts)) data))
      | _ => none                                            -- iterating yields non-dict badges

/-- The message-extraction block of `__parse_item` (lines 730-752); returns
    the updated dict (pops applied, `message` stored; a Python `None` message
    is stored as JSON null). -/
def messagePhase (data : List (String × JVal)) : Option (List (String × JVal)) := do
  let (d, msg) ←
    match dictPop "header_primary_text" data with
    | some (hpt, d1) => do
      -- "member for <x> months" item
      let m0 ← parse_message_runs hpt
      let (d2, m1) ←
        match dictPop "header_subtext" d1 with
        | some (hst, d2) => do
          let ms ← parse_message_runs hst
          pure (d2, m0 ++ " (" ++ ms ++ ")")
        | none => pure (d1, m0)
      match dictGet "message" d2 with
      | some mv => do
        let mm ← parse_message_runs mv
        pure (d2, some (m1 ++ ": " ++ mm))
      | none => pure (d2, some m1)
    | none =>
      match dictPop "header_subtext" data with
      | some (hst, d1) => do
        -- "welcome to <x>" / "upgraded membership" item
        let m ← parse_message_runs hst
        pure (d1, some m)
      | none =>
        match dictPop "sticker" data with
        | some (stk, d1) => do
          let m0 ← parse_sticker stk
          match dictGet "message" d1 with
          | some mv => do
            let mm ← parse_message_runs mv
            pure (d1, some (m0 ++ ": " ++ mm))
          | none => pure (d1, some m0)
        | none =>
          if dictHas "amount" data then
            match dictGet "message" data with
            | some mv => do
              let mm ← parse_message_runs mv
              pure (data, some mm)
            | none => pure (data, some "<<no message>>")
          else
            match dictGet "message" data with
            | some mv => do
              let mm ← parse_message_runs mv
              pure (data, some mm)
            | none => pure (data, (none : Option String))
  pure (dictSet "message" (match msg with | some s => .str s | none => .null) d)

/-- `datetime.fromtimestamp(ts // 1_000_000).strftime('%Y-%m-%d %H:%M:%S')`
    (line 278).  The rendering depends on the host's local timezone; it is
    abstracted to an injective computable tag of the epoch second. -/
def timestampToDatetimeStr (ts : Int) : String := ⟨'@' :: intToDec (ts.fdiv 1000000)⟩

/-- The timestamp block of `__parse_item` (lines 754-758). -/
def tsPhase (data : List (String × JVal)) : Option (List (String × JVal)) :=
  match dictGet "timestamp" data with
  | some tv =>
    if pyTruthy tv then
      match pyToInt tv with
      | none => none
      | some n =>
        some (dictSet "datetime" (.str (timestampToDatetimeStr n))
          (dictSet "timestamp" (.num n) data))
    else some data
  | none => some data

/-- The `time_text` block of `__parse_item` (lines 760-762). -/
def timeTextPhase (data : List (String × JVal)) : Option (List (String × JVal)) :=
  match dictGet "time_text" data with
  | none => some data
  | some tv =>
    match tv with
    | .str s => (timeToSecondsL s.data).map (fun n => dictSet "time_in_seconds" (.num n) data)
    | _ => none                            -- .replace on a non-str raises

/-- Model of `__get_colours` (line 302); Python `>>`/`&` accept bools too. -/
def get_colours (v : JVal) : Option JVal :=
  match v with
  | .num n =>
    (rgba_to_hex (arbg_int_to_rgba n)).map (fun hx =>
      .obj [("rgba", .arr ((arbg_int_to_rgba n).map .num)), ("hex", .str ⟨hx⟩)])
  | .bool b =>
    let n : Int := if b then 1 else 0
    (rgba_to_hex (arbg_int_to_rgba n)).map (fun hx =>
      .obj [("rgba", .arr ((arbg_int_to_rgba n).map .num)), ("hex", .str ⟨hx⟩)])
  | _ => none

/-- The colour block of `__parse_item` (lines 764-766). -/
def colourPhase (data : List (String × JVal)) : Option (List (String × JVal)) := do
  let step := fun (d : List (String × JVal)) (key : String) =>
    match dictGet key d with
    | none => some d
    | some v => (get_colours v).map (fun cv => dictSet key cv d)
  let d1 ← step data "header_color"
  step d1 "body_color"

/-- Model of `__parse_item` (line 684).  The input is the single-key mapping
    `\x7b rendererName: payload \x7d`; `fuel` bounds the `showItemEndpoint`
    recursion depth (line 725), which every theorem quantifies over. -/
def parse_item : Nat → JVal → Option (List (String × JVal))
  | fuel, item =>
    match item with
    | .obj ((_idx, itemInfoV) :: _) =>    -- index = list(item.keys())[0]
      match itemInfoV with
      | .obj pf =>
        -- important_item_info = filtered payload; data.update(important_item_info)
        let important := pf.filter (fun kv => (importantRemap kv.1).isSome)
        match remapLoop (important.map (fun kv => kv.1)) important with
        | none => none
        | some data1 =>
          match badgesPhase pf data1 with
          | none => none
          | some data2 =>
            if dictHas "showItemEndpoint" pf then
              -- data.update(__parse_item(nested)); return data  (lines 725-728)
              match fuel with
              | 0 => none
              | fuel' + 1 =>
                match pyIndexChain (.obj pf)
                    ["showItemEndpoint", "showLiveChatItemEndpoint", "renderer"] with
                | .ok nested =>
                  match parse_item fuel' nested with
                  | some innerData => some (dictUpdate data2 innerData)
                  | none => none
                | .error _ => none
            else do
              let data3 ← messagePhase data2
              let data4 ← tsPhase data3
              let data5 ← timeTextPhase data4
              colourPhase data5
      | _ => none                          -- .items() on a non-dict raises
    | .obj [] => none                      -- keys()[0] IndexError
    | _ => none                            -- .keys() on a non-dict raises

/-! ## The per-record filter of the YouTube polling loop (lines 1106-1125) -/

/-- Python `v > e` / `v >= s` against an int; `none` models the `TypeError`
    raised on non-numeric values (caught by the per-action handler). -/
def pyCmpIntGt (v : JVal) (e : Int) : Option Bool :=
  match v with
  | .num n => some (decide (n > e))
  | .fnum q => some (decide (q > (e : ℚ)))
  | .bool b => some (decide ((if b then (1 : Int) else 0) > e))
  | _ => none

def pyCmpIntGe (v : JVal) (s : Int) : Option Bool :=
  match v with
  | .num n => some (decide (n ≥ s))
  | .fnum q => some (decide (q ≥ (s : ℚ)))
  | .bool b => some (decide ((if b then (1 : Int) else 0) ≥ s))
  | _ => none

/-- What the loop does with one parsed record: `ret` = `return messages`
    (line 1112), `app` = append to the buffer (line 1115), `skip` = neither
    (including a comparison `TypeError` absorbed by the per-action
    `except Exception` handler). -/
inductive RecFate where
  | ret | app | skip

def recordFate (isLive : Bool) (sT eT : Option Int) (r : List (String × JVal)) : RecFate :=
  let tis := dictGet "time_in_seconds" r
  -- if is_live or start_time is None or (valid_seconds and t >= start_time)
  let afterEnd : RecFate :=
    if isLive then .app
    else
      match sT with
      | none => .app
      | some s0 =>
        match tis with
        | none => .skip
        | some v =>
          match pyCmpIntGe v s0 with
          | some true => .app
          | some false => .skip
          | none => .skip
  -- if end_time is not None and valid_seconds and t > end_time: return
  match eT, tis with
  | some e, some v =>
    match pyCmpIntGt v e with
    | none => .skip
    | some true => .ret
    | some false => afterEnd
  | _, _ => afterEnd

/-- The record loop over already-parsed records that reached line 1106;
    the `Bool` result marks the early `return messages`. -/
def processItems (isLive : Bool) (sT eT : Option Int) :
    List (List (String × JVal)) → List (List (String × JVal)) →
    List (List (String × JVal)) × Bool
  | [], buf => (buf, false)
  | r :: rest, buf =>
    match recordFate isLive sT eT r with
    | .ret => (buf, true)
    | .app => processItems isLive sT eT rest (buf ++ [r])
    | .skip => processItems isLive sT eT rest buf

/-! ## The per-action pipeline (lines 1070-1106) -/

/-- `x[0]` for the `rca['actions'][0]` subscript. -/
def pyFirstElem : JVal → Option JVal
  | .arr (x :: _) => some x
  | .str s =>
    match s.data with
    | c :: _ => some (.str ⟨[c]⟩)
    | [] => none
  | _ => none

/-- One action of the `for action in info['actions']` loop, up to the point
    where the parsed record is in hand; `none` covers every `continue` and
    every exception absorbed by the per-action handler. -/
def processAction (mt : String) (fuel : Nat) (action : JVal) :
    Option (List (String × JVal)) := do
  -- replayChatItemAction unwrap (lines 1074-1079)
  let (ofsData, action1) ←
    match pyContainsKey action "replayChatItemAction" with
    | .error _ => none
    | .ok false => some (([] : List (String × JVal)), action)
    | .ok true =>
      match action with
      | .obj af =>
        match dictGet "replayChatItemAction" af with
        | some rca => do
          let ofs ←
            match pyContainsKey rca "videoOffsetTimeMsec" with
            | .error _ => none
            | .ok false => some ([] : List (String × JVal))
            | .ok true =>
              match pyIndexS rca "videoOffsetTimeMsec" with
              | .ok ov => (pyToInt ov).map (fun n => [("video_offset_time_msec", JVal.num n)])
              | .error _ => none
          let inner ←
            match pyIndexS rca "actions" with
            | .ok av => pyFirstElem av
            | .error _ => none
          some (ofs, inner)
        | none => none
      | _ => none                          -- 'replayChatItemAction' in a str, subscript raises
  -- action.pop('clickTrackingParams', None) (line 1081)
  let af2 ←
    match action1 with
    | .obj af => some (dictRemove "clickTrackingParams" af)
    | _ => none                            -- .pop on a non-dict raises
  -- action_name = list(action.keys())[0]
  let (_, anv) ←
    match af2 with
    | kv :: _ => some kv
    | [] => none
  -- if 'item' not in action[action_name]: continue
  let hasItem ←
    match pyContainsKey anv "item" with
    | .ok b => some b
    | .error _ => none
  if !hasItem then none
  else do
    let item ←
      match pyIndexS anv "item" with
      | .ok it => some it
      | .error _ => none
    let idx ←
      match item with
      | .obj ((i, _) :: _) => some i
      | _ => none
    if idx ∈ ignoreRenderers then none
    else if mt = "all" then parse_item fuel item |>.map (fun d => dictUpdate d ofsData)
    else if mt ≠ "superchat" ∧ idx ∈ superchatRenderers then none
    else if mt ≠ "messages" ∧ idx ∈ messageRenderers then none
    else parse_item fuel item |>.map (fun d => dictUpdate d ofsData)

/-- The full `for action in info['actions']` loop including the per-record
    filter; the `Bool` marks the early `return messages`. -/
def actionsLoop (isLive : Bool) (mt : String) (sT eT : Option Int) (fuel : Nat) :
    List JVal → List (List (String × JVal)) → List (List (String × JVal)) × Bool
  | [], buf => (buf, false)
  | a :: rest, buf =>
    match processAction mt fuel a with
    | none => actionsLoop isLive mt sT eT fuel rest buf
    | some r =>
      match recordFate isLive sT eT r with
      | .ret => (buf, true)
      | .app => actionsLoop isLive mt sT eT fuel rest (buf ++ [r])
      | .skip => actionsLoop isLive mt sT eT fuel rest buf

/-! ## Twitch adapter (`get_twitch_messages`, lines 1162-1220) -/

/-- Leap years and month lengths for `datetime` validation. -/
def isLeapYear (y : Nat) : Bool := (y % 4 = 0 ∧ y % 100 ≠ 0) ∨ y % 400 = 0

def daysInMonth (y m : Nat) : Nat :=
  match m with
  | 1 => 31 | 2 => if isLeapYear y then 29 else 28 | 3 => 31 | 4 => 30
  | 5 => 31 | 6 => 30 | 7 => 31 | 8 => 31 | 9 => 30 | 10 => 31
  | 11 => 30 | 12 => 31
  | _ => 0

/-- Cumulative days before month `m` in year `y`. -/
def daysBeforeMonth (y m : Nat) : Nat :=
  (List.range (m - 1)).foldl (fun acc i => acc + daysInMonth y (i + 1)) 0

/-- `datetime(y, m, d).toordinal()` (ordinal 1 = 0001-01-01). -/
def dateOrdinal (y m d : Nat) : Nat :=
  365 * (y - 1) + (y - 1) / 4 - (y - 1) / 100 + (y - 1) / 400 + daysBeforeMonth y m + d

/-- `datetime.strptime(s + 'Z', '%Y-%m-%dT%H:%M:%SZ').timestamp()`.
    `%Y` demands exactly four digits; the other fields one or two digits
    within range; the date must exist.  The naive datetime's `timestamp()`
    interprets it in the host's local timezone; that is abstracted to UTC. -/
def takeDigitsUpTo : Nat → List Char → (List Char × List Char)
  | 0, l => ([], l)
  | _, [] => ([], [])
  | k + 1, c :: rest =>
    if c.isDigit then
      let (ds, l') := takeDigitsUpTo k rest
      (c :: ds, l')
    else ([], c :: rest)

def strptimeEpochUTC (l : List Char) : Option Int := do
  let (ys, l1) := takeDigitsUpTo 4 l
  if ys.length ≠ 4 then none
  else do
    let y := decValDigits ys
    let l2 ← match l1 with | '-' :: r => some r | _ => none
    let (ms, l3) := takeDigitsUpTo 2 l2
    if ms.isEmpty then none
    else do
      let mo := decValDigits ms
      let l4 ← match l3 with | '-' :: r => some r | _ => none
      let (ds, l5) := takeDigitsUpTo 2 l4
      if ds.isEmpty then none
      else do
        let d := decValDigits ds
        let l6 ← match l5 with | 'T' :: r => some r | _ => none
        let (hs, l7) := takeDigitsUpTo 2 l6
        if hs.isEmpty then none
        else do
          let h := decValDigits hs
          let l8 ← match l7 with | ':' :: r => some r | _ => none
          let (mis, l9) := takeDigitsUpTo 2 l8
          if mis.isEmpty then none
          else do
            let mi := decValDigits mis
            let l10 ← match l9 with | ':' :: r => some r | _ => none
            let (ss, l11) := takeDigitsUpTo 2 l10
            if ss.isEmpty ∨ ¬l11.isEmpty then none
            else do
              let s := decValDigits ss
              if y < 1 ∨ mo < 1 ∨ mo > 12 ∨ d < 1 ∨ d > daysInMonth y mo ∨
                  h > 23 ∨ mi > 59 ∨ s > 59 then none
              else
                some (((dateOrdinal y mo d : Int) - 719163) * 86400 +
                  (h : Int) * 3600 + (mi : Int) * 60 + (s : Int))

/-- Fractional-second string `f` as the rational `0.f` (Python
    `float('0.' + f)`, restricted to plain digit runs). -/
def fracVal (f : List Char) : Option ℚ :=
  if f ≠ [] ∧ f.all Char.isDigit then
    some ((decValDigits f : ℚ) / ((10 : ℚ) ^ f.length))
  else none

/-- Split on any of the characters of the regex class `[\.|Z]`. -/
def pySplitAny (seps : List Char) : List Char → List (List Char)
  | [] => [[]]
  | c :: rest =>
    match pySplitAny seps rest with
    | [] => [[]]
    | t :: ts => if seps.contains c then [] :: t :: ts else (c :: t) :: ts

/-- Model of `__timestamp_to_microseconds` (line 248):
    `round((strptime(info[0] + 'Z').timestamp() + float('0.' + info[1])) * 1e6)`
    where `info = [p for p in re.split(r'[\.|Z]', ts) if p] + [0]`. -/
def timestamp_to_microseconds (created_at : String) : Option Int := do
  let pieces := (pySplitAny ['.', '|', 'Z'] created_at.data).filter (fun p => ¬p.isEmpty)
  match pieces with
  | [] => none                             -- strptime('0Z') fails
  | datePart :: restP => do
    let frac : ℚ ←
      match restP with
      | [] => some 0                       -- info[1] is the appended int 0
      | f :: _ => fracVal f
    let epoch ← strptimeEpochUTC datePart
    some (pyRound (((epoch : ℚ) + frac) * 1000000))

structure TComment where
  created_at : String
  content_offset_seconds : ℚ
  display_name : String
  body : String

/-- The record dict built for one Twitch comment (lines 1193-1199); `none`
    models a raise inside `__timestamp_to_microseconds`. -/
def twitchRecordO (c : TComment) : Option (List (String × JVal)) :=
  (timestamp_to_microseconds c.created_at).map (fun ts =>
    [("timestamp", .num ts),
     ("time_text", .str (seconds_to_time (pyTruncRat c.content_offset_seconds))),
     ("time_in_seconds", .fnum c.content_offset_seconds),
     ("author", .str c.display_name),
     ("message", .str c.body)])

/-- The `for comment in info['comments']` loop (lines 1183-1211);
    `start_time` is always an int after `__ensure_seconds(start_time, 0)`,
    so the `start_time is not None` guard is always true.  The `Bool`
    marks the early `return messages` on `end_time`. -/
def twitchCommentsLoop (sT : ℚ) (eT : Option ℚ) :
    List TComment → List (List (String × JVal)) →
    Option (List (List (String × JVal)) × Bool)
  | [], buf => some (buf, false)
  | c :: rest, buf =>
    if c.content_offset_seconds < sT then twitchCommentsLoop sT eT rest buf
    else
      match eT with
      | some e =>
        if c.content_offset_seconds > e then some (buf, true)
        else
          match twitchRecordO c with
          | none => none
          | some r => twitchCommentsLoop sT eT rest (buf ++ [r])
      | none =>
        match twitchRecordO c with
        | none => none
        | some r => twitchCommentsLoop sT eT rest (buf ++ [r])

/-! ## YouTube continuation handling and the polling state machine
    (`__get_continuation_info` lines 584-615, `__extract_continuation_info`
    line 617, `__extract_logged_out` line 625, polling loop lines 1020-1153) -/

/-- `data['continuationContents']['liveChatContinuation']` with
    `except LookupError: info = None`; a `TypeError` propagates. -/
def extract_continuation_info (data : JVal) : Except PyErr (Option JVal) :=
  match pyIndexS data "continuationContents" with
  | .error .lookupError => .ok none
  | .error e => .error e
  | .ok c =>
    match pyIndexS c "liveChatContinuation" with
    | .error .lookupError => .ok none
    | .error e => .error e
    | .ok info => .ok (some info)

/-- `data['responseContext']['mainAppWebResponseContext']['loggedOut']` with
    `except LookupError: logged_out = None`, then
    `True if logged_out is None else logged_out` (a JSON null also reads as
    Python `None` and so becomes `True`). -/
def extract_logged_out (data : JVal) : Except PyErr JVal :=
  match pyIndexChain data ["responseContext", "mainAppWebResponseContext", "loggedOut"] with
  | .error .lookupError => .ok (.bool true)
  | .error e => .error e
  | .ok v =>
    match v with
    | .null => .ok (.bool true)
    | _ => .ok v

inductive EngineErr where
  | noContinuation
  | videoUnavailable
  | videoNotFound
  | parsingError
  | py (e : PyErr)

/-- `data.get(k)` for the API-level error check. -/
def pyDictGetJ (data : JVal) (k : String) : Except PyErr (Option JVal) :=
  match data with
  | .obj fs => .ok (dictGet k fs)
  | _ => .error .typeError

/-- The error check of `__get_youtube_json` (lines 668-681). -/
def get_youtube_json_check (data : JVal) : Except EngineErr Unit :=
  match pyDictGetJ data "error" with
  | .error e => .error (.py e)
  | .ok none => .ok ()
  | .ok (some err) =>
    if pyTruthy err then
      match pyDictGetJ err "code" with
      | .error e => .error (.py e)
      | .ok code =>
        let c := code.getD .null
        if pyEqIntJ c 403 then .error .videoUnavailable
        else if pyEqIntJ c 404 then .error .videoNotFound
        else .error .parsingError
    else .ok ()

/-- Model of `__get_continuation_info` (line 584) applied to the decoded API
    response: `.ok (some info)` is the normal case, `.ok none` is the
    "fall back to the non-API continuation endpoint" signal (lines 609-612),
    and `.error .noContinuation` is the raise at line 614. -/
def get_continuation_info (loggedOutCfg : JVal) (data : JVal) :
    Except EngineErr (Option JVal) :=
  match get_youtube_json_check data with
  | .error e => .error e
  | .ok () =>
    match extract_continuation_info data with
    | .error e => .error (.py e)
    | .ok (some info) => .ok (some info)
    | .ok none =>
      match extract_logged_out data with
      | .error e => .error (.py e)
      | .ok lov =>
        if !pyTruthy loggedOutCfg && pyTruthy lov then .ok none
        else .error .noContinuation

/-- State of the polling loop (lines 1017-1151) relevant to fetch selection:
    `first_time`, `use_non_api_fallback`, the current continuation token,
    `config['logged_out']` and the output buffer. -/
structure PollState where
  firstTime : Bool
  useNonApiFallback : Bool
  continuation : JVal
  loggedOutCfg : JVal
  buf : List (List (String × JVal))

/-- Which endpoint the next fetch hits (lines 1048-1054). -/
inductive FetchKind where
  | initial | htmlFallback | api

def fetchKind (s : PollState) : FetchKind :=
  if s.firstTime then .initial
  else if s.useNonApiFallback then .htmlFallback
  else .api

/-- Outcome of one loop iteration: `finished` models every `break` /
    `return messages` (the buffer is returned), `crash` an exception that
    unwinds the whole call, `next` continuing with the new state after
    sleeping `sleepSecs` if given. -/
inductive StepRes where
  | finished (messages : List (List (String × JVal)))
  | crash
  | next (s : PollState) (sleepSecs : Option ℚ)

def jNumQ : JVal → Option ℚ
  | .num n => some (n : ℚ)
  | .fnum q => some q
  | .bool b => some (if b then 1 else 0)
  | _ => none

/-- The continuation-advance block (lines 1133-1149). -/
def contAdvance (s : PollState) (buf' : List (List (String × JVal))) (info : JVal) :
    StepRes :=
  match pyContainsKey info "continuations" with
  | .error _ => .crash
  | .ok false => .finished buf'                       -- else: break (line 1149)
  | .ok true =>
    match pyIndexS info "continuations" with
    | .error _ => .crash
    | .ok contsV =>
      match contsV with
      | .arr (c0 :: _) =>
        match c0 with
        | .obj ((_, ci) :: _) =>                      -- continuation_info[next(iter(...))]
          match pyContainsKey ci "continuation" with
          | .error _ => .crash
          | .ok hasCont =>
            match (if hasCont then pyIndexS ci "continuation" else .ok s.continuation) with
            | .error _ => .crash
            | .ok cont' =>
              match pyContainsKey ci "timeoutMs" with
              | .error _ => .crash
              | .ok false =>
                .next { s with firstTime := false, continuation := cont', buf := buf' } none
              | .ok true =>
                match pyIndexS ci "timeoutMs" with
                | .error _ => .crash
                | .ok tv =>
                  match jNumQ tv with
                  | some q =>
                    .next { s with firstTime := false, continuation := cont', buf := buf' }
                      (some (q / 1000))
                  | none => .crash
        | _ => .crash
      | _ => .crash

/-- The post-fetch part of one loop iteration: the actions block
    (lines 1069-1131) followed by the continuation advance. -/
def afterFetch (isLive : Bool) (mt : String) (sT eT : Option Int) (fuel : Nat)
    (s : PollState) (info : JVal) : StepRes :=
  match pyContainsKey info "actions" with
  | .error _ => .crash
  | .ok true =>
    match pyIndexS info "actions" with
    | .error _ => .crash
    | .ok actsV =>
      match pyIterate actsV with
      | .error _ => .crash
      | .ok acts =>
        match actionsLoop isLive mt sT eT fuel acts s.buf with
        | (buf', true) => .finished buf'              -- return messages (line 1112)
        | (buf', false) => contAdvance s buf' info
  | .ok false =>
    if !isLive then .finished s.buf                   -- replay: break (line 1131)
    else contAdvance s s.buf info

/-- One iteration of the polling loop (lines 1047-1151), fed the decoded
    JSON appropriate to the chosen endpoint (for the HTML endpoints this is
    the `ytInitialData` blob the page scraper extracts). -/
def poll_step (isLive : Bool) (mt : String) (sT eT : Option Int) (fuel : Nat)
    (s : PollState) (data : JVal) : StepRes :=
  match fetchKind s with
  | .initial =>
    -- __get_initial_continuation_info: records config['logged_out'], raises
    -- NoContinuation (caught at line 1059 → break) when the blob is empty
    match extract_continuation_info data, extract_logged_out data with
    | .ok oinfo, .ok lov =>
      match oinfo with
      | none => .finished s.buf
      | some info => afterFetch isLive mt sT eT fuel { s with loggedOutCfg := lov } info
    | _, _ => .crash
  | .htmlFallback =>
    match extract_continuation_info data with
    | .ok none => .finished s.buf                     -- NoContinuation → break
    | .ok (some info) => afterFetch isLive mt sT eT fuel s info
    | .error _ => .crash
  | .api =>
    match get_continuation_info s.loggedOutCfg data with
    | .error .noContinuation => .finished s.buf       -- caught → break (line 1061)
    | .error .videoUnavailable => .finished s.buf     -- caught → break (line 1064)
    | .error .videoNotFound => .finished s.buf        -- caught → break (line 1067)
    | .error _ => .crash                              -- ParsingError/TypeError unwind
    | .ok none =>
      -- if info is None: use_non_api_fallback = True; continue (lines 1056-1058)
      .next { s with useNonApiFallback := true } none
    | .ok (some info) => afterFetch isLive mt sT eT fuel s info

/-! ## Specification-side definitions used in the theorem statements -/

/-- Spec-side escaping for the abort-condition grammar: `\` ↦ `\\`,
    `&` ↦ `\&`, anything else verbatim.  Used to state that the tokenizer
    splits on unescaped `&` and unescapes `\&`/`\\`. -/
def escapeCond (t : List Char) : List Char :=
  (t.map (fun c =>
    if c = '\\' then ['\\', '\\']
    else if c = '&' then ['\\', '&']
    else [c])).flatten

/-- Intermediate form after undoing only the `\&` escapes: `\` ↦ `\\`,
    everything else verbatim. -/
def escB (t : List Char) : List Char :=
  (t.map (fun c => if c = '\\' then ['\\', '\\'] else [c])).flatten

/-- Decidable "contains neither `&` nor `\`". -/
def escFree (l : List Char) : Bool := l.all (fun c => c != '&' && c != '\\')

/-- The start-time filter applied to a record by line 1114 (given replay
    mode): keep when `start_time` is unset or the record's
    `time_in_seconds` is an int `≥ start_time`. -/
def keepStart (sT : Option Int) (r : List (String × JVal)) : Bool :=
  match sT with
  | none => true
  | some s0 =>
    match dictGet "time_in_seconds" r with
    | some (.num n) => decide (n ≥ s0)
    | _ => false

/-- Record `time_in_seconds` as an integer, when present in that shape. -/
def recTime (r : List (String × JVal)) : Option Int :=
  match dictGet "time_in_seconds" r with
  | some (.num n) => some n
  | _ => none

/-- Spec-side badge rank under the total order
    `"" < VERIFIED < MEMBER < MODERATOR < OWNER`. -/
def specRank : String → Nat
  | "VERIFIED" => 1
  | "MEMBER" => 2
  | "MODERATOR" => 3
  | "OWNER" => 4
  | _ => 0

def specRankName : Nat → String
  | 1 => "VERIFIED"
  | 2 => "MEMBER"
  | 3 => "MODERATOR"
  | 4 => "OWNER"
  | _ => ""

/-- The effective icon type a badge contributes to `author_type`:
    its `iconType` when present and truthy, else `MEMBER` when it has a
    truthy tooltip, else nothing.  (Restricted by the theorem's
    well-formedness hypothesis to the known icon names.) -/
def effIcon (b : JVal) : Option String :=
  match b with
  | .obj bf =>
    match dictGet "liveChatAuthorBadgeRenderer" bf with
    | some (.obj rf) =>
      if !pyTruthy (.obj rf) then none
      else
        let tooltipTruthy :=
          match dictGet "tooltip" rf with
          | some tv => pyTruthy tv
          | none => false
        let icon :=
          match dictGet "icon" rf with
          | some (.obj icf) =>
            match dictGet "iconType" icf with
            | some (.str it) => if it ≠ "" then some it else none
            | _ => none
          | _ => none
        match icon with
        | some it => some it
        | none => if tooltipTruthy then some "MEMBER" else none
    | _ => none
  | _ => none

/-- The tooltip a badge appends to `badges`, when any. -/
def badgeTooltip (b : JVal) : Option String :=
  match b with
  | .obj bf =>
    match dictGet "liveChatAuthorBadgeRenderer" bf with
    | some (.obj rf) =>
      if !pyTruthy (.obj rf) then none
      else
        match dictGet "tooltip" rf with
        | some (.str t) => if t ≠ "" then some t else none
        | _ => none
    | _ => none
  | _ => none

/-- Decidable well-formedness of one badge entry, as assumed by the
    author-badge claim: a dict whose renderer is absent, falsy, or a dict
    with an optional string tooltip and an optional icon dict whose
    `iconType`, if present, is one of the four known names. -/
def badgeWF (b : JVal) : Bool :=
  match b with
  | .obj bf =>
    match dictGet "liveChatAuthorBadgeRenderer" bf with
    | none => true
    | some .null => false
    | some (.obj rf) =>
      (if (.obj rf : JVal) |> pyTruthy then
        (match dictGet "tooltip" rf with
         | none => true
         | some (.str _) => true
         | some _ => false) &&
        (match dictGet "icon" rf with
         | none => true
         | some (.obj icf) =>
           (match dictGet "iconType" icf with
            | none => true
            | some (.str it) =>
              (it == "VERIFIED") || (it == "MEMBER") || (it == "MODERATOR") || (it == "OWNER")
            | some _ => false)
         | some _ => false)
       else true)
    | some v => !pyTruthy v
  | _ => false

/-- Spec-side rank-max over a badge list. -/
def specMaxAuthorType (bs : List JVal) : String :=
  specRankName (((bs.filterMap effIcon).map specRank).foldr max 0)

/-- The condition-result strings of a group at a state (each falsy result
    contributing `""`), used to phrase the raised message. -/
def condResults {σ : Type} (g : List (String × (σ → Option String))) (st : σ) :
    List String :=
  g.map (fun c => (c.2 st).getD "")

/-- Decidable "every predicate of the group returns a truthy string". -/
def groupAllTruthy {σ : Type} (g : List (String × (σ → Option String))) (st : σ) : Bool :=
  g.all (fun c => pyTruthyStr (c.2 st))

/-- Python `'&'.join(tokens)` on character lists, used to state how the
    tokenizer splits a group string. -/
def joinAmp : List (List Char) → List Char
  | [] => []
  | [t] => t
  | t :: ts => t ++ '&' :: joinAmp ts

/-- Characters that pass through tokenizing and stripping untouched:
    not `&`, not `\`, not whitespace. -/
def condCharOK (c : Char) : Bool := !(c == '&') && !(c == '\\') && !(pyIsWS c)

/-! # Theorems

Helper lemmas first, then one theorem per claim (with witnesses and
counterexamples as needed). -/

/-! ## Digit and decimal-rendering lemmas -/

theorem digitChar10_isDigit {d : Nat} (h : d < 10) : (digitChar10 d).isDigit = true := by
  interval_cases d <;> rfl

theorem digitVal_digitChar10 {d : Nat} (h : d < 10) : digitVal (digitChar10 d) = d := by
  interval_cases d <;> rfl

theorem isDigit_ne_colon {c : Char} (h : c.isDigit = true) : c ≠ ':' := by
  intro he; subst he; simp at h

theorem isDigit_ne_comma {c : Char} (h : c.isDigit = true) : c ≠ ',' := by
  intro he; subst he; simp at h

theorem isDigit_ne_minus {c : Char} (h : c.isDigit = true) : c ≠ '-' := by
  intro he; subst he; simp at h

theorem isDigit_ne_plus {c : Char} (h : c.isDigit = true) : c ≠ '+' := by
  intro he; subst he; simp at h

theorem isDigit_ne_underscore {c : Char} (h : c.isDigit = true) : c ≠ '_' := by
  intro he; subst he; simp at h

theorem isDigit_not_ws {c : Char} (h : c.isDigit = true) : pyIsWS c = false := by
  unfold pyIsWS Char.isWhitespace
  by_cases h1 : c = ' '
  · subst h1; simp at h
  · by_cases h2 : c = '\t'
    · subst h2; simp at h
    · by_cases h3 : c = '\r'
      · subst h3; simp at h
      · by_cases h4 : c = '\n'
        · subst h4; simp at h
        · simp [h1, h2, h3, h4]

theorem natToDecAux_fuel_eq (n : Nat) : ∀ (f : Nat) (acc : List Char), n < f →
    natToDecAux f n acc = natToDec n ++ acc := by
  induction n using Nat.strong_induction_on with
  | _ n ih =>
    intro f acc hf
    match f with
    | 0 => omega
    | f' + 1 =>
      by_cases h : n < 10
      · simp only [natToDecAux, natToDec, h, if_true]
        simp
      · have hd : n / 10 < n := Nat.div_lt_self (by omega) (by omega)
        simp only [natToDecAux, natToDec, h, if_false]
        rw [ih (n / 10) hd f' (digitChar10 (n % 10) :: acc) (by omega)]
        rw [ih (n / 10) hd n [digitChar10 (n % 10)] (by omega)]
        simp

theorem natToDec_lt10 {n : Nat} (h : n < 10) : natToDec n = [digitChar10 n] := by
  simp only [natToDec, natToDecAux, h, if_true]

theorem natToDec_ge10 {n : Nat} (h : ¬ n < 10) :
    natToDec n = natToDec (n / 10) ++ [digitChar10 (n % 10)] := by
  conv_lhs => rw [natToDec]
  simp only [natToDecAux, h, if_false]
  exact natToDecAux_fuel_eq (n / 10) n [digitChar10 (n % 10)]
    (Nat.div_lt_self (by omega) (by omega))

theorem natToDec_ne_nil (n : Nat) : natToDec n ≠ [] := by
  by_cases h : n < 10
  · rw [natToDec_lt10 h]; simp
  · rw [natToDec_ge10 h]; simp

theorem natToDec_all_digits (n : Nat) : ∀ c ∈ natToDec n, c.isDigit = true := by
  induction n using Nat.strong_induction_on with
  | _ n ih =>
    by_cases h : n < 10
    · rw [natToDec_lt10 h]
      intro c hc
      simp at hc
      subst hc
      exact digitChar10_isDigit h
    · rw [natToDec_ge10 h]
      intro c hc
      rw [List.mem_append] at hc
      rcases hc with hc | hc
      · exact ih (n / 10) (Nat.div_lt_self (by omega) (by omega)) c hc
      · simp at hc
        subst hc
        exact digitChar10_isDigit (Nat.mod_lt _ (by omega))

theorem decVal_natToDec_aux (n : Nat) :
    ∀ i : Nat, (natToDec n).foldl (fun a c => a * 10 + digitVal c) i =
      i * 10 ^ (natToDec n).length + n := by
  induction n using Nat.strong_induction_on with
  | _ n ih =>
    intro i
    by_cases h : n < 10
    · rw [natToDec_lt10 h]
      simp [List.foldl, digitVal_digitChar10 h]
    · have hd : n / 10 < n := Nat.div_lt_self (by omega) (by omega)
      have hm : n % 10 < 10 := Nat.mod_lt _ (by omega)
      rw [natToDec_ge10 h, List.foldl_append, ih (n / 10) hd i]
      simp only [List.foldl_cons, List.foldl_nil, digitVal_digitChar10 hm,
        List.length_append, List.length_cons, List.length_nil]
      have hdm : n / 10 * 10 + n % 10 = n := by omega
      calc (i * 10 ^ (natToDec (n / 10)).length + n / 10) * 10 + n % 10
          = i * (10 ^ (natToDec (n / 10)).length * 10) + (n / 10 * 10 + n % 10) := by ring
        _ = i * 10 ^ ((natToDec (n / 10)).length + (0 + 1)) + n := by
            rw [hdm]; ring_nf
  
theorem decValDigits_natToDec (n : Nat) : decValDigits (natToDec n) = n := by
  have := decVal_natToDec_aux n 0
  simpa [decValDigits] using this

theorem dropWhile_all_false {p : Char → Bool} :
    ∀ {l : List Char}, (∀ c ∈ l, p c = false) → l.dropWhile p = l := by
  intro l h
  cases l with
  | nil => rfl
  | cons c cs =>
    rw [List.dropWhile_cons]
    simp [h c (by simp)]

theorem pyStrip_all_digits {l : List Char} (h : ∀ c ∈ l, c.isDigit = true) :
    pyStrip l = l := by
  unfold pyStrip
  rw [dropWhile_all_false (fun c hc => isDigit_not_ws (h c hc))]
  rw [dropWhile_all_false (fun c hc => isDigit_not_ws (h c (List.mem_reverse.mp hc)))]
  simp

theorem pyIntDigitsGo_digits :
    ∀ (l : List Char) (a : Nat), (∀ c ∈ l, c.isDigit = true) →
      pyIntDigitsGo l a = some (l.foldl (fun x c => x * 10 + digitVal c) a) := by
  intro l
  induction l with
  | nil => intro a _; rfl
  | cons c cs ih =>
    intro a h
    have hc : c.isDigit = true := h c (by simp)
    have hcs : ∀ x ∈ cs, x.isDigit = true := fun x hx => h x (by simp [hx])
    have hne : c ≠ '_' := isDigit_ne_underscore hc
    rw [pyIntDigitsGo.eq_def]
    simp only [hne, if_false, hc, if_true, List.foldl_cons]
    exact ih _ hcs

theorem pyIntStr_digits {l : List Char} (hne : l ≠ []) (h : ∀ c ∈ l, c.isDigit = true) :
    pyIntStr l = some ((decValDigits l : Int)) := by
  unfold pyIntStr
  rw [pyStrip_all_digits h]
  cases l with
  | nil => exact absurd rfl hne
  | cons c cs =>
    have hc : c.isDigit = true := h c (by simp)
    have hcm : c ≠ '-' := isDigit_ne_minus hc
    have hcp : c ≠ '+' := isDigit_ne_plus hc
    have hcs : ∀ x ∈ cs, x.isDigit = true := fun x hx => h x (by simp [hx])
    simp only [hcm, if_false, hcp]
    rw [pyIntDigits]
    simp only [hc, if_true]
    rw [pyIntDigitsGo_digits cs (digitVal c) hcs]
    simp [decValDigits]

theorem pyIntStr_natToDec (n : Nat) : pyIntStr (natToDec n) = some (n : Int) := by
  rw [pyIntStr_digits (natToDec_ne_nil n) (natToDec_all_digits n), decValDigits_natToDec]

theorem pad2_all_digits (n : Nat) : ∀ c ∈ pad2 n, c.isDigit = true := by
  unfold pad2
  split
  · intro c hc
    rcases List.mem_cons.mp hc with hc | hc
    · subst hc; rfl
    · exact natToDec_all_digits n c hc
  · exact natToDec_all_digits n

theorem pad2_ne_nil (n : Nat) : pad2 n ≠ [] := by
  unfold pad2
  split
  · simp
  · exact natToDec_ne_nil n

theorem decValDigits_pad2 (n : Nat) : decValDigits (pad2 n) = n := by
  unfold pad2
  split
  · simp only [decValDigits, List.foldl_cons]
    have : digitVal '0' = 0 := rfl
    rw [this]
    have := decVal_natToDec_aux n (0 * 10 + 0)
    simpa [decValDigits] using this
  · exact decValDigits_natToDec n

theorem pyIntStr_pad2 (n : Nat) : pyIntStr (pad2 n) = some (n : Int) := by
  rw [pyIntStr_digits (pad2_ne_nil n) (pad2_all_digits n), decValDigits_pad2]

theorem pySplit_no_sep {sep : Char} :
    ∀ {l : List Char}, (∀ c ∈ l, c ≠ sep) → pySplit sep l = [l] := by
  intro l
  induction l with
  | nil => intro _; rfl
  | cons c cs ih =>
    intro h
    rw [pySplit]
    rw [ih (fun x hx => h x (by simp [hx]))]
    simp [h c (by simp)]

theorem pySplit_ne_nil (sep : Char) : ∀ l, pySplit sep l ≠ []
  | [] => by simp [pySplit]
  | c :: rest => by
    rw [pySplit]
    cases h : pySplit sep rest with
    | nil => simp
    | cons t ts =>
      by_cases hc : c = sep <;> simp [hc]

theorem pySplit_append {sep : Char} {a b : List Char} (h : ∀ c ∈ a, c ≠ sep) :
    pySplit sep (a ++ sep :: b) = a :: pySplit sep b := by
  induction a with
  | nil =>
    rw [List.nil_append, pySplit]
    cases hb : pySplit sep b with
    | nil => exact absurd hb (pySplit_ne_nil sep b)
    | cons t ts => simp
  | cons c cs ih =>
    have hc : c ≠ sep := h c (by simp)
    rw [List.cons_append, pySplit, ih (fun x hx => h x (by simp [hx]))]
    simp [hc]

/-! ## `time_to_seconds` / `seconds_to_time` (claim C7) -/

theorem natToDec_length_ge1 (n : Nat) : 1 ≤ (natToDec n).length := by
  cases h : natToDec n with
  | nil => exact absurd h (natToDec_ne_nil n)
  | cons c cs => simp

theorem pad2_length_ge2 (n : Nat) : 2 ≤ (pad2 n).length := by
  unfold pad2
  split
  · simp [natToDec_length_ge1 n]
  · rename_i h
    rw [natToDec_ge10 h]
    simp only [List.length_append, List.length_cons, List.length_nil]
    have := natToDec_length_ge1 (n / 10)
    omega

theorem timeToSecondsL_hms (hh mm ss : Nat) :
    timeToSecondsL (natToDec hh ++ ':' :: (pad2 mm ++ ':' :: pad2 ss)) =
      some ((ss : Int) + 60 * ((mm : Int) + 60 * ((hh : Int) + 60 * 0))) := by
  have hfilter : (natToDec hh ++ ':' :: (pad2 mm ++ ':' :: pad2 ss)).filter
      (fun c => c ≠ ',') = natToDec hh ++ ':' :: (pad2 mm ++ ':' :: pad2 ss) := by
    rw [List.filter_eq_self]
    intro c hc
    rcases List.mem_append.mp hc with hc | hc
    · simpa using isDigit_ne_comma (natToDec_all_digits hh c hc)
    · rcases List.mem_cons.mp hc with hc | hc
      · subst hc; simp
      · rcases List.mem_append.mp hc with hc | hc
        · simpa using isDigit_ne_comma (pad2_all_digits mm c hc)
        · rcases List.mem_cons.mp hc with hc | hc
          · subst hc; simp
          · simpa using isDigit_ne_comma (pad2_all_digits ss c hc)
  have hsplit : pySplit ':' (natToDec hh ++ ':' :: (pad2 mm ++ ':' :: pad2 ss)) =
      [natToDec hh, pad2 mm, pad2 ss] := by
    rw [pySplit_append (fun c hc => isDigit_ne_colon (natToDec_all_digits hh c hc))]
    rw [pySplit_append (fun c hc => isDigit_ne_colon (pad2_all_digits mm c hc))]
    rw [pySplit_no_sep (fun c hc => isDigit_ne_colon (pad2_all_digits ss c hc))]
  rw [timeToSecondsL]
  rw [hfilter, hsplit]
  rw [List.mapM_cons, List.mapM_cons, List.mapM_cons, List.mapM_nil]
  rw [pyIntStr_natToDec, pyIntStr_pad2, pyIntStr_pad2]
  obtain ⟨c, cs, hcons⟩ := List.exists_cons_of_ne_nil (natToDec_ne_nil hh)
  have hcd := natToDec_all_digits hh c (by rw [hcons]; simp)
  have hnm : c ≠ '-' := isDigit_ne_minus hcd
  rw [hcons]
  simp [weightedSum60, hnm]

theorem secondsToTimeL_small {s : Nat} (hs : s < 86400) :
    secondsToTimeL (s : Int) =
      natToDec (s / 3600) ++ ':' :: (pad2 (s % 3600 / 60) ++ ':' :: pad2 (s % 60)) := by
  have hdays : ((s : Int)).fdiv 86400 = 0 := by
    rw [Int.fdiv_eq_ediv _ (by norm_num)]
    omega
  have hrem : (((s : Int)).emod 86400).toNat = s := by
    show (((s : Int)) % 86400).toNat = s
    omega
  have hh : (s % 3600) / 60 = s % 3600 / 60 := rfl
  have hne : natToDec (s / 3600) ++ ':' :: (pad2 (s % 3600 / 60) ++ ':' :: pad2 (s % 60)) ≠
      ['0', ':', '0'] := by
    intro he
    have hlen := congrArg List.length he
    simp only [List.length_append, List.length_cons] at hlen
    have l1 := natToDec_length_ge1 (s / 3600)
    have l2 := pad2_length_ge2 (s % 3600 / 60)
    have l3 := pad2_length_ge2 (s % 60)
    simp at hlen
    omega
  rw [secondsToTimeL]
  simp only [hdays, hrem]
  simp [hne]

/-- C7: `time_to_seconds` computes the sign-adjusted 60-power-weighted sum
    (`"01:02:03" ↦ 3723`, `"-00:30" ↦ -30`), `seconds_to_time 3723 = "1:02:03"`,
    and — as amended — the round trip `time_to_seconds (seconds_to_time s) = s`
    holds for every nonnegative `s` strictly below one day (86400 s); at
    86400 s and beyond, `str(timedelta)` switches to the `"D day, H:MM:SS"`
    form, which `time_to_seconds` cannot parse (see the counterexample). -/
theorem C7_time_conversion :
    time_to_seconds "01:02:03" = some 3723 ∧
    time_to_seconds "-00:30" = some (-30) ∧
    seconds_to_time 3723 = "1:02:03" ∧
    ∀ s : Nat, s < 86400 → timeToSecondsL (secondsToTimeL (s : Int)) = some (s : Int) := by
  refine ⟨by decide, by decide, by decide, ?_⟩
  intro s hs
  rw [secondsToTimeL_small hs, timeToSecondsL_hms]
  congr 1
  push_cast
  omega

/-- C7 counterexample: the round trip fails at `s = 86400`:
    `seconds_to_time 86400 = "1 day, 0:00:00"` and feeding that back into
    `time_to_seconds` raises (`int('1 day 0')` is a `ValueError`), rather
    than returning 86400 as the claim's universally quantified round-trip
    asserts. -/
theorem C7_roundtrip_counterexample :
    seconds_to_time 86400 = "1 day, 0:00:00" ∧
    timeToSecondsL (secondsToTimeL 86400) = none := by
  exact ⟨by decide, by decide⟩

/-- C7 witness: the round-trip part of `C7_time_conversion` applied at 3723. -/
theorem C7_witness :
    (3723 : Nat) < 86400 ∧ timeToSecondsL (secondsToTimeL (3723 : Int)) = some (3723 : Int) :=
  ⟨by decide, by
    have := C7_time_conversion.2.2.2 3723 (by decide)
    simpa using this⟩

/-! ## Colour conversion (claim C9) -/

theorem natToHexAux_fuel_eq (n : Nat) : ∀ (f : Nat) (acc : List Char), n < f →
    natToHexAux f n acc = natToHex n ++ acc := by
  induction n using Nat.strong_induction_on with
  | _ n ih =>
    intro f acc hf
    match f with
    | 0 => omega
    | f' + 1 =>
      by_cases h : n < 16
      · simp only [natToHexAux, natToHex, h, if_true]
        simp
      · have hd : n / 16 < n := Nat.div_lt_self (by omega) (by omega)
        simp only [natToHexAux, natToHex, h, if_false]
        rw [ih (n / 16) hd f' (digitChar16 (n % 16) :: acc) (by omega)]
        rw [ih (n / 16) hd n [digitChar16 (n % 16)] (by omega)]
        simp

theorem natToHex_lt16 {n : Nat} (h : n < 16) : natToHex n = [digitChar16 n] := by
  simp only [natToHex, natToHexAux, h, if_true]

theorem natToHex_lt256 {n : Nat} (h : n < 256) :
    natToHex n = if n < 16 then [digitChar16 n] else [digitChar16 (n / 16), digitChar16 (n % 16)] := by
  by_cases h16 : n < 16
  · simp [h16, natToHex_lt16]
  · have hd : n / 16 < 16 := by omega
    conv_lhs => rw [natToHex]
    simp only [natToHexAux, h16, if_false]
    rw [natToHexAux_fuel_eq (n / 16) n [digitChar16 (n % 16)] (by omega)]
    rw [natToHex_lt16 hd]
    simp [h16]

/-- Two-digit lowercase hex of a byte, as the claim describes it. -/
theorem pyHex02_byte {n : Nat} (h : n < 256) :
    pyHex02 (n : Int) = [digitChar16 (n / 16), digitChar16 (n % 16)] := by
  rw [pyHex02]
  have hnn : ¬((n : Int) < 0) := by omega
  simp only [hnn, if_false]
  have habs : ((n : Int)).natAbs = n := Int.natAbs_ofNat n
  rw [habs, natToHex_lt256 h]
  by_cases h16 : n < 16
  · have hd0 : n / 16 = 0 := by omega
    have hm : n % 16 = n := by omega
    simp [h16, hd0, hm, digitChar16]
  · simp [h16]

theorem pyShrMask255_nat (v : Nat) (k : Nat) :
    pyShrMask255 (v : Int) k = ((v / 2 ^ k % 256 : Nat) : Int) := by
  rw [pyShrMask255]
  rw [Int.fdiv_eq_ediv _ (by positivity)]
  push_cast
  rfl

/-- C9: for every 32-bit ARGB integer `v`, `__get_colours` yields
    `rgba = [(v>>16)&255, (v>>8)&255, v&255, (v>>24)&255]` (each component
    written as `v / 2^k % 256` below) and `hex = '#'` followed by the
    two-digit lowercase hex of r, g, b, a in that order; in particular
    `0x80FF0000` gives `rgba = [255, 0, 0, 128]` and `hex = "#ff000080"`. -/
theorem C9_colour_conversion :
    (∀ v : Nat, v < 2 ^ 32 →
      get_colours (.num (v : Int)) = some (.obj
        [("rgba", .arr [.num ((v / 2 ^ 16 % 256 : Nat) : Int),
                        .num ((v / 2 ^ 8 % 256 : Nat) : Int),
                        .num ((v / 2 ^ 0 % 256 : Nat) : Int),
                        .num ((v / 2 ^ 24 % 256 : Nat) : Int)]),
         ("hex", .str ⟨'#' ::
           ([digitChar16 (v / 2 ^ 16 % 256 / 16), digitChar16 (v / 2 ^ 16 % 256 % 16)] ++
            [digitChar16 (v / 2 ^ 8 % 256 / 16), digitChar16 (v / 2 ^ 8 % 256 % 16)] ++
            [digitChar16 (v / 2 ^ 0 % 256 / 16), digitChar16 (v / 2 ^ 0 % 256 % 16)] ++
            [digitChar16 (v / 2 ^ 24 % 256 / 16), digitChar16 (v / 2 ^ 24 % 256 % 16)])⟩)])) ∧
    get_colours (.num 0x80FF0000) = some (.obj
      [("rgba", .arr [.num 255, .num 0, .num 0, .num 128]),
       ("hex", .str "#ff000080")]) := by
  constructor
  · intro v _hv
    have hb : ∀ k : Nat, v / 2 ^ k % 256 < 256 := fun k => Nat.mod_lt _ (by omega)
    rw [get_colours]
    rw [arbg_int_to_rgba]
    rw [pyShrMask255_nat, pyShrMask255_nat, pyShrMask255_nat, pyShrMask255_nat]
    rw [rgba_to_hex]
    rw [pyHex02_byte (hb 16), pyHex02_byte (hb 8), pyHex02_byte (hb 0), pyHex02_byte (hb 24)]
    simp
  · rfl

/-- C9 witness: the universally quantified part applied at `0x80FF0000`. -/
theorem C9_witness :
    (0x80FF0000 : Nat) < 2 ^ 32 ∧
    get_colours (.num ((0x80FF0000 : Nat) : Int)) = some (.obj
      [("rgba", .arr [.num ((0x80FF0000 / 2 ^ 16 % 256 : Nat) : Int),
                      .num ((0x80FF0000 / 2 ^ 8 % 256 : Nat) : Int),
                      .num ((0x80FF0000 / 2 ^ 0 % 256 : Nat) : Int),
                      .num ((0x80FF0000 / 2 ^ 24 % 256 : Nat) : Int)]),
       ("hex", .str ⟨'#' ::
         ([digitChar16 (0x80FF0000 / 2 ^ 16 % 256 / 16), digitChar16 (0x80FF0000 / 2 ^ 16 % 256 % 16)] ++
          [digitChar16 (0x80FF0000 / 2 ^ 8 % 256 / 16), digitChar16 (0x80FF0000 / 2 ^ 8 % 256 % 16)] ++
          [digitChar16 (0x80FF0000 / 2 ^ 0 % 256 / 16), digitChar16 (0x80FF0000 / 2 ^ 0 % 256 % 16)] ++
          [digitChar16 (0x80FF0000 / 2 ^ 24 % 256 / 16), digitChar16 (0x80FF0000 / 2 ^ 24 % 256 % 16)])⟩)]) :=
  ⟨by decide, C9_colour_conversion.1 0x80FF0000 (by decide)⟩

/-! ## Tokenizer lemmas (claim C5) -/

theorem pyReplace2_pair {p1 p2 r : Char} {l : List Char} :
    pyReplace2 p1 p2 r (p1 :: p2 :: l) = r :: pyReplace2 p1 p2 r l := by
  rw [pyReplace2]
  simp

theorem pyReplace2_nopair {p1 p2 r c1 c2 : Char} {l : List Char}
    (h : ¬(c1 = p1 ∧ c2 = p2)) :
    pyReplace2 p1 p2 r (c1 :: c2 :: l) = c1 :: pyReplace2 p1 p2 r (c2 :: l) := by
  rw [pyReplace2]
  simp [h]

theorem pyReplace2_head {p1 p2 r c : Char} {l : List Char} (h : c ≠ p1) :
    pyReplace2 p1 p2 r (c :: l) = c :: pyReplace2 p1 p2 r l := by
  cases l with
  | nil => rfl
  | cons d rest => exact pyReplace2_nopair (fun hc => h hc.1)

theorem pyReplace2_ne_nil {p1 p2 r : Char} {l : List Char} (h : l ≠ []) :
    pyReplace2 p1 p2 r l ≠ [] := by
  cases l with
  | nil => exact absurd rfl h
  | cons c rest =>
    cases rest with
    | nil => simp [pyReplace2]
    | cons d rest' =>
      rw [pyReplace2]
      split <;> simp

theorem unescapeCond_ne_nil {l : List Char} (h : l ≠ []) : unescapeCond l ≠ [] :=
  pyReplace2_ne_nil (pyReplace2_ne_nil h)

theorem escapeCond_cons (c : Char) (t : List Char) :
    escapeCond (c :: t) =
      (if c = '\\' then ['\\', '\\'] else if c = '&' then ['\\', '&'] else [c]) ++ escapeCond t := by
  simp [escapeCond]

theorem escB_cons (c : Char) (t : List Char) :
    escB (c :: t) = (if c = '\\' then ['\\', '\\'] else [c]) ++ escB t := by
  simp [escB]

theorem escapeCond_ne_nil {t : List Char} (h : t ≠ []) : escapeCond t ≠ [] := by
  cases t with
  | nil => exact absurd rfl h
  | cons c t' =>
    rw [escapeCond_cons]
    split <;> simp
    split <;> simp

theorem escRep1_both :
    ∀ (n : Nat) (t : List Char), t.length ≤ n →
      pyReplace2 '\\' '&' '&' (escapeCond t) = escB t ∧
      pyReplace2 '\\' '&' '&' ('\\' :: escapeCond t) = '\\' :: escB t := by
  intro n
  induction n with
  | zero =>
    intro t ht
    have : t = [] := by
      cases t with
      | nil => rfl
      | cons c t' => simp at ht
    subst this
    exact ⟨rfl, rfl⟩
  | succ n ih =>
    intro t ht
    cases t with
    | nil => exact ⟨rfl, rfl⟩
    | cons c t' =>
      have ht' : t'.length ≤ n := by simpa using ht
      have ih1 := (ih t' ht').1
      have ih2 := (ih t' ht').2
      constructor
      · rw [escapeCond_cons]
        by_cases h1 : c = '\\'
        · subst h1
          simp only [if_true, reduceIte, List.cons_append, List.nil_append]
          rw [pyReplace2_nopair (by simp), ih2, escB_cons]
          simp
        · by_cases h2 : c = '&'
          · subst h2
            simp only [h1, if_false, reduceIte, List.cons_append, List.nil_append]
            rw [pyReplace2_pair, ih1, escB_cons]
            simp
          · simp only [h1, h2, if_false, List.cons_append, List.nil_append]
            rw [pyReplace2_head h1, ih1, escB_cons]
            simp [h1]
      · rw [escapeCond_cons]
        by_cases h1 : c = '\\'
        · subst h1
          simp only [if_true, reduceIte, List.cons_append, List.nil_append]
          rw [pyReplace2_nopair (by simp), pyReplace2_nopair (by simp), ih2, escB_cons]
          simp
        · by_cases h2 : c = '&'
          · subst h2
            simp only [h1, if_false, reduceIte, List.cons_append, List.nil_append]
            rw [pyReplace2_nopair (by simp), pyReplace2_pair, ih1, escB_cons]
            simp [h1]
          · simp only [h1, h2, if_false, List.cons_append, List.nil_append]
            rw [pyReplace2_nopair (by simp [h2]), pyReplace2_head h1, ih1, escB_cons]
            simp [h1]

theorem escRep2 : ∀ t : List Char, pyReplace2 '\\' '\\' '\\' (escB t) = t := by
  intro t
  induction t with
  | nil => rfl
  | cons c t' ih =>
    rw [escB_cons]
    by_cases h1 : c = '\\'
    · subst h1
      simp only [if_true, reduceIte, List.cons_append, List.nil_append]
      rw [pyReplace2_pair, ih]
    · simp only [h1, if_false, List.cons_append, List.nil_append]
      rw [pyReplace2_head h1, ih]

theorem unescape_escape (t : List Char) : unescapeCond (escapeCond t) = t := by
  rw [unescapeCond, (escRep1_both t.length t (le_refl _)).1, escRep2]

theorem tokenizeGo_escaped (t : List Char) :
    ∀ (rest cur : List Char),
      tokenizeGo (escapeCond t ++ rest) cur =
        tokenizeGo rest ((escapeCond t).reverse ++ cur) := by
  induction t with
  | nil => simp [escapeCond]
  | cons c t' ih =>
    intro rest cur
    rw [escapeCond_cons]
    by_cases h1 : c = '\\'
    · subst h1
      simp only [if_true, reduceIte, List.cons_append, List.nil_append, List.append_assoc]
      rw [tokenizeGo.eq_def]
      simp only [if_true, reduceIte]
      have hnl : ('\\' : Char) ≠ '\n' := by decide
      simp only [hnl, if_false, reduceIte]
      rw [ih]
      simp [List.reverse_append]
    · by_cases h2 : c = '&'
      · subst h2
        simp only [h1, if_false, reduceIte, List.cons_append, List.nil_append,
          List.append_assoc]
        rw [tokenizeGo.eq_def]
        have hna : ('\\' : Char) ≠ '&' := by decide
        have hne : ('&' : Char) ≠ '\n' := by decide
        simp only [if_true, reduceIte, hne, if_false]
        rw [ih]
        simp [List.reverse_append]
      · simp only [h1, h2, if_false, List.cons_append, List.nil_append]
        rw [tokenizeGo.eq_def]
        simp only [h1, h2, if_false, reduceIte]
        rw [ih]
        simp [List.reverse_append]

theorem tokenize_escaped_join :
    ∀ ts : List (List Char), ts ≠ [] → (∀ t ∈ ts, t ≠ []) →
      tokenizeAbortConditionGroup (joinAmp (ts.map escapeCond)) = .ok ts := by
  intro ts
  induction ts with
  | nil => intro h _; exact absurd rfl h
  | cons t ts' ih =>
    intro _ hne
    have hte : t ≠ [] := hne t (by simp)
    cases ts' with
    | nil =>
      rw [List.map_cons, List.map_nil]
      show tokenizeGo (joinAmp [escapeCond t]) [] = .ok [t]
      rw [joinAmp]
      have := tokenizeGo_escaped t [] []
      rw [List.append_nil] at this
      rw [this, tokenizeGo]
      have hrev : (escapeCond t).reverse ++ [] ≠ [] := by
        simp [escapeCond_ne_nil hte]
      simp only [List.append_nil, List.isEmpty_iff]
      rw [if_neg (by simpa using hrev)]
      simp [unescape_escape]
    | cons t2 ts'' =>
      rw [List.map_cons]
      show tokenizeGo (joinAmp (escapeCond t :: (t2 :: ts'').map escapeCond)) [] = .ok (t :: t2 :: ts'')
      rw [joinAmp.eq_def]
      simp only [List.map_cons]
      rw [tokenizeGo_escaped t (('&' :: joinAmp (escapeCond t2 :: ts''.map escapeCond))) []]
      rw [tokenizeGo.eq_def]
      have hna : ('&' : Char) ≠ '\\' := by decide
      simp only [hna, if_false, if_true, reduceIte, List.append_nil]
      rw [if_neg (by simpa using escapeCond_ne_nil hte)]
      have hih := ih (by simp) (fun x hx => hne x (by simp [hx]))
      rw [List.map_cons] at hih
      rw [tokenizeAbortConditionGroup] at hih
      rw [hih]
      simp [unescape_escape]

theorem tokenizeGo_no_empty_token_aux :
    ∀ (n : Nat) (l cur : List Char) (ts : List (List Char)), l.length ≤ n →
      tokenizeGo l cur = .ok ts → ∀ t ∈ ts, t ≠ [] := by
  intro n
  induction n with
  | zero =>
    intro l cur ts hlen hok
    have hl : l = [] := by cases l with
      | nil => rfl
      | cons c l' => simp at hlen
    subst hl
    rw [tokenizeGo] at hok
    by_cases hc : cur.isEmpty
    · rw [if_pos (by simpa using hc)] at hok
      cases hok
    · rw [if_neg (by simpa using hc)] at hok
      injection hok with hts
      subst hts
      intro t ht
      simp at ht
      subst ht
      refine unescapeCond_ne_nil ?_
      intro hnil
      rw [List.isEmpty_iff] at hc
      exact hc (by simpa using congrArg List.reverse hnil)
  | succ n ih =>
    intro l cur ts hlen hok
    cases l with
    | nil => exact ih [] cur ts (by simp) hok
    | cons c l' =>
      rw [tokenizeGo.eq_def] at hok
      have hlen' : l'.length ≤ n := by simpa using hlen
      by_cases h1 : c = '\\'
      · simp only [h1, if_true, reduceIte] at hok
        cases l' with
        | nil => cases hok
        | cons d rest =>
          by_cases h2 : d = '\n'
          · simp [h2] at hok
          · simp only [h2, if_false, reduceIte] at hok
            exact ih rest _ ts (by simp at hlen'; omega) hok
      · simp only [h1, if_false, reduceIte] at hok
        by_cases h2 : c = '&'
        · simp only [h2, if_true, reduceIte] at hok
          by_cases hc : cur.isEmpty
          · rw [if_pos (by simpa using hc)] at hok
            cases hok
          · rw [if_neg (by simpa using hc)] at hok
            cases hrec : tokenizeGo l' [] with
            | error e => rw [hrec] at hok; cases hok
            | ok ts' =>
              rw [hrec] at hok
              have hok' : (Except.ok (unescapeCond cur.reverse :: ts') :
                  Except AbortParseError (List (List Char))) = Except.ok ts := hok
              injection hok' with hts
              subst hts
              intro t ht
              rcases List.mem_cons.mp ht with ht | ht
              · subst ht
                refine unescapeCond_ne_nil ?_
                intro hnil
                rw [List.isEmpty_iff] at hc
                exact hc (by simpa using congrArg List.reverse hnil)
              · exact ih l' [] ts' hlen' hrec t ht
        · simp only [h2, if_false] at hok
          exact ih l' _ ts hlen' hok

theorem tokenizeGo_no_empty_token (l cur : List Char) (ts : List (List Char))
    (hok : tokenizeGo l cur = .ok ts) : ∀ t ∈ ts, t ≠ [] :=
  tokenizeGo_no_empty_token_aux l.length l cur ts (le_refl _) hok

theorem tokenizeGo_trailing_backslash :
    ∀ (l cur : List Char), (∀ c ∈ l, c ≠ '\\') →
      ∃ e, tokenizeGo (l ++ ['\\']) cur = .error e := by
  intro l
  induction l with
  | nil =>
    intro cur _
    exact ⟨.unexpectedEnd, rfl⟩
  | cons c l' ih =>
    intro cur hnb
    have hc : c ≠ '\\' := hnb c (by simp)
    have hrest : ∀ x ∈ l', x ≠ '\\' := fun x hx => hnb x (by simp [hx])
    rw [List.cons_append, tokenizeGo.eq_def]
    simp only [hc, if_false, reduceIte]
    by_cases h2 : c = '&'
    · simp only [h2, if_true, reduceIte]
      by_cases hcur : cur.isEmpty
      · exact ⟨.emptyCond, by simp [hcur]⟩
      · simp only [hcur, if_false]
        obtain ⟨e, he⟩ := ih [] hrest
        refine ⟨e, ?_⟩
        rw [he]
        rfl
    · simp only [h2, if_false]
      exact ih _ hrest

theorem pyStrip_eq_self {l : List Char} (h : ∀ c ∈ l, pyIsWS c = false) : pyStrip l = l := by
  unfold pyStrip
  rw [dropWhile_all_false h, dropWhile_all_false (fun c hc => h c (List.mem_reverse.mp hc))]
  simp

theorem takeWhile_append_stop {p : Char → Bool} {a : List Char} {b0 : Char} {b : List Char}
    (ha : ∀ c ∈ a, p c = true) (hb : p b0 = false) :
    (a ++ b0 :: b).takeWhile p = a ∧ (a ++ b0 :: b).dropWhile p = b0 :: b := by
  induction a with
  | nil => simp [List.takeWhile_cons, List.dropWhile_cons, hb]
  | cons c cs ih =>
    have hc : p c = true := ha c (by simp)
    have ih' := ih (fun x hx => ha x (by simp [hx]))
    simp [List.takeWhile_cons, List.dropWhile_cons, hc, ih'.1, ih'.2]

theorem escapeCond_escFree {t : List Char} (h : ∀ c ∈ t, c ≠ '\\' ∧ c ≠ '&') :
    escapeCond t = t := by
  induction t with
  | nil => rfl
  | cons c cs ih =>
    have hc := h c (by simp)
    rw [escapeCond_cons, ih (fun x hx => h x (by simp [hx]))]
    simp [hc.1, hc.2]

theorem condCharOK_spec {c : Char} (h : condCharOK c = true) :
    c ≠ '&' ∧ c ≠ '\\' ∧ pyIsWS c = false := by
  unfold condCharOK at h
  simp only [Bool.and_eq_true, Bool.not_eq_true', beq_eq_false_iff_ne, ne_eq,
    Bool.not_eq_true] at h
  exact ⟨h.1.1, h.1.2, h.2⟩

theorem file_exists_data_chars :
    ∀ c ∈ "file_exists".data, c ≠ '&' ∧ c ≠ '\\' ∧ pyIsWS c = false ∧ c ≠ ':' := by
  decide

theorem parseCondLoop_file_exists_step (env : PyEnv) (total : Nat)
    (rest : List (List Char)) (seen : List String)
    (group : List (String × PCond)) (sigs : List (String × SignalAbortType))
    (p : List Char) (hp : p.all condCharOK = true)
    (hseen : ("file_exists" : String) ∉ seen) :
    parseCondLoop env total (("file_exists".data ++ ':' :: p) :: rest) seen group sigs =
      parseCondLoop env total rest ("file_exists" :: seen)
        (group ++ [(⟨"file_exists".data ++ ':' :: p⟩, .file_exists (some ⟨p⟩))]) sigs := by
  have hpchars : ∀ c ∈ p, c ≠ '&' ∧ c ≠ '\\' ∧ pyIsWS c = false := by
    intro c hc
    exact condCharOK_spec (by
      rw [List.all_eq_true] at hp
      exact hp c hc)
  have hstrip : pyStrip ("file_exists".data ++ ':' :: p) = "file_exists".data ++ ':' :: p := by
    apply pyStrip_eq_self
    intro c hc
    rcases List.mem_append.mp hc with hc | hc
    · exact (file_exists_data_chars c hc).2.2.1
    · rcases List.mem_cons.mp hc with hc | hc
      · subst hc; rfl
      · exact (hpchars c hc).2.2
  have htake := @takeWhile_append_stop (fun c => decide (c ≠ ':')) "file_exists".data ':' p
    (fun c hc => by simpa using (file_exists_data_chars c hc).2.2.2) (by simp)
  have hcontains : ("file_exists".data ++ ':' :: p).contains ':' = true := by
    simp [List.contains]
  have hsplit : pySplitColon1 ("file_exists".data ++ ':' :: p) =
      ("file_exists".data, some p) := by
    unfold pySplitColon1
    rw [if_pos hcontains, htake.1, htake.2]
    simp
  rw [parseCondLoop]
  rw [hstrip, hsplit]
  have hname : (⟨"file_exists".data⟩ : String) = "file_exists" := rfl
  simp only [hname]
  rw [if_neg hseen]
  rw [if_neg (by decide), if_neg (by decide)]
  simp

theorem parseCondLoop_duplicate (env : PyEnv) (total : Nat)
    (rest : List (List Char)) (seen : List String)
    (group : List (String × PCond)) (sigs : List (String × SignalAbortType))
    (q : List Char) (hq : q.all condCharOK = true)
    (hseen : ("file_exists" : String) ∈ seen) :
    parseCondLoop env total (("file_exists".data ++ ':' :: q) :: rest) seen group sigs =
      .error (.duplicateCond "file_exists") := by
  have hqchars : ∀ c ∈ q, c ≠ '&' ∧ c ≠ '\\' ∧ pyIsWS c = false := by
    intro c hc
    exact condCharOK_spec (by
      rw [List.all_eq_true] at hq
      exact hq c hc)
  have hstrip : pyStrip ("file_exists".data ++ ':' :: q) = "file_exists".data ++ ':' :: q := by
    apply pyStrip_eq_self
    intro c hc
    rcases List.mem_append.mp hc with hc | hc
    · exact (file_exists_data_chars c hc).2.2.1
    · rcases List.mem_cons.mp hc with hc | hc
      · subst hc; rfl
      · exact (hqchars c hc).2.2
  have htake := @takeWhile_append_stop (fun c => decide (c ≠ ':')) "file_exists".data ':' q
    (fun c hc => by simpa using (file_exists_data_chars c hc).2.2.2) (by simp)
  have hcontains : ("file_exists".data ++ ':' :: q).contains ':' = true := by
    simp [List.contains]
  have hsplit : pySplitColon1 ("file_exists".data ++ ':' :: q) =
      ("file_exists".data, some q) := by
    unfold pySplitColon1
    rw [if_pos hcontains, htake.1, htake.2]
    simp
  rw [parseCondLoop]
  rw [hstrip, hsplit]
  have hname : (⟨"file_exists".data⟩ : String) = "file_exists" := rfl
  simp only [hname]
  rw [if_pos hseen]

/-- C5: parsing an abort-condition group splits on every unescaped `&`
    (with `\&` unescaping to `&` and `\\` to `\`, stated via the spec-side
    `escapeCond` round trip), whitespace around predicates is stripped, and
    an error is raised for: an empty predicate token (including the empty
    string), a trailing lone backslash, and two predicates with the same
    name within one group. -/
theorem C5_group_tokenizing :
    (∀ ts : List (List Char), ts ≠ [] → (∀ t ∈ ts, t ≠ []) →
      tokenizeAbortConditionGroup (joinAmp (ts.map escapeCond)) = .ok ts) ∧
    tokenizeAbortConditionGroup [] = .error .emptyCond ∧
    (∀ (l : List Char) (ts : List (List Char)),
      tokenizeAbortConditionGroup l = .ok ts → [] ∉ ts) ∧
    (∀ l : List Char, (∀ c ∈ l, c ≠ '\\') →
      ∃ e, tokenizeAbortConditionGroup (l ++ ['\\']) = .error e) ∧
    (∀ (env : PyEnv) (sigs : List (String × SignalAbortType)) (p q : List Char),
      p.all condCharOK = true → q.all condCharOK = true →
      parse_abort_condition_group env
        (("file_exists".data ++ ':' :: p) ++ '&' :: ("file_exists".data ++ ':' :: q)) sigs =
        .error (.duplicateCond "file_exists")) ∧
    parse_abort_condition_group {} " file_exists:/tmp/x \t".data [] =
      .ok ([("file_exists:/tmp/x", .file_exists (some "/tmp/x"))], []) := by
  refine ⟨tokenize_escaped_join, rfl, ?_, ?_, ?_, ?_⟩
  · intro l ts h hmem
    exact tokenizeGo_no_empty_token l [] ts h [] hmem rfl
  · intro l h
    exact tokenizeGo_trailing_backslash l [] h
  · intro env sigs p q hp hq
    have hchars : ∀ r : List Char, r.all condCharOK = true →
        ∀ c ∈ ("file_exists".data ++ ':' :: r), c ≠ '\\' ∧ c ≠ '&' := by
      intro r hr c hc
      rcases List.mem_append.mp hc with hc | hc
      · exact ⟨(file_exists_data_chars c hc).2.1, (file_exists_data_chars c hc).1⟩
      · rcases List.mem_cons.mp hc with hc | hc
        · subst hc; exact ⟨by decide, by decide⟩
        · have := condCharOK_spec (by rw [List.all_eq_true] at hr; exact hr c hc)
          exact ⟨this.2.1, this.1⟩
    have htok : tokenizeAbortConditionGroup
        (("file_exists".data ++ ':' :: p) ++ '&' :: ("file_exists".data ++ ':' :: q)) =
        .ok [("file_exists".data ++ ':' :: p), ("file_exists".data ++ ':' :: q)] := by
      have hne2 : ∀ t ∈ [("file_exists".data ++ ':' :: p), ("file_exists".data ++ ':' :: q)],
          t ≠ [] := by
        intro t ht
        rcases List.mem_cons.mp ht with ht | ht
        · subst ht; simp
        · simp only [List.mem_singleton] at ht
          subst ht; simp
      have hj := tokenize_escaped_join
        [("file_exists".data ++ ':' :: p), ("file_exists".data ++ ':' :: q)]
        (by simp) hne2
      rw [List.map_cons, List.map_cons, List.map_nil,
        escapeCond_escFree (hchars p hp), escapeCond_escFree (hchars q hq)] at hj
      simpa [joinAmp, List.append_assoc] using hj
    rw [parse_abort_condition_group, htok]
    show parseCondLoop env 2
      [("file_exists".data ++ ':' :: p), ("file_exists".data ++ ':' :: q)] [] [] sigs =
      .error (.duplicateCond "file_exists")
    rw [parseCondLoop_file_exists_step _ _ _ _ _ _ p hp (by simp)]
    rw [parseCondLoop_duplicate _ _ _ _ _ _ q hq (by simp)]
  · rfl

/-- C5 witness: the tokenizer round trip on `["a&b", "c"]`, the trailing
    backslash error on `"ab\"`, and the duplicate error on
    `"file_exists:/a&file_exists:/b"`. -/
theorem C5_witness :
    tokenizeAbortConditionGroup
      (joinAmp ([['a', '&', 'b'], ['c']].map escapeCond)) = .ok [['a', '&', 'b'], ['c']] ∧
    (∃ e, tokenizeAbortConditionGroup ("ab".data ++ ['\\']) = .error e) ∧
    parse_abort_condition_group {}
      (("file_exists".data ++ ':' :: "/a".data) ++ '&' :: ("file_exists".data ++ ':' :: "/b".data))
      [] = .error (.duplicateCond "file_exists") :=
  ⟨C5_group_tokenizing.1 [['a', '&', 'b'], ['c']] (by decide) (by decide),
   C5_group_tokenizing.2.2.2.1 "ab".data (by decide),
   C5_group_tokenizing.2.2.2.2.1 {} [] "/a".data "/b".data (by decide) (by decide)⟩

/-! ## `min_time_until_scheduled_start_time` (claim C6) -/

theorem isDigit_ne_backslash {c : Char} (h : c.isDigit = true) : c ≠ '\\' := by
  intro he; subst he; simp at h

theorem isDigit_ne_amp {c : Char} (h : c.isDigit = true) : c ≠ '&' := by
  intro he; subst he; simp at h

theorem min_time_name_chars :
    ∀ c ∈ "min_time_until_scheduled_start_time".data,
      c ≠ '&' ∧ c ≠ '\\' ∧ pyIsWS c = false ∧ c ≠ ':' := by
  decide

theorem parse_min_time_until (env : PyEnv) (sigs : List (String × SignalAbortType))
    (hs ms : List Char) (hhs : hs ≠ []) (hms : ms ≠ [])
    (hdh : ∀ c ∈ hs, c.isDigit = true) (hdm : ∀ c ∈ ms, c.isDigit = true) :
    parse_abort_condition_group env
      ("min_time_until_scheduled_start_time".data ++ ':' :: (hs ++ ':' :: ms)) sigs =
      .ok ([(⟨"min_time_until_scheduled_start_time".data ++ ':' :: (hs ++ ':' :: ms)⟩,
        .min_time_until_scheduled_start_time
          (decValDigits hs * 3600 + decValDigits ms * 60))], sigs) := by
  set tok := "min_time_until_scheduled_start_time".data ++ ':' :: (hs ++ ':' :: ms) with htokdef
  have htokne : tok ≠ [] := by simp [htokdef]
  have hescfree : ∀ c ∈ tok, c ≠ '\\' ∧ c ≠ '&' := by
    intro c hc
    rcases List.mem_append.mp hc with hc | hc
    · exact ⟨(min_time_name_chars c hc).2.1, (min_time_name_chars c hc).1⟩
    · rcases List.mem_cons.mp hc with hc | hc
      · subst hc; exact ⟨by decide, by decide⟩
      · rcases List.mem_append.mp hc with hc | hc
        · exact ⟨isDigit_ne_backslash (hdh c hc), isDigit_ne_amp (hdh c hc)⟩
        · rcases List.mem_cons.mp hc with hc | hc
          · subst hc; exact ⟨by decide, by decide⟩
          · exact ⟨isDigit_ne_backslash (hdm c hc), isDigit_ne_amp (hdm c hc)⟩
  have htok : tokenizeAbortConditionGroup tok = .ok [tok] := by
    have hj := tokenize_escaped_join [tok] (by simp) (by intro t ht; simp at ht; subst ht; exact htokne)
    rw [List.map_cons, List.map_nil, escapeCond_escFree hescfree] at hj
    simpa [joinAmp] using hj
  have hstrip : pyStrip tok = tok := by
    apply pyStrip_eq_self
    intro c hc
    rcases List.mem_append.mp hc with hc | hc
    · exact (min_time_name_chars c hc).2.2.1
    · rcases List.mem_cons.mp hc with hc | hc
      · subst hc; rfl
      · rcases List.mem_append.mp hc with hc | hc
        · exact isDigit_not_ws (hdh c hc)
        · rcases List.mem_cons.mp hc with hc | hc
          · subst hc; rfl
          · exact isDigit_not_ws (hdm c hc)
  have htake := @takeWhile_append_stop (fun c => decide (c ≠ ':'))
    "min_time_until_scheduled_start_time".data ':' (hs ++ ':' :: ms)
    (fun c hc => by simpa using (min_time_name_chars c hc).2.2.2) (by simp)
  have hsplit : pySplitColon1 tok = ("min_time_until_scheduled_start_time".data, some (hs ++ ':' :: ms)) := by
    unfold pySplitColon1
    rw [if_pos (by simp [htokdef, List.contains]), htokdef]
    rw [htake.1, htake.2]
    simp
  have hhmm : parseHHMM (hs ++ ':' :: ms) = some (decValDigits hs, decValDigits ms) := by
    unfold parseHHMM
    have htd := @takeWhile_append_stop Char.isDigit hs ':' ms hdh (by decide)
    rw [htd.1, htd.2]
    show (if hs ≠ [] ∧ ms ≠ [] ∧ ms.all Char.isDigit = true then
        some (decValDigits hs, decValDigits ms) else none) =
      some (decValDigits hs, decValDigits ms)
    rw [if_pos ⟨hhs, hms, List.all_eq_true.mpr (fun c hc => hdm c hc)⟩]
  rw [parse_abort_condition_group, htok]
  show parseCondLoop env 1 [tok] [] [] sigs = _
  rw [parseCondLoop]
  rw [hstrip, hsplit]
  have hname : (⟨"min_time_until_scheduled_start_time".data⟩ : String) =
    "min_time_until_scheduled_start_time" := rfl
  simp only [hname]
  rw [if_neg (show ("min_time_until_scheduled_start_time" : String) ∉ ([] : List String) by simp)]
  rw [if_neg (show ¬("min_time_until_scheduled_start_time" : String) =
    "changed_scheduled_start_time" by decide)]
  rw [if_pos trivial]
  rw [hhmm]
  rfl

theorem evalMinTime_msg_ne_empty (minSecs : Nat) (st : AbortState) :
    ∀ m, evalMinTimeUntil minSecs st = some m → m ≠ "" := by
  intro m hm
  unfold evalMinTimeUntil at hm
  cases hsst : st.scheduled_start_time with
  | none => rw [hsst] at hm; cases hm
  | some sched =>
    rw [hsst] at hm
    have hm' : (if sched - st.now > (minSecs : ℚ) then
        some ("current time (" ++ toString st.now ++ ") until scheduled start time (" ++
          toString sched ++ "): " ++ toString (sched - st.now) ++ " secs >= " ++
          toString minSecs ++ " secs")
      else none) = some m := hm
    by_cases hgt : sched - st.now > (minSecs : ℚ)
    · rw [if_pos hgt] at hm'
      injection hm' with hm'
      subst hm'
      intro he
      have hlen := congrArg String.length he
      have h14 : ("current time (" : String).length = 14 := rfl
      simp only [String.length_append, String.length_empty] at hlen
      omega
    · rw [if_neg hgt] at hm'
      cases hm'

/-- C6: the predicate compiled from
    `min_time_until_scheduled_start_time:<HH>:<MM>` carries
    `HH*3600 + MM*60` seconds, and at runtime returns a truthy
    (non-empty) message exactly when a scheduled start time is present in
    the state and `(scheduled_start_time - now)` strictly exceeds that
    bound; when no scheduled start time has been observed it returns
    null (false). -/
theorem C6_min_time_predicate :
    (∀ (env : PyEnv) (sigs : List (String × SignalAbortType)) (hs ms : List Char),
      hs ≠ [] → ms ≠ [] → (∀ c ∈ hs, c.isDigit = true) → (∀ c ∈ ms, c.isDigit = true) →
      parse_abort_condition_group env
        ("min_time_until_scheduled_start_time".data ++ ':' :: (hs ++ ':' :: ms)) sigs =
        .ok ([(⟨"min_time_until_scheduled_start_time".data ++ ':' :: (hs ++ ':' :: ms)⟩,
          .min_time_until_scheduled_start_time
            (decValDigits hs * 3600 + decValDigits ms * 60))], sigs)) ∧
    (∀ (minSecs : Nat) (st : AbortState),
      ((evalMinTimeUntil minSecs st).isSome = true ↔
        ∃ t : ℚ, st.scheduled_start_time = some t ∧ t - st.now > (minSecs : ℚ)) ∧
      (st.scheduled_start_time = none → evalMinTimeUntil minSecs st = none) ∧
      ∀ m, evalMinTimeUntil minSecs st = some m → m ≠ "") := by
  refine ⟨parse_min_time_until, ?_⟩
  intro minSecs st
  refine ⟨?_, ?_, evalMinTime_msg_ne_empty minSecs st⟩
  · unfold evalMinTimeUntil
    cases hsst : st.scheduled_start_time with
    | none => simp [hsst]
    | some sched =>
      by_cases hgt : sched - st.now > (minSecs : ℚ)
      · simp [hgt]
      · simp [hgt]
  · intro hnone
    unfold evalMinTimeUntil
    rw [hnone]

theorem C6_witness :
    parse_abort_condition_group { } "min_time_until_scheduled_start_time:01:30".data [] =
      .ok ([("min_time_until_scheduled_start_time:01:30",
        .min_time_until_scheduled_start_time 5400)], []) ∧
    (evalMinTimeUntil 5400 { scheduled_start_time := some 10000, now := 0 }).isSome = true ∧
    evalMinTimeUntil 5400 { scheduled_start_time := none, now := 0 } = none := by
  refine ⟨?_, ?_, ?_⟩
  · exact C6_min_time_predicate.1 { } [] "01".data "30".data
      (by decide) (by decide) (by decide) (by decide)
  · exact (C6_min_time_predicate.2 5400
      { scheduled_start_time := some 10000, now := 0 }).1.mpr ⟨10000, rfl, by norm_num⟩
  · exact (C6_min_time_predicate.2 5400
      { scheduled_start_time := none, now := 0 }).2.1 rfl

/-! ## `AbortConditionChecker.check` (claims C3 and C10) -/

theorem str_length_ne_zero (x : String) (hx : x ≠ "") : x.length ≠ 0 := by
  intro h0
  apply hx
  cases x with
  | mk d =>
    have hd : d = [] := List.length_eq_zero.mp h0
    subst hd
    rfl

theorem joinAnd_ne_empty (x : String) (xs : List String) (hx : x ≠ "") :
    joinAnd (x :: xs) ≠ "" := by
  cases xs with
  | nil => simpa [joinAnd] using hx
  | cons y ys =>
    intro h
    have hlen := congrArg String.length h
    have h5 : (" AND " : String).length = 5 := rfl
    simp only [joinAnd, String.length_append, h5] at hlen
    have hx0 := str_length_ne_zero x hx
    have h0 : ("" : String).length = 0 := rfl
    omega

theorem checkCondGroupGo_all_truthy {σ : Type} (st : σ)
    (g : List (String × (σ → Option String))) (acc : List String)
    (h : ∀ c ∈ g, pyTruthyStr (c.2 st) = true) :
    checkCondGroupGo st g acc =
      (if joinAnd (acc.reverse ++ condResults g st) = "" then none
       else some (joinAnd (acc.reverse ++ condResults g st))) := by
  induction g generalizing acc with
  | nil => simp [checkCondGroupGo, condResults]
  | cons c rest ih =>
    obtain ⟨name, f⟩ := c
    have hc : pyTruthyStr (f st) = true := h (name, f) (by simp)
    cases hf : f st with
    | none => rw [hf] at hc; simp [pyTruthyStr] at hc
    | some s =>
      rw [hf] at hc
      have hs : s ≠ "" := by simpa [pyTruthyStr] using hc
      simp only [checkCondGroupGo]
      rw [hf]
      show (if s = "" then none else checkCondGroupGo st rest (s :: acc)) = _
      rw [if_neg hs]
      rw [ih (s :: acc) (fun c hc => h c (by simp [hc]))]
      have harr : (s :: acc).reverse ++ condResults rest st =
          acc.reverse ++ condResults ((name, f) :: rest) st := by
        simp [condResults, hf, List.append_assoc]
      rw [harr]

theorem checkCondGroupGo_not_all_truthy {σ : Type} (st : σ)
    (g : List (String × (σ → Option String))) (acc : List String)
    (h : groupAllTruthy g st = false) :
    checkCondGroupGo st g acc = none := by
  induction g generalizing acc with
  | nil => simp [groupAllTruthy] at h
  | cons c rest ih =>
    obtain ⟨name, f⟩ := c
    simp only [checkCondGroupGo]
    cases hf : f st with
    | none => rfl
    | some s =>
      by_cases hs : s = ""
      · show (if s = "" then none else checkCondGroupGo st rest (s :: acc)) = none
        rw [if_pos hs]
      · show (if s = "" then none else checkCondGroupGo st rest (s :: acc)) = none
        rw [if_neg hs]
        apply ih
        simp only [groupAllTruthy, List.all_cons, hf] at h
        simp only [groupAllTruthy]
        cases hrest : rest.all (fun c => pyTruthyStr (c.2 st)) with
        | false => rfl
        | true =>
          rw [hrest] at h
          have hse : s = "" := by simpa [pyTruthyStr] using h
          exact absurd hse hs

theorem check_cond_group_some {σ : Type} (st : σ)
    (g : List (String × (σ → Option String))) (hne : g ≠ [])
    (h : ∀ c ∈ g, pyTruthyStr (c.2 st) = true) :
    check_cond_group st g = some (joinAnd (condResults g st)) ∧
      joinAnd (condResults g st) ≠ "" := by
  have hj : joinAnd (condResults g st) ≠ "" := by
    cases g with
    | nil => exact absurd rfl hne
    | cons c rest =>
      have hc := h c (by simp)
      cases hf : c.2 st with
      | none => rw [hf] at hc; simp [pyTruthyStr] at hc
      | some s =>
        rw [hf] at hc
        have hs : s ≠ "" := by simpa [pyTruthyStr] using hc
        have hcr : condResults (c :: rest) st = s :: condResults rest st := by
          simp [condResults, hf]
        rw [hcr]
        exact joinAnd_ne_empty s (condResults rest st) hs
  refine ⟨?_, hj⟩
  rw [check_cond_group, checkCondGroupGo_all_truthy st g [] h]
  simp [hj]

theorem check_cond_group_none {σ : Type} (st : σ)
    (g : List (String × (σ → Option String)))
    (h : g = [] ∨ groupAllTruthy g st = false) :
    check_cond_group st g = none := by
  rcases h with h | h
  · subst h; rfl
  · exact checkCondGroupGo_not_all_truthy st g [] h

theorem abortCheck_error_iff {σ : Type}
    (gs : List (List (String × (σ → Option String)))) (st : σ) :
    ((∃ m, abortCheck gs st = .error m) ↔
      ∃ g ∈ gs, g ≠ [] ∧ groupAllTruthy g st = true) ∧
    (∀ m, abortCheck gs st = .error m →
      ∃ g ∈ gs, g ≠ [] ∧ groupAllTruthy g st = true ∧
        m = joinAnd (condResults g st) ∧ m ≠ "") := by
  induction gs with
  | nil =>
    refine ⟨⟨?_, ?_⟩, ?_⟩
    · rintro ⟨m, hm⟩; cases hm
    · rintro ⟨g, hg, -⟩; cases hg
    · intro m hm; cases hm
  | cons g rest ih =>
    by_cases hg : g ≠ [] ∧ groupAllTruthy g st = true
    · obtain ⟨hne, hall⟩ := hg
      have hall' : ∀ c ∈ g, pyTruthyStr (c.2 st) = true := by
        intro c hc
        exact List.all_eq_true.mp hall c hc
      obtain ⟨hsome, hjne⟩ := check_cond_group_some st g hne hall'
      have hred : abortCheck (g :: rest) st = .error (joinAnd (condResults g st)) := by
        simp only [abortCheck]
        rw [hsome]
      refine ⟨⟨?_, ?_⟩, ?_⟩
      · intro _; exact ⟨g, by simp, hne, hall⟩
      · intro _; exact ⟨joinAnd (condResults g st), hred⟩
      · intro m hm
        rw [hred] at hm
        injection hm with hm
        exact ⟨g, by simp, hne, hall, hm.symm, hm ▸ hjne⟩
    · have hnone : check_cond_group st g = none := by
        rcases not_and_or.mp hg with h | h
        · exact check_cond_group_none st g (Or.inl (not_not.mp h))
        · exact check_cond_group_none st g (Or.inr (Bool.eq_false_iff.mpr h))
      have hred : abortCheck (g :: rest) st = abortCheck rest st := by
        simp only [abortCheck]
        rw [hnone]
      refine ⟨⟨?_, ?_⟩, ?_⟩
      · rw [hred]
        intro hm
        obtain ⟨g', hg', hrest⟩ := ih.1.mp hm
        exact ⟨g', by simp [hg'], hrest⟩
      · rintro ⟨g', hg', hcond⟩
        rcases List.mem_cons.mp hg' with rfl | hg'
        · exact absurd hcond hg
        · rw [hred]
          exact ih.1.mpr ⟨g', hg', hcond⟩
      · intro m hm
        rw [hred] at hm
        obtain ⟨g', hg', hrec⟩ := ih.2 m hm
        exact ⟨g', by simp [hg'], hrec⟩

/-- C3 (amended): after the state-updater functions run,
    `AbortConditionChecker.check` raises `AbortConditionsSatisfied`
    (modelled `.error m`) if and only if some NON-EMPTY condition group has
    every predicate returning a truthy string at the updated state; the
    raised message is the group's predicate result strings joined with
    " AND " (and is itself non-empty); when no such non-empty group exists
    — in particular for a group with zero predicates, whose conjunction is
    vacuously truthy but whose `' AND '.join(...) or None` yields `None` —
    `check` returns normally. -/
theorem C3_checker {σ : Type} (stateFuncs : List (σ → σ))
    (gs : List (List (String × (σ → Option String)))) (st : σ) :
    ((∃ m, checkerCheck stateFuncs gs st = .error m) ↔
      ∃ g ∈ gs, g ≠ [] ∧
        groupAllTruthy g (stateFuncs.foldl (fun s f => f s) st) = true) ∧
    (∀ m, checkerCheck stateFuncs gs st = .error m →
      ∃ g ∈ gs, g ≠ [] ∧
        groupAllTruthy g (stateFuncs.foldl (fun s f => f s) st) = true ∧
        m = joinAnd (condResults g (stateFuncs.foldl (fun s f => f s) st)) ∧
        m ≠ "") ∧
    ((¬ ∃ g ∈ gs, g ≠ [] ∧
        groupAllTruthy g (stateFuncs.foldl (fun s f => f s) st) = true) →
      checkerCheck stateFuncs gs st = .ok ()) := by
  have hdef : checkerCheck stateFuncs gs st =
      abortCheck gs (stateFuncs.foldl (fun s f => f s) st) := rfl
  have h := abortCheck_error_iff gs (stateFuncs.foldl (fun s f => f s) st)
  rw [hdef]
  refine ⟨h.1, h.2, ?_⟩
  intro hno
  cases hres : abortCheck gs (stateFuncs.foldl (fun s f => f s) st) with
  | ok u => cases u; rfl
  | error m => exact absurd (h.1.mp ⟨m, hres⟩) hno

/-- C3 counterexample to the original claim: for the group list `[[]]`
    (one group with zero predicates) every predicate of that group is
    vacuously truthy at the state, yet `check` returns normally instead of
    raising. -/
theorem C3_counterexample :
    ([] : List (String × (Unit → Option String))) ∈
        [([] : List (String × (Unit → Option String)))] ∧
    (∀ c ∈ ([] : List (String × (Unit → Option String))),
      pyTruthyStr (c.2 ()) = true) ∧
    checkerCheck [] [([] : List (String × (Unit → Option String)))] () = .ok () := by
  refine ⟨by simp, ?_, rfl⟩
  rintro c hc
  cases hc

/-- C3 witness: `C3_checker` applied to a concrete two-group list where the
    second group is all-truthy, yielding the joined " AND " message. -/
theorem C3_witness :
    ∃ g ∈ [[(("a", fun _ => none) : String × (Unit → Option String))],
           [("b", fun _ => some "B"), ("c", fun _ => some "C")]],
      g ≠ [] ∧ groupAllTruthy g
        (List.foldl (fun s f => f s) () ([] : List (Unit → Unit))) = true := by
  apply (C3_checker [] [[(("a", fun _ => none) : String × (Unit → Option String))],
    [("b", fun _ => some "B"), ("c", fun _ => some "C")]] ()).1.mp
  exact ⟨"B AND C", rfl⟩

/-! ## Empty condition groups from signal directives (claim C10) -/

/-- C10: parsing the signal directive `SIGINT:disable` registers the signal
    and yields an EMPTY condition group (no runtime predicates); an empty
    group evaluates to `None` (false) at every state — even though the
    conjunction of zero predicates is vacuously true, `' AND '.join([]) or
    None` yields `None` — so inserting an empty group anywhere in the group
    list never changes `check`'s outcome and can never raise
    `AbortConditionsSatisfied`. -/
theorem C10_signal_empty_group :
    parse_abort_condition_group { } "SIGINT:disable".data [] =
      .ok ([], [("SIGINT", .disable)]) ∧
    (∀ (σ : Type) (st : σ),
      check_cond_group st ([] : List (String × (σ → Option String))) = none) ∧
    (∀ (σ : Type) (gs1 gs2 : List (List (String × (σ → Option String)))) (st : σ),
      abortCheck (gs1 ++ [] :: gs2) st = abortCheck (gs1 ++ gs2) st) := by
  refine ⟨rfl, fun σ st => rfl, ?_⟩
  intro σ gs1 gs2 st
  induction gs1 with
  | nil =>
    show abortCheck ([] :: gs2) st = abortCheck gs2 st
    simp only [abortCheck]
    rw [show check_cond_group st ([] : List (String × (σ → Option String))) = none from rfl]
  | cons g rest ih =>
    show abortCheck (g :: (rest ++ [] :: gs2)) st = abortCheck (g :: (rest ++ gs2)) st
    simp only [abortCheck]
    rw [ih]

/-- C10 witness: `C10_signal_empty_group` applied with a concrete state and
    a concrete non-empty surrounding group list. -/
theorem C10_witness :
    abortCheck ([[(("x", fun _ => some "X") : String × (Unit → Option String))]] ++
        [] :: [[("y", fun _ => none)]]) () =
      abortCheck ([[(("x", fun _ => some "X") : String × (Unit → Option String))]] ++
        [[("y", fun _ => none)]]) () :=
  C10_signal_empty_group.2.2 Unit
    [[(("x", fun _ => some "X") : String × (Unit → Option String))]]
    [[("y", fun _ => none)]] ()

/-! ## `__parse_item` author badges (claim C8) -/

theorem foldr_max_init (xs : List Nat) (x i : Nat) :
    xs.foldr max (max x i) = max x (xs.foldr max i) := by
  induction xs with
  | nil => rfl
  | cons y ys ih =>
    simp only [List.foldr_cons, ih]
    omega

theorem foldr_max_perm {l1 l2 : List Nat} (h : l1.Perm l2) (i : Nat) :
    l1.foldr max i = l2.foldr max i := by
  induction h with
  | nil => rfl
  | cons x _ ih => simp only [List.foldr_cons, ih]
  | swap x y l => simp only [List.foldr_cons]; omega
  | trans _ _ ih1 ih2 => rw [ih1, ih2]

theorem allStrs_loop (l : List String) (acc : List String) :
    List.mapM.loop (fun v => match v with | JVal.str s => some s | _ => none)
      (l.map JVal.str) acc = some (acc.reverse ++ l) := by
  induction l generalizing acc with
  | nil => simp [List.mapM.loop]
  | cons x xs ih =>
    simp only [List.map_cons, List.mapM.loop, Option.bind_eq_bind, Option.some_bind]
    rw [ih (x :: acc)]
    simp

theorem allStrs_map_str (l : List String) : allStrs (l.map JVal.str) = some l := by
  show List.mapM _ _ = _
  rw [List.mapM]
  rw [allStrs_loop l []]
  rfl

theorem effIcon_wf (b : JVal) (hwf : badgeWF b = true) (it : String)
    (h : effIcon b = some it) :
    it = "VERIFIED" ∨ it = "MEMBER" ∨ it = "MODERATOR" ∨ it = "OWNER" := by
  cases b with
  | obj bf =>
    cases hbr : dictGet "liveChatAuthorBadgeRenderer" bf with
    | none => simp [effIcon, hbr] at h
    | some brv =>
      cases brv with
      | obj rf =>
        by_cases hty : pyTruthy (.obj rf) = true
        · have hwf' : ((match dictGet "tooltip" rf with
              | none => true
              | some (.str _) => true
              | some _ => false) &&
            (match dictGet "icon" rf with
              | none => true
              | some (.obj icf) =>
                (match dictGet "iconType" icf with
                 | none => true
                 | some (.str s) =>
                   (s == "VERIFIED") || (s == "MEMBER") || (s == "MODERATOR") || (s == "OWNER")
                 | some _ => false)
              | some _ => false)) = true := by
            have hb : badgeWF (.obj bf) = true := hwf
            simp only [badgeWF, hbr] at hb
            rw [if_pos hty] at hb
            exact hb
          rw [Bool.and_eq_true] at hwf'
          obtain ⟨htw, hiw⟩ := hwf'
          simp only [effIcon, hbr, hty, Bool.not_true, Bool.false_eq_true, if_false] at h
          cases hti : dictGet "icon" rf with
          | none =>
            rw [hti] at h
            by_cases htn : (match dictGet "tooltip" rf with
                | some tv => pyTruthy tv
                | none => false) = true
            · simp only [htn, if_true] at h
              injection h with h
              subst h
              right; left; rfl
            · simp only [Bool.not_eq_true] at htn
              simp [htn] at h
          | some icv =>
            rw [hti] at hiw
            cases icv with
            | obj icf =>
              simp only [hti] at h
              cases hit : dictGet "iconType" icf with
              | none =>
                simp only [hit] at h
                by_cases htn : (match dictGet "tooltip" rf with
                    | some tv => pyTruthy tv
                    | none => false) = true
                · simp only [htn, if_true] at h
                  injection h with h
                  subst h
                  right; left; rfl
                · simp only [Bool.not_eq_true] at htn
                  simp [htn] at h
              | some itv =>
                simp only [hit] at hiw
                cases itv with
                | str s =>
                  simp only [hit] at h
                  have hiw' : (s == "VERIFIED" || s == "MEMBER" || s == "MODERATOR" ||
                      s == "OWNER") = true := hiw
                  by_cases hse : s = ""
                  · subst hse; simp at hiw'
                  · simp only [ne_eq, hse, not_false_eq_true, if_true] at h
                    rcases h0 : (s == "VERIFIED") with _ | _ <;> rw [h0] at hiw'
                    · rcases h1 : (s == "MEMBER") with _ | _ <;> rw [h1] at hiw'
                      · rcases h2 : (s == "MODERATOR") with _ | _ <;> rw [h2] at hiw'
                        · rcases h3 : (s == "OWNER") with _ | _ <;> rw [h3] at hiw'
                          · simp at hiw'
                          · injection h with h; subst h
                            right; right; right; exact (beq_iff_eq.mp h3)
                        · injection h with h; subst h
                          right; right; left; exact (beq_iff_eq.mp h2)
                      · injection h with h; subst h
                        right; left; exact (beq_iff_eq.mp h1)
                    · injection h with h; subst h
                      left; exact (beq_iff_eq.mp h0)
                | null => simp at hiw
                | bool v => simp at hiw
                | num v => simp at hiw
                | fnum v => simp at hiw
                | arr v => simp at hiw
                | obj v => simp at hiw
            | null => simp at hiw
            | bool v => simp at hiw
            | num v => simp at hiw
            | fnum v => simp at hiw
            | str v => simp at hiw
            | arr v => simp at hiw
        · simp only [Bool.not_eq_true] at hty
          simp [effIcon, hbr, hty] at h
      | null => simp [effIcon, hbr] at h
      | bool v => simp [effIcon, hbr] at h
      | num v => simp [effIcon, hbr] at h
      | fnum v => simp [effIcon, hbr] at h
      | str v => simp [effIcon, hbr] at h
      | arr v => simp [effIcon, hbr] at h
  | null => simp [effIcon] at h
  | bool v => simp [effIcon] at h
  | num v => simp [effIcon] at h
  | fnum v => simp [effIcon] at h
  | str v => simp [effIcon] at h
  | arr v => simp [effIcon] at h

theorem badgesLoop_step (b : JVal) (rest : List JVal)
    (hwf : badgeWF b = true) (tooltips : List JVal) (a : String)
    (ha : a = "" ∨ a = "VERIFIED" ∨ a = "MEMBER" ∨ a = "MODERATOR" ∨ a = "OWNER") :
    badgesLoop (b :: rest) tooltips (.str a) =
      badgesLoop rest (tooltips ++ ((badgeTooltip b).map JVal.str).toList)
        (.str (match effIcon b with
               | none => a
               | some it => if specRank a ≤ specRank it then it else a)) := by
  cases b with
  | obj bf =>
    cases hbr : dictGet "liveChatAuthorBadgeRenderer" bf with
    | none => simp [badgesLoop, effIcon, badgeTooltip, pyTruthy, isEmptyStrJ, rankOfIconJ, specRank, hbr]
    | some brv =>
      cases brv with
      | null => simp [badgeWF, hbr] at hwf
      | obj rf =>
        by_cases hty : pyTruthy (.obj rf) = true
        · have hwf' : ((match dictGet "tooltip" rf with
              | none => true
              | some (.str _) => true
              | some _ => false) &&
            (match dictGet "icon" rf with
              | none => true
              | some (.obj icf) =>
                (match dictGet "iconType" icf with
                 | none => true
                 | some (.str s) =>
                   (s == "VERIFIED") || (s == "MEMBER") || (s == "MODERATOR") || (s == "OWNER")
                 | some _ => false)
              | some _ => false)) = true := by
            have hb : badgeWF (.obj bf) = true := hwf
            simp only [badgeWF, hbr] at hb
            rw [if_pos hty] at hb
            exact hb
          rw [Bool.and_eq_true] at hwf'
          obtain ⟨htw, hiw⟩ := hwf'
          have hre : rf.isEmpty = false := by simpa [pyTruthy] using hty
          cases htt : dictGet "tooltip" rf with
          | some tv =>
            cases tv with
            | str t =>
              cases hti : dictGet "icon" rf with
              | none =>
                by_cases htne : t = ""
                · subst htne
                  rcases ha with rfl|rfl|rfl|rfl|rfl <;>
                    simp [badgesLoop, effIcon, badgeTooltip, pyTruthy, isEmptyStrJ, rankOfIconJ, specRank, hbr, hty, hre, htt, hti]
                · rcases ha with rfl|rfl|rfl|rfl|rfl <;>
                    simp [badgesLoop, effIcon, badgeTooltip, pyTruthy, isEmptyStrJ, rankOfIconJ, specRank, hbr, hty, hre, htt, hti, htne]
              | some icv =>
                rw [hti] at hiw
                cases icv with
                | obj icf =>
                  cases hit : dictGet "iconType" icf with
                  | none =>
                    by_cases htne : t = ""
                    · subst htne
                      rcases ha with rfl|rfl|rfl|rfl|rfl <;>
                        simp [badgesLoop, effIcon, badgeTooltip, pyTruthy, isEmptyStrJ, rankOfIconJ, specRank, hbr, hty, hre, htt, hti, hit]
                    · rcases ha with rfl|rfl|rfl|rfl|rfl <;>
                        simp [badgesLoop, effIcon, badgeTooltip, pyTruthy, isEmptyStrJ, rankOfIconJ, specRank, hbr, hty, hre, htt, hti, hit, htne]
                  | some itv =>
                    simp only [hit] at hiw
                    cases itv with
                    | str s =>
                      have hiw' : (s == "VERIFIED" || s == "MEMBER" || s == "MODERATOR" ||
                          s == "OWNER") = true := hiw
                      have h4 : ((s = "VERIFIED" ∨ s = "MEMBER") ∨ s = "MODERATOR") ∨
                          s = "OWNER" := by simpa using hiw'
                      by_cases htne : t = ""
                      · subst htne
                        rcases h4 with ((rfl|rfl)|rfl)|rfl <;> rcases ha with rfl|rfl|rfl|rfl|rfl <;>
                          simp [badgesLoop, effIcon, badgeTooltip, pyTruthy, isEmptyStrJ, rankOfIconJ, specRank, hbr, hty, hre, htt, hti, hit]
                      · rcases h4 with ((rfl|rfl)|rfl)|rfl <;> rcases ha with rfl|rfl|rfl|rfl|rfl <;>
                          simp [badgesLoop, effIcon, badgeTooltip, pyTruthy, isEmptyStrJ, rankOfIconJ, specRank, hbr, hty, hre, htt, hti, hit, htne]
                    | null => simp at hiw
                    | bool v => simp at hiw
                    | num v => simp at hiw
                    | fnum v => simp at hiw
                    | arr v => simp at hiw
                    | obj v => simp at hiw
                | null => simp at hiw
                | bool v => simp at hiw
                | num v => simp at hiw
                | fnum v => simp at hiw
                | str v => simp at hiw
                | arr v => simp at hiw
            | null => simp [htt] at htw
            | bool v => simp [htt] at htw
            | num v => simp [htt] at htw
            | fnum v => simp [htt] at htw
            | arr v => simp [htt] at htw
            | obj v => simp [htt] at htw
          | none =>
            cases hti : dictGet "icon" rf with
            | none =>
              rcases ha with rfl|rfl|rfl|rfl|rfl <;>
                simp [badgesLoop, effIcon, badgeTooltip, pyTruthy, isEmptyStrJ, rankOfIconJ, specRank, hbr, hty, hre, htt, hti]
            | some icv =>
              rw [hti] at hiw
              cases icv with
              | obj icf =>
                cases hit : dictGet "iconType" icf with
                | none =>
                  rcases ha with rfl|rfl|rfl|rfl|rfl <;>
                    simp [badgesLoop, effIcon, badgeTooltip, pyTruthy, isEmptyStrJ, rankOfIconJ, specRank, hbr, hty, hre, htt, hti, hit]
                | some itv =>
                  simp only [hit] at hiw
                  cases itv with
                  | str s =>
                    have hiw' : (s == "VERIFIED" || s == "MEMBER" || s == "MODERATOR" ||
                        s == "OWNER") = true := hiw
                    have h4 : ((s = "VERIFIED" ∨ s = "MEMBER") ∨ s = "MODERATOR") ∨
                        s = "OWNER" := by simpa using hiw'
                    rcases h4 with ((rfl|rfl)|rfl)|rfl <;> rcases ha with rfl|rfl|rfl|rfl|rfl <;>
                      simp [badgesLoop, effIcon, badgeTooltip, pyTruthy, isEmptyStrJ, rankOfIconJ, specRank, hbr, hty, hre, htt, hti, hit]
                  | null => simp at hiw
                  | bool v => simp at hiw
                  | num v => simp at hiw
                  | fnum v => simp at hiw
                  | arr v => simp at hiw
                  | obj v => simp at hiw
              | null => simp at hiw
              | bool v => simp at hiw
              | num v => simp at hiw
              | fnum v => simp at hiw
              | str v => simp at hiw
              | arr v => simp at hiw
        · simp only [Bool.not_eq_true] at hty
          have hre : rf.isEmpty = true := by simpa [pyTruthy] using hty
          simp [badgesLoop, effIcon, badgeTooltip, pyTruthy, isEmptyStrJ, rankOfIconJ, specRank, hbr, hre]
      | bool v =>
        simp only [badgeWF, hbr] at hwf
        have hv : v = false := by simpa [pyTruthy] using hwf
        simp [badgesLoop, effIcon, badgeTooltip, pyTruthy, isEmptyStrJ, rankOfIconJ, specRank, hbr, hv]
      | num v =>
        simp only [badgeWF, hbr] at hwf
        have hv : v = (0 : Int) := by simpa [pyTruthy] using hwf
        simp [badgesLoop, effIcon, badgeTooltip, pyTruthy, isEmptyStrJ, rankOfIconJ, specRank, hbr, hv]
      | fnum v =>
        simp only [badgeWF, hbr] at hwf
        have hv : v = (0 : ℚ) := by simpa [pyTruthy] using hwf
        simp [badgesLoop, effIcon, badgeTooltip, pyTruthy, isEmptyStrJ, rankOfIconJ, specRank, hbr, hv]
      | str v =>
        simp only [badgeWF, hbr] at hwf
        have hv : v = "" := by simpa [pyTruthy] using hwf
        simp [badgesLoop, effIcon, badgeTooltip, pyTruthy, isEmptyStrJ, rankOfIconJ, specRank, hbr, hv]
      | arr v =>
        simp only [badgeWF, hbr] at hwf
        have hv : v = ([] : List JVal) := by simpa [pyTruthy] using hwf
        simp [badgesLoop, effIcon, badgeTooltip, pyTruthy, isEmptyStrJ, rankOfIconJ, specRank, hbr, hv]
  | null => simp [badgeWF] at hwf
  | bool v => simp [badgeWF] at hwf
  | num v => simp [badgeWF] at hwf
  | fnum v => simp [badgeWF] at hwf
  | str v => simp [badgeWF] at hwf
  | arr v => simp [badgeWF] at hwf

theorem badgesLoop_full (bs : List JVal) :
    ∀ (tooltips : List JVal) (a : String),
      (∀ b ∈ bs, badgeWF b = true) →
      (a = "" ∨ a = "VERIFIED" ∨ a = "MEMBER" ∨ a = "MODERATOR" ∨ a = "OWNER") →
      badgesLoop bs tooltips (.str a) =
        some (tooltips ++ (bs.filterMap badgeTooltip).map JVal.str,
          .str (specRankName (((bs.filterMap effIcon).map specRank).foldr max
            (specRank a)))) := by
  induction bs with
  | nil =>
    intro tooltips a _ ha
    rcases ha with rfl|rfl|rfl|rfl|rfl <;> simp [badgesLoop, specRank, specRankName]
  | cons b rest ih =>
    intro tooltips a hwf ha
    rw [badgesLoop_step b rest (hwf b (by simp)) tooltips a ha]
    cases heff : effIcon b with
    | none =>
      rw [ih _ a (fun x hx => hwf x (List.mem_cons_of_mem b hx)) ha]
      cases htt : badgeTooltip b <;>
        simp [List.filterMap_cons, heff, htt, List.append_assoc]
    | some it =>
      have hit4 := effIcon_wf b (hwf b (by simp)) it heff
      have ha' : (if specRank a ≤ specRank it then it else a) = "" ∨
          (if specRank a ≤ specRank it then it else a) = "VERIFIED" ∨
          (if specRank a ≤ specRank it then it else a) = "MEMBER" ∨
          (if specRank a ≤ specRank it then it else a) = "MODERATOR" ∨
          (if specRank a ≤ specRank it then it else a) = "OWNER" := by
        by_cases hle : specRank a ≤ specRank it
        · rw [if_pos hle]; tauto
        · rw [if_neg hle]; exact ha
      rw [ih _ _ (fun x hx => hwf x (List.mem_cons_of_mem b hx)) ha']
      have hrank : specRank (if specRank a ≤ specRank it then it else a) =
          max (specRank it) (specRank a) := by
        by_cases hle : specRank a ≤ specRank it
        · rw [if_pos hle]; omega
        · rw [if_neg hle]; omega
      rw [hrank]
      rw [foldr_max_init ((rest.filterMap effIcon).map specRank) (specRank it) (specRank a)]
      cases htt : badgeTooltip b <;>
        simp [List.filterMap_cons, heff, htt, List.append_assoc]

/-- C8: for an item whose `authorBadges` is a non-empty list of well-formed
    badge entries, `__parse_item` sets `badges` to the badges' tooltips
    joined with ", " in their original order, and `author_type` to the
    rank-max of the badges' effective icon types under the total order
    `"" < VERIFIED < MEMBER < MODERATOR < OWNER` (a badge with a truthy
    tooltip but no icon type counting as MEMBER); the rank-max is invariant
    under any permutation of the badge list. -/
theorem C8_author_badges (pf data : List (String × JVal)) (bs : List JVal)
    (hab : dictGet "authorBadges" pf = some (.arr bs)) (hne : bs ≠ [])
    (hwf : ∀ b ∈ bs, badgeWF b = true) :
    badgesPhase pf data =
      some (dictSet "author_type" (.str (specMaxAuthorType bs))
        (dictSet "badges" (.str (joinComma (bs.filterMap badgeTooltip))) data)) ∧
    (∀ bs' : List JVal, bs.Perm bs' → specMaxAuthorType bs' = specMaxAuthorType bs) := by
  constructor
  · have hbt : pyTruthy (.arr bs) = true := by
      cases bs with
      | nil => exact absurd rfl hne
      | cons x xs => rfl
    simp only [badgesPhase, hab, hbt, Bool.not_true, Bool.false_eq_true, if_false]
    rw [badgesLoop_full bs [] "" hwf (Or.inl rfl)]
    simp only [List.nil_append]
    rw [allStrs_map_str]
    have h0 : specRank "" = 0 := rfl
    rw [h0]
    rfl
  · intro bs' hp
    unfold specMaxAuthorType
    congr 1
    exact foldr_max_perm ((hp.symm.filterMap effIcon).map specRank) 0

/-- C8 witness: `C8_author_badges` applied to a concrete item with a
    moderator badge followed by a member badge: the tooltips are joined in
    order and `author_type` is the rank-max MODERATOR. -/
theorem C8_witness :
    badgesPhase
      [("authorBadges", .arr
        [.obj [("liveChatAuthorBadgeRenderer", .obj
          [("tooltip", .str "Moderator"),
           ("icon", .obj [("iconType", .str "MODERATOR")])])],
         .obj [("liveChatAuthorBadgeRenderer", .obj
          [("tooltip", .str "Member (1 year)"),
           ("icon", .obj [("iconType", .str "MEMBER")])])]])]
      [("author", .str "u")] =
      some [("author", .str "u"),
        ("badges", .str "Moderator, Member (1 year)"),
        ("author_type", .str "MODERATOR")] :=
  (C8_author_badges
    [("authorBadges", .arr
      [.obj [("liveChatAuthorBadgeRenderer", .obj
        [("tooltip", .str "Moderator"),
         ("icon", .obj [("iconType", .str "MODERATOR")])])],
       .obj [("liveChatAuthorBadgeRenderer", .obj
        [("tooltip", .str "Member (1 year)"),
         ("icon", .obj [("iconType", .str "MEMBER")])])]])]
    [("author", .str "u")]
    [.obj [("liveChatAuthorBadgeRenderer", .obj
      [("tooltip", .str "Moderator"),
       ("icon", .obj [("iconType", .str "MODERATOR")])])],
     .obj [("liveChatAuthorBadgeRenderer", .obj
      [("tooltip", .str "Member (1 year)"),
       ("icon", .obj [("iconType", .str "MEMBER")])])]]
    rfl (by simp) (by decide)).1

/-! ## API-continuation fallback (claim C4) -/

theorem contAdvance_next (s : PollState) (buf' : List (List (String × JVal)))
    (info : JVal) (s' : PollState) (slp : Option ℚ)
    (h : contAdvance s buf' info = .next s' slp) :
    s'.useNonApiFallback = s.useNonApiFallback ∧ s'.firstTime = false := by
  unfold contAdvance at h
  repeat' split at h
  all_goals first
    | exact StepRes.noConfusion h
    | (injection h with h1 h2; subst h1; exact ⟨rfl, rfl⟩)

theorem afterFetch_next (isLive : Bool) (mt : String) (sT eT : Option Int)
    (fuel : Nat) (s : PollState) (info : JVal) (s' : PollState) (slp : Option ℚ)
    (h : afterFetch isLive mt sT eT fuel s info = .next s' slp) :
    s'.useNonApiFallback = s.useNonApiFallback ∧ s'.firstTime = false := by
  unfold afterFetch at h
  repeat' split at h
  all_goals first
    | exact StepRes.noConfusion h
    | exact contAdvance_next _ _ _ _ _ h

/-- C4: when an API continuation response has no
    `continuationContents.liveChatContinuation`, `__get_continuation_info`
    raises `NoContinuation` unless the bootstrap-recorded `logged_out` flag
    is falsy and the response's
    `responseContext.mainAppWebResponseContext.loggedOut` reads truthy, in
    which case it returns `None`; the polling loop then sets
    `use_non_api_fallback` and re-enters immediately — same continuation
    token, same buffer, no sleep — and the next fetch, and every subsequent
    iteration's fetch, goes to the non-API HTML continuation endpoint. -/
theorem C4_fallback :
    (∀ (cfg data lov : JVal),
      get_youtube_json_check data = .ok () →
      extract_continuation_info data = .ok none →
      extract_logged_out data = .ok lov →
      get_continuation_info cfg data =
        (if !pyTruthy cfg && pyTruthy lov then .ok none
         else .error .noContinuation)) ∧
    (∀ (isLive : Bool) (mt : String) (sT eT : Option Int) (fuel : Nat)
       (s : PollState) (data : JVal),
      s.firstTime = false → s.useNonApiFallback = false →
      get_continuation_info s.loggedOutCfg data = .ok none →
      poll_step isLive mt sT eT fuel s data =
        .next { s with useNonApiFallback := true } none ∧
      fetchKind { s with useNonApiFallback := true } = .htmlFallback) ∧
    (∀ (isLive : Bool) (mt : String) (sT eT : Option Int) (fuel : Nat)
       (s : PollState) (data : JVal) (s' : PollState) (slp : Option ℚ),
      s.firstTime = false → s.useNonApiFallback = true →
      poll_step isLive mt sT eT fuel s data = .next s' slp →
      s'.useNonApiFallback = true ∧ s'.firstTime = false ∧
        fetchKind s' = .htmlFallback) := by
  refine ⟨?_, ?_, ?_⟩
  · intro cfg data lov h1 h2 h3
    simp only [get_continuation_info, h1, h2, h3]
  · intro isLive mt sT eT fuel s data hft hnf hinfo
    have hfk : fetchKind s = .api := by
      simp [fetchKind, hft, hnf]
    constructor
    · simp only [poll_step, hfk, hinfo]
    · simp [fetchKind, hft]
  · intro isLive mt sT eT fuel s data s' slp hft hnf h
    have hfk : fetchKind s = .htmlFallback := by
      simp [fetchKind, hft, hnf]
    simp only [poll_step, hfk] at h
    have hpres : s'.useNonApiFallback = s.useNonApiFallback ∧ s'.firstTime = false := by
      split at h
      · exact StepRes.noConfusion h
      · exact afterFetch_next _ _ _ _ _ _ _ _ _ h
      · exact StepRes.noConfusion h
    obtain ⟨hu, hf⟩ := hpres
    rw [hnf] at hu
    refine ⟨hu, hf, ?_⟩
    simp [fetchKind, hu, hf]

/-- C4 witness: `C4_fallback` applied to a concrete logged-out API response
    with no continuation contents: the step flips the fallback flag without
    touching the continuation token or buffer and without sleeping, and the
    next fetch kind is the HTML fallback endpoint. -/
theorem C4_witness :
    get_continuation_info (.bool false)
      (.obj [("responseContext", .obj
        [("mainAppWebResponseContext", .obj [("loggedOut", .bool true)])])]) =
      (if !pyTruthy (.bool false) &&
          pyTruthy (.bool true) then .ok none else .error .noContinuation) ∧
    (poll_step false "" none none 0
      { firstTime := false, useNonApiFallback := false, continuation := .str "tok",
              loggedOutCfg := .bool false, buf := [] }
      (.obj [("responseContext", .obj
        [("mainAppWebResponseContext", .obj [("loggedOut", .bool true)])])]) =
      .next { firstTime := false, useNonApiFallback := true, continuation := .str "tok",
              loggedOutCfg := .bool false, buf := [] } none ∧
     fetchKind { firstTime := false, useNonApiFallback := true, continuation := .str "tok",
                 loggedOutCfg := .bool false, buf := [] } = .htmlFallback) :=
  ⟨C4_fallback.1 (.bool false)
    (.obj [("responseContext", .obj
      [("mainAppWebResponseContext", .obj [("loggedOut", .bool true)])])])
    (.bool true) rfl rfl rfl,
   C4_fallback.2.1 false "" none none 0
    { firstTime := false, useNonApiFallback := false, continuation := .str "tok",
            loggedOutCfg := .bool false, buf := [] }
    (.obj [("responseContext", .obj
      [("mainAppWebResponseContext", .obj [("loggedOut", .bool true)])])])
    rfl rfl rfl⟩

/-! ## Presence of `timestamp` / `time_in_seconds` in emitted records
    (claim C2) -/

theorem dictHas_set_self (t : String) (v : JVal) (d : List (String × JVal)) :
    dictHas t (dictSet t v d) = true := by
  induction d with
  | nil => simp [dictHas, dictSet, dictGet]
  | cons kv rest ih =>
    obtain ⟨k', v'⟩ := kv
    by_cases hk : k' = t
    · simp [dictSet, dictGet, hk, dictHas]
    · simp only [dictSet, hk, if_false]
      simp [dictHas, dictGet, hk] at ih ⊢
      exact ih

theorem dictHas_set_ne (k t : String) (hk : k ≠ t) (v : JVal)
    (d : List (String × JVal)) :
    dictHas t (dictSet k v d) = dictHas t d := by
  induction d with
  | nil => simp [dictHas, dictSet, dictGet, hk]
  | cons kv rest ih =>
    obtain ⟨k', v'⟩ := kv
    by_cases hk' : k' = k
    · subst hk'
      simp [dictSet, dictHas, dictGet, hk]
    · simp only [dictSet, hk', if_false]
      by_cases ht : k' = t
      · simp [dictHas, dictGet, ht]
      · simp [dictHas, dictGet, ht] at ih ⊢
        exact ih

theorem dictPop_has_ne (k t : String) (hk : k ≠ t) (d d1 : List (String × JVal))
    (v : JVal) (h : dictPop k d = some (v, d1)) :
    dictHas t d1 = dictHas t d := by
  induction d generalizing d1 with
  | nil => simp [dictPop] at h
  | cons kv rest ih =>
    obtain ⟨k', v'⟩ := kv
    by_cases hk' : k' = k
    · subst hk'
      simp only [dictPop, if_pos rfl] at h
      injection h with h
      injection h with h1 h2
      subst h2
      simp [dictHas, dictGet, hk]
    · simp only [dictPop, hk', if_false] at h
      cases hrec : dictPop k rest with
      | none => rw [hrec] at h; cases h
      | some p =>
        obtain ⟨v0, d0⟩ := p
        rw [hrec] at h
        injection h with h
        injection h with h1 h2
        subst h1
        subst h2
        by_cases ht : k' = t
        · simp [dictHas, dictGet, ht]
        · simp only [dictHas, dictGet, ht, if_false] at ih ⊢
          exact ih d0 hrec

theorem dictHas_eq_mem (k : String) (l : List (String × JVal)) :
    dictHas k l = decide (k ∈ l.map Prod.fst) := by
  induction l with
  | nil => simp [dictHas, dictGet]
  | cons kv rest ih =>
    obtain ⟨k', v'⟩ := kv
    by_cases hk : k' = k
    · subst hk
      simp [dictHas, dictGet]
    · simp only [dictHas, dictGet, hk, if_false] at ih ⊢
      rw [ih]
      have hiff : (k ∈ ((k', v') :: rest).map Prod.fst) ↔ k ∈ rest.map Prod.fst := by
        simp only [List.map_cons, List.mem_cons]
        constructor
        · rintro (h | h)
          · exact absurd h.symm hk
          · exact h
        · exact Or.inr
      exact (decide_eq_decide.mpr hiff.symm)

theorem dictHas_filter_none (t : String) (ht : importantRemap t = none)
    (pf : List (String × JVal)) :
    dictHas t (pf.filter (fun kv => (importantRemap kv.1).isSome)) = false := by
  induction pf with
  | nil => rfl
  | cons kv rest ih =>
    obtain ⟨k', v'⟩ := kv
    by_cases hk : k' = t
    · subst hk
      simp [List.filter_cons, ht, ih]
    · by_cases hd : (importantRemap k').isSome
      · simp only [List.filter_cons, hd, if_pos]
        simp [dictHas, dictGet, hk] at ih ⊢
        exact ih
      · simp only [List.filter_cons]
        rw [if_neg (by simpa using hd)]
        exact ih

theorem dictHas_filter_dom (t : String) (ht : (importantRemap t).isSome)
    (pf : List (String × JVal)) :
    dictHas t (pf.filter (fun kv => (importantRemap kv.1).isSome)) = dictHas t pf := by
  induction pf with
  | nil => rfl
  | cons kv rest ih =>
    obtain ⟨k', v'⟩ := kv
    by_cases hk : k' = t
    · subst hk
      simp [List.filter_cons, ht, dictHas, dictGet]
    · by_cases hd : (importantRemap k').isSome
      · simp only [List.filter_cons, hd, if_pos]
        simp [dictHas, dictGet, hk] at ih ⊢
        exact ih
      · simp only [List.filter_cons]
        rw [if_neg (by simpa using hd)]
        rw [ih]
        simp [dictHas, dictGet, hk]

theorem importantRemap_to_timestamp (k : String)
    (h : importantRemap k = some "timestamp") : k = "timestampUsec" := by
  unfold importantRemap at h
  split at h
  all_goals first
    | rfl
    | (injection h with h2; exact absurd h2 (by decide))
    | cases h

theorem importantRemap_to_time_text (k : String)
    (h : importantRemap k = some "time_text") : k = "timestampText" := by
  unfold importantRemap at h
  split at h
  all_goals first
    | rfl
    | (injection h with h2; exact absurd h2 (by decide))
    | cases h

theorem importantRemap_to_time_in_seconds (k : String)
    (h : importantRemap k = some "time_in_seconds") : False := by
  unfold importantRemap at h
  split at h
  all_goals first
    | (injection h with h2; exact absurd h2 (by decide))
    | cases h

theorem remapLoop_has_src (tgt src : String)
    (hsrc : importantRemap src = some tgt)
    (honly : ∀ k, importantRemap k = some tgt → k = src)
    (htgtdom : importantRemap tgt = none) :
    ∀ (ks : List String) (data d' : List (String × JVal)),
      remapLoop ks data = some d' →
      dictHas tgt d' = (decide (src ∈ ks) || dictHas tgt data) := by
  intro ks
  induction ks with
  | nil =>
    intro data d' h
    injection h with h
    subst h
    simp
  | cons k ks ih =>
    intro data d' h
    simp only [remapLoop] at h
    cases hrm : importantRemap k with
    | none =>
      simp only [hrm] at h
      exact Option.noConfusion h
    | some nk =>
      simp only [hrm] at h
      cases hpop : dictPop k data with
      | none =>
        simp only [hpop] at h
        exact Option.noConfusion h
      | some p =>
        obtain ⟨v, d1⟩ := p
        simp only [hpop] at h
        by_cases hks : k = src
        · subst hks
          have hnk : nk = tgt := by
            rw [hsrc] at hrm
            injection hrm with hrm
            exact hrm.symm
          rw [hnk] at h
          rw [ih _ _ h]
          cases v with
          | obj vf =>
            cases hsv : dictGet "simpleText" vf <;> simp [hsv, dictHas_set_self]
          | null => simp [dictHas_set_self]
          | bool b => simp [dictHas_set_self]
          | num n => simp [dictHas_set_self]
          | fnum q => simp [dictHas_set_self]
          | str s => simp [dictHas_set_self]
          | arr l => simp [dictHas_set_self]
        · have hknetgt : k ≠ tgt := by
            intro he
            subst he
            rw [htgtdom] at hrm
            cases hrm
          have hnktgt : nk ≠ tgt := by
            intro he
            subst he
            exact hks (honly k hrm)
          have hks' : ¬src = k := fun he => hks he.symm
          rw [ih _ _ h]
          cases v with
          | obj vf =>
            cases hsv : dictGet "simpleText" vf <;>
              simp [hsv, dictHas_set_ne _ _ hnktgt,
                dictPop_has_ne _ _ hknetgt _ _ _ hpop, List.mem_cons, hks']
          | null =>
            simp [dictHas_set_ne _ _ hnktgt,
              dictPop_has_ne _ _ hknetgt _ _ _ hpop, List.mem_cons, hks']
          | bool b =>
            simp [dictHas_set_ne _ _ hnktgt,
              dictPop_has_ne _ _ hknetgt _ _ _ hpop, List.mem_cons, hks']
          | num n =>
            simp [dictHas_set_ne _ _ hnktgt,
              dictPop_has_ne _ _ hknetgt _ _ _ hpop, List.mem_cons, hks']
          | fnum q =>
            simp [dictHas_set_ne _ _ hnktgt,
              dictPop_has_ne _ _ hknetgt _ _ _ hpop, List.mem_cons, hks']
          | str s0 =>
            simp [dictHas_set_ne _ _ hnktgt,
              dictPop_has_ne _ _ hknetgt _ _ _ hpop, List.mem_cons, hks']
          | arr l =>
            simp [dictHas_set_ne _ _ hnktgt,
              dictPop_has_ne _ _ hknetgt _ _ _ hpop, List.mem_cons, hks']

theorem remapLoop_has_notgt (tgt : String)
    (honly : ∀ k, importantRemap k ≠ some tgt)
    (htgtdom : importantRemap tgt = none) :
    ∀ (ks : List String) (data d' : List (String × JVal)),
      remapLoop ks data = some d' →
      dictHas tgt d' = dictHas tgt data := by
  intro ks
  induction ks with
  | nil =>
    intro data d' h
    injection h with h
    subst h
    rfl
  | cons k ks ih =>
    intro data d' h
    simp only [remapLoop] at h
    cases hrm : importantRemap k with
    | none =>
      simp only [hrm] at h
      exact Option.noConfusion h
    | some nk =>
      simp only [hrm] at h
      cases hpop : dictPop k data with
      | none =>
        simp only [hpop] at h
        exact Option.noConfusion h
      | some p =>
        obtain ⟨v, d1⟩ := p
        simp only [hpop] at h
        have hknetgt : k ≠ tgt := by
          intro he
          subst he
          rw [htgtdom] at hrm
          cases hrm
        have hnktgt : nk ≠ tgt := by
          intro he
          subst he
          exact honly k hrm
        rw [ih _ _ h]
        cases v with
        | obj vf =>
          cases hsv : dictGet "simpleText" vf <;>
            simp [hsv, dictHas_set_ne _ _ hnktgt,
              dictPop_has_ne _ _ hknetgt _ _ _ hpop]
        | null =>
          simp [dictHas_set_ne _ _ hnktgt, dictPop_has_ne _ _ hknetgt _ _ _ hpop]
        | bool b =>
          simp [dictHas_set_ne _ _ hnktgt, dictPop_has_ne _ _ hknetgt _ _ _ hpop]
        | num n =>
          simp [dictHas_set_ne _ _ hnktgt, dictPop_has_ne _ _ hknetgt _ _ _ hpop]
        | fnum q =>
          simp [dictHas_set_ne _ _ hnktgt, dictPop_has_ne _ _ hknetgt _ _ _ hpop]
        | str s0 =>
          simp [dictHas_set_ne _ _ hnktgt, dictPop_has_ne _ _ hknetgt _ _ _ hpop]
        | arr l =>
          simp [dictHas_set_ne _ _ hnktgt, dictPop_has_ne _ _ hknetgt _ _ _ hpop]

theorem messagePhase_has (t : String) (h1 : t ≠ "message")
    (h2 : t ≠ "header_primary_text") (h3 : t ≠ "header_subtext") (h4 : t ≠ "sticker")
    (data d' : List (String × JVal)) (h : messagePhase data = some d') :
    dictHas t d' = dictHas t data := by
  unfold messagePhase at h
  simp only [Option.bind_eq_bind, Option.bind_eq_some, Option.pure_def,
    Option.some.injEq, exists_eq_left, exists_eq_left'] at h
  cases hA : dictPop "header_primary_text" data with
  | some p =>
    obtain ⟨hpt, d1⟩ := p
    simp only [Option.some_bind, hA] at h
    rw [Option.bind_eq_some] at h
    obtain ⟨m0, hm0, h⟩ := h
    cases hB : dictPop "header_subtext" d1 with
    | some q =>
      obtain ⟨hst, d2⟩ := q
      simp only [Option.some_bind, hB] at h
      rw [Option.bind_eq_some] at h
      obtain ⟨ms, hms, h⟩ := h
      cases hC : dictGet "message" d2 with
      | some mv =>
        simp only [Option.some_bind, hC] at h
        rw [Option.bind_eq_some] at h
        obtain ⟨mm, hmm, h⟩ := h
        injection h with h
        subst h
        rw [dictHas_set_ne _ _ (Ne.symm h1)]
        show dictHas t d2 = dictHas t data
        rw [dictPop_has_ne _ _ (Ne.symm h3) _ _ _ hB]
        exact dictPop_has_ne _ _ (Ne.symm h2) _ _ _ hA
      | none =>
        simp only [Option.some_bind, hC] at h
        injection h with h
        subst h
        rw [dictHas_set_ne _ _ (Ne.symm h1)]
        show dictHas t d2 = dictHas t data
        rw [dictPop_has_ne _ _ (Ne.symm h3) _ _ _ hB]
        exact dictPop_has_ne _ _ (Ne.symm h2) _ _ _ hA
    | none =>
      simp only [Option.some_bind, hB] at h
      cases hC : dictGet "message" d1 with
      | some mv =>
        simp only [Option.some_bind, hC] at h
        rw [Option.bind_eq_some] at h
        obtain ⟨mm, hmm, h⟩ := h
        injection h with h
        subst h
        rw [dictHas_set_ne _ _ (Ne.symm h1)]
        show dictHas t d1 = dictHas t data
        exact dictPop_has_ne _ _ (Ne.symm h2) _ _ _ hA
      | none =>
        simp only [Option.some_bind, hC] at h
        injection h with h
        subst h
        rw [dictHas_set_ne _ _ (Ne.symm h1)]
        show dictHas t d1 = dictHas t data
        exact dictPop_has_ne _ _ (Ne.symm h2) _ _ _ hA
  | none =>
    simp only [Option.some_bind, hA] at h
    cases hB : dictPop "header_subtext" data with
    | some q =>
      obtain ⟨hst, d1⟩ := q
      simp only [Option.some_bind, hB] at h
      rw [Option.bind_eq_some] at h
      obtain ⟨m, hm, h⟩ := h
      injection h with h
      subst h
      rw [dictHas_set_ne _ _ (Ne.symm h1)]
      show dictHas t d1 = dictHas t data
      exact dictPop_has_ne _ _ (Ne.symm h3) _ _ _ hB
    | none =>
      simp only [Option.some_bind, hB] at h
      cases hS : dictPop "sticker" data with
      | some r =>
        obtain ⟨stk, d1⟩ := r
        simp only [Option.some_bind, hS] at h
        rw [Option.bind_eq_some] at h
        obtain ⟨m0, hm0, h⟩ := h
        cases hC : dictGet "message" d1 with
        | some mv =>
          simp only [Option.some_bind, hC] at h
          rw [Option.bind_eq_some] at h
          obtain ⟨mm, hmm, h⟩ := h
          injection h with h
          subst h
          rw [dictHas_set_ne _ _ (Ne.symm h1)]
          show dictHas t d1 = dictHas t data
          exact dictPop_has_ne _ _ (Ne.symm h4) _ _ _ hS
        | none =>
          simp only [Option.some_bind, hC] at h
          injection h with h
          subst h
          rw [dictHas_set_ne _ _ (Ne.symm h1)]
          show dictHas t d1 = dictHas t data
          exact dictPop_has_ne _ _ (Ne.symm h4) _ _ _ hS
      | none =>
        simp only [Option.some_bind, hS] at h
        by_cases hAm : dictHas "amount" data = true
        · simp only [hAm, if_true] at h
          cases hC : dictGet "message" data with
          | some mv =>
            simp only [Option.some_bind, hC] at h
            rw [Option.bind_eq_some] at h
            obtain ⟨mm, hmm, h⟩ := h
            injection h with h
            subst h
            exact dictHas_set_ne _ _ (Ne.symm h1) _ _
          | none =>
            simp only [Option.some_bind, hC] at h
            injection h with h
            subst h
            exact dictHas_set_ne _ _ (Ne.symm h1) _ _
        · simp only [Bool.not_eq_true] at hAm
          simp only [hAm, Bool.false_eq_true, if_false] at h
          cases hC : dictGet "message" data with
          | some mv =>
            simp only [Option.some_bind, hC] at h
            rw [Option.bind_eq_some] at h
            obtain ⟨mm, hmm, h⟩ := h
            injection h with h
            subst h
            exact dictHas_set_ne _ _ (Ne.symm h1) _ _
          | none =>
            simp only [Option.some_bind, hC] at h
            injection h with h
            subst h
            exact dictHas_set_ne _ _ (Ne.symm h1) _ _

theorem badgesPhase_has (t : String) (h1 : t ≠ "author_type") (h2 : t ≠ "badges")
    (pf data d' : List (String × JVal)) (h : badgesPhase pf data = some d') :
    dictHas t d' = dictHas t data := by
  unfold badgesPhase at h
  repeat' split at h
  all_goals first
    | exact Option.noConfusion h
    | (injection h with h; subst h; rfl)
    | (injection h with h; subst h;
       rw [dictHas_set_ne _ _ (Ne.symm h1), dictHas_set_ne _ _ (Ne.symm h2)])

theorem tsPhase_has (t : String) (h1 : t ≠ "datetime") (h2 : t ≠ "timestamp")
    (data d' : List (String × JVal)) (h : tsPhase data = some d') :
    dictHas t d' = dictHas t data := by
  unfold tsPhase at h
  repeat' split at h
  all_goals first
    | exact Option.noConfusion h
    | (injection h with h; subst h; rfl)
    | (injection h with h; subst h;
       rw [dictHas_set_ne _ _ (Ne.symm h1), dictHas_set_ne _ _ (Ne.symm h2)])

theorem tsPhase_has_timestamp (data d' : List (String × JVal))
    (h : tsPhase data = some d') :
    dictHas "timestamp" d' = dictHas "timestamp" data := by
  unfold tsPhase at h
  cases hg : dictGet "timestamp" data with
  | none =>
    simp only [hg] at h
    injection h with h
    subst h
    rfl
  | some tv =>
    simp only [hg] at h
    by_cases htv : pyTruthy tv = true
    · rw [if_pos htv] at h
      cases hp : pyToInt tv with
      | none =>
        rw [hp] at h
        exact Option.noConfusion h
      | some n =>
        rw [hp] at h
        injection h with h
        subst h
        rw [dictHas_set_ne _ _ (by decide), dictHas_set_self]
        have hh : dictHas "timestamp" data = true := by simp [dictHas, hg]
        rw [hh]
    · rw [if_neg htv] at h
      injection h with h
      subst h
      rfl

theorem timeTextPhase_has (t : String) (h1 : t ≠ "time_in_seconds")
    (data d' : List (String × JVal)) (h : timeTextPhase data = some d') :
    dictHas t d' = dictHas t data := by
  unfold timeTextPhase at h
  cases hg : dictGet "time_text" data with
  | none =>
    simp only [hg] at h
    injection h with h
    subst h
    rfl
  | some tv =>
    simp only [hg] at h
    cases tv with
    | str s =>
      have h' : Option.map (fun n => dictSet "time_in_seconds" (JVal.num n) data)
          (timeToSecondsL s.data) = some d' := h
      cases hts : timeToSecondsL s.data with
      | none => rw [hts] at h'; exact Option.noConfusion h'
      | some n =>
        rw [hts] at h'
        injection h' with h'
        subst h'
        exact dictHas_set_ne _ _ (Ne.symm h1) _ _
    | null => exact Option.noConfusion h
    | bool b => exact Option.noConfusion h
    | num n => exact Option.noConfusion h
    | fnum q => exact Option.noConfusion h
    | arr l => exact Option.noConfusion h
    | obj fs => exact Option.noConfusion h

theorem timeTextPhase_has_tis (data d' : List (String × JVal))
    (h : timeTextPhase data = some d') :
    dictHas "time_in_seconds" d' =
      (dictHas "time_text" data || dictHas "time_in_seconds" data) := by
  unfold timeTextPhase at h
  cases hg : dictGet "time_text" data with
  | none =>
    simp only [hg] at h
    injection h with h
    subst h
    have hh : dictHas "time_text" data = false := by simp [dictHas, hg]
    rw [hh]
    simp
  | some tv =>
    simp only [hg] at h
    cases tv with
    | str s =>
      have h' : Option.map (fun n => dictSet "time_in_seconds" (JVal.num n) data)
          (timeToSecondsL s.data) = some d' := h
      cases hts : timeToSecondsL s.data with
      | none => rw [hts] at h'; exact Option.noConfusion h'
      | some n =>
        rw [hts] at h'
        injection h' with h'
        subst h'
        rw [dictHas_set_self]
        have hh : dictHas "time_text" data = true := by simp [dictHas, hg]
        rw [hh]
        rfl
    | null => exact Option.noConfusion h
    | bool b => exact Option.noConfusion h
    | num n => exact Option.noConfusion h
    | fnum q => exact Option.noConfusion h
    | arr l => exact Option.noConfusion h
    | obj fs => exact Option.noConfusion h

theorem colourPhase_has (t : String) (h1 : t ≠ "header_color") (h2 : t ≠ "body_color")
    (data d' : List (String × JVal)) (h : colourPhase data = some d') :
    dictHas t d' = dictHas t data := by
  unfold colourPhase at h
  simp only [Option.bind_eq_bind, Option.bind_eq_some, Option.pure_def,
    Option.some.injEq, exists_eq_left, exists_eq_left'] at h
  obtain ⟨d1, hd1, h⟩ := h
  have hstep : ∀ (dIn dOut : List (String × JVal)) (key : String), t ≠ key →
      (match dictGet key dIn with
       | none => some dIn
       | some v => (get_colours v).map (fun cv => dictSet key cv dIn)) = some dOut →
      dictHas t dOut = dictHas t dIn := by
    intro dIn dOut key hkey hstepEq
    cases hg : dictGet key dIn with
    | none =>
      rw [hg] at hstepEq
      injection hstepEq with hstepEq
      subst hstepEq
      rfl
    | some v =>
      rw [hg] at hstepEq
      have hstepEq' : Option.map (fun cv => dictSet key cv dIn) (get_colours v) =
          some dOut := hstepEq
      cases hc : get_colours v with
      | none => rw [hc] at hstepEq'; exact Option.noConfusion hstepEq'
      | some cv =>
        rw [hc] at hstepEq'
        injection hstepEq' with hstepEq'
        subst hstepEq'
        exact dictHas_set_ne _ _ (Ne.symm hkey) _ _
  rw [hstep d1 d' "body_color" h2 h]
  exact hstep data d1 "header_color" h1 hd1

/-- C2 (amended): every record built by the Twitch adapter contains BOTH
    `timestamp` and `time_in_seconds`; for records built by the YouTube
    item normalizer (without a nested `showItemEndpoint`), `timestamp` is
    present exactly when the payload has a `timestampUsec` field and
    `time_in_seconds` exactly when the payload has a `timestampText`
    field — so presence is payload-driven rather than exclusive. -/
theorem C2_timestamp_presence :
    (∀ (c : TComment) (r : List (String × JVal)), twitchRecordO c = some r →
      dictHas "timestamp" r = true ∧ dictHas "time_in_seconds" r = true) ∧
    (∀ (fuel : Nat) (idx : String) (pf restI : List (String × JVal))
       (rec : List (String × JVal)),
      dictHas "showItemEndpoint" pf = false →
      parse_item fuel (.obj ((idx, .obj pf) :: restI)) = some rec →
      dictHas "timestamp" rec = dictHas "timestampUsec" pf ∧
      dictHas "time_in_seconds" rec = dictHas "timestampText" pf) := by
  constructor
  · intro c r h
    unfold twitchRecordO at h
    cases hts : timestamp_to_microseconds c.created_at with
    | none => rw [hts] at h; exact Option.noConfusion h
    | some ts =>
      rw [hts] at h
      injection h with h
      subst h
      exact ⟨rfl, rfl⟩
  · intro fuel idx pf restI rec hshow hp
    simp only [parse_item] at hp
    cases hrl : remapLoop
        ((pf.filter (fun kv => (importantRemap kv.1).isSome)).map (fun kv => kv.1))
        (pf.filter (fun kv => (importantRemap kv.1).isSome)) with
    | none => simp [hrl] at hp
    | some data1 =>
      simp only [hrl] at hp
      cases hbp : badgesPhase pf data1 with
      | none => simp [hbp] at hp
      | some data2 =>
        simp only [hbp] at hp
        rw [hshow] at hp
        simp only [Bool.false_eq_true, if_false, Option.bind_eq_bind,
          Option.bind_eq_some] at hp
        obtain ⟨data3, h3, hp⟩ := hp
        obtain ⟨data4, h4, hp⟩ := hp
        obtain ⟨data5, h5, hp⟩ := hp
        have efilterTs : dictHas "timestamp"
            (pf.filter (fun kv => (importantRemap kv.1).isSome)) = false :=
          dictHas_filter_none "timestamp" rfl pf
        have efilterTt : dictHas "time_text"
            (pf.filter (fun kv => (importantRemap kv.1).isSome)) = false :=
          dictHas_filter_none "time_text" rfl pf
        have efilterTis : dictHas "time_in_seconds"
            (pf.filter (fun kv => (importantRemap kv.1).isSome)) = false :=
          dictHas_filter_none "time_in_seconds" rfl pf
        have ememTs : decide ("timestampUsec" ∈
              (pf.filter (fun kv => (importantRemap kv.1).isSome)).map
                (fun kv => kv.1)) =
            dictHas "timestampUsec" (pf.filter (fun kv => (importantRemap kv.1).isSome)) :=
          (dictHas_eq_mem _ _).symm
        have ememTt : decide ("timestampText" ∈
              (pf.filter (fun kv => (importantRemap kv.1).isSome)).map
                (fun kv => kv.1)) =
            dictHas "timestampText" (pf.filter (fun kv => (importantRemap kv.1).isSome)) :=
          (dictHas_eq_mem _ _).symm
        constructor
        · rw [colourPhase_has _ (by decide) (by decide) _ _ hp]
          rw [timeTextPhase_has _ (by decide) _ _ h5]
          rw [tsPhase_has_timestamp _ _ h4]
          rw [messagePhase_has _ (by decide) (by decide) (by decide) (by decide) _ _ h3]
          rw [badgesPhase_has _ (by decide) (by decide) _ _ _ hbp]
          rw [remapLoop_has_src "timestamp" "timestampUsec" rfl
            importantRemap_to_timestamp rfl _ _ _ hrl]
          rw [efilterTs, ememTs, dictHas_filter_dom _ (by decide) pf]
          simp
        · rw [colourPhase_has _ (by decide) (by decide) _ _ hp]
          rw [timeTextPhase_has_tis _ _ h5]
          rw [tsPhase_has _ (by decide) (by decide) _ _ h4]
          rw [tsPhase_has _ (by decide) (by decide) _ _ h4]
          rw [messagePhase_has _ (by decide) (by decide) (by decide) (by decide) _ _ h3]
          rw [messagePhase_has _ (by decide) (by decide) (by decide) (by decide) _ _ h3]
          rw [badgesPhase_has _ (by decide) (by decide) _ _ _ hbp]
          rw [badgesPhase_has _ (by decide) (by decide) _ _ _ hbp]
          rw [remapLoop_has_src "time_text" "timestampText" rfl
            importantRemap_to_time_text rfl _ _ _ hrl]
          rw [remapLoop_has_notgt "time_in_seconds"
            (fun k hk => importantRemap_to_time_in_seconds k hk) rfl _ _ _ hrl]
          rw [efilterTt, efilterTis, ememTt, dictHas_filter_dom _ (by decide) pf]
          simp

/-- C2 counterexample to the original claim: the Twitch adapter's record
    for a comment carries BOTH a `timestamp` and a `time_in_seconds`
    field, so "exactly one of the two is present" fails. -/
theorem C2_counterexample :
    ∃ r, twitchRecordO ⟨"2020-01-01T00:00:05.123456789Z", 60, "a", "b"⟩ = some r ∧
      dictHas "timestamp" r = true ∧ dictHas "time_in_seconds" r = true := by
  refine ⟨_, rfl, rfl, rfl⟩

/-- C2 witness: `C2_timestamp_presence` applied to a concrete Twitch
    comment (whose record has both fields) and to a concrete YouTube
    payload having `timestampUsec` but no `timestampText`. -/
theorem C2_witness :
    (∃ r, twitchRecordO ⟨"2020-01-01T00:00:03Z", 3, "x", "y"⟩ = some r ∧
      dictHas "timestamp" r = true ∧ dictHas "time_in_seconds" r = true) ∧
    (dictHas "timestamp"
        [("timestamp", .num 5), ("message", .null), ("datetime", .str "@0")] =
      dictHas "timestampUsec" [("timestampUsec", .num 5)] ∧
     dictHas "time_in_seconds"
        [("timestamp", .num 5), ("message", .null), ("datetime", .str "@0")] =
      dictHas "timestampText" [("timestampUsec", .num 5)]) :=
  ⟨⟨_, rfl, C2_timestamp_presence.1 ⟨"2020-01-01T00:00:03Z", 3, "x", "y"⟩ _ rfl⟩,
   C2_timestamp_presence.2 0 "x" [("timestampUsec", .num 5)] []
     [("timestamp", .num 5), ("message", .null), ("datetime", .str "@0")] rfl (by rfl)⟩

/-! ## Loop termination on `end_time` (claim C1) -/

theorem recordFate_ret_iff (sT : Option Int) (e : Int) (r : List (String × JVal)) :
    recordFate false sT (some e) r = .ret ↔
      ∃ v, dictGet "time_in_seconds" r = some v ∧ pyCmpIntGt v e = some true := by
  unfold recordFate
  cases hg : dictGet "time_in_seconds" r with
  | none =>
    simp only [hg]
    constructor
    · intro h
      cases hsT : sT with
      | none => rw [hsT] at h; exact RecFate.noConfusion h
      | some s0 => rw [hsT] at h; exact RecFate.noConfusion h
    · rintro ⟨v, hv, -⟩
      exact Option.noConfusion hv
  | some v =>
    simp only [hg]
    constructor
    · intro h
      cases hc : pyCmpIntGt v e with
      | none => rw [hc] at h; exact RecFate.noConfusion h
      | some b =>
        cases b with
        | true => exact ⟨v, rfl, hc⟩
        | false =>
          rw [hc] at h
          exfalso
          cases hsT : sT with
          | none => rw [hsT] at h; exact RecFate.noConfusion h
          | some s0 =>
            rw [hsT] at h
            have h' : (match pyCmpIntGe v s0 with
                | some true => RecFate.app
                | some false => RecFate.skip
                | none => RecFate.skip) = RecFate.ret := h
            cases hge : pyCmpIntGe v s0 with
            | none => rw [hge] at h'; exact RecFate.noConfusion h'
            | some b2 =>
              rw [hge] at h'
              cases b2 with
              | true => exact RecFate.noConfusion h'
              | false => exact RecFate.noConfusion h'
    · rintro ⟨v', hv', hc⟩
      injection hv' with hv'
      subst hv'
      rw [hc]

theorem recordFate_app_le (sT : Option Int) (e : Int) (r : List (String × JVal))
    (v : JVal) (h : recordFate false sT (some e) r = .app)
    (hv : dictGet "time_in_seconds" r = some v) :
    pyCmpIntGt v e = some false := by
  revert h
  unfold recordFate
  rw [hv]
  show (match pyCmpIntGt v e with
      | none => RecFate.skip
      | some true => RecFate.ret
      | some false =>
        match sT with
        | none => RecFate.app
        | some s0 =>
          match pyCmpIntGe v s0 with
          | some true => RecFate.app
          | some false => RecFate.skip
          | none => RecFate.skip) = RecFate.app →
    pyCmpIntGt v e = some false
  cases hc : pyCmpIntGt v e with
  | none =>
    intro h
    exact RecFate.noConfusion h
  | some b =>
    cases b with
    | false => intro _; rfl
    | true =>
      intro h
      exact RecFate.noConfusion h

theorem processItems_stops (sT : Option Int) (e : Int)
    (pre : List (List (String × JVal))) (r0 : List (String × JVal))
    (post : List (List (String × JVal))) :
    ∀ (buf0 : List (List (String × JVal))),
      (∀ r ∈ pre, recordFate false sT (some e) r ≠ .ret) →
      recordFate false sT (some e) r0 = .ret →
      processItems false sT (some e) (pre ++ r0 :: post) buf0 =
        (buf0 ++ pre.filter (fun r =>
          match recordFate false sT (some e) r with
          | .app => true
          | _ => false), true) := by
  induction pre with
  | nil =>
    intro buf0 _ hr0
    simp only [List.nil_append, processItems, hr0, List.filter_nil, List.append_nil]
  | cons r pre ih =>
    intro buf0 hpre hr0
    have hrfate := hpre r (by simp)
    simp only [List.cons_append, processItems]
    cases hf : recordFate false sT (some e) r with
    | ret => exact absurd hf hrfate
    | app =>
      show processItems false sT (some e) (pre ++ r0 :: post) (buf0 ++ [r]) = _
      rw [ih (buf0 ++ [r]) (fun x hx => hpre x (by simp [hx])) hr0]
      simp [List.filter_cons, hf, List.append_assoc]
    | skip =>
      show processItems false sT (some e) (pre ++ r0 :: post) buf0 = _
      rw [ih buf0 (fun x hx => hpre x (by simp [hx])) hr0]
      simp [List.filter_cons, hf]

theorem processItems_buf_mem (sT : Option Int) (e : Int)
    (records : List (List (String × JVal))) :
    ∀ (buf0 : List (List (String × JVal))) (r : List (String × JVal)),
      r ∈ (processItems false sT (some e) records buf0).1 →
      r ∈ buf0 ∨ recordFate false sT (some e) r = .app := by
  induction records with
  | nil =>
    intro buf0 r hr
    exact Or.inl hr
  | cons q rest ih =>
    intro buf0 r hr
    simp only [processItems] at hr
    cases hf : recordFate false sT (some e) q with
    | ret =>
      rw [hf] at hr
      exact Or.inl hr
    | app =>
      rw [hf] at hr
      rcases ih (buf0 ++ [q]) r hr with hin | happ
      · rcases List.mem_append.mp hin with hin | hin
        · exact Or.inl hin
        · rw [List.mem_singleton] at hin
          subst hin
          exact Or.inr hf
      · exact Or.inr happ
    | skip =>
      rw [hf] at hr
      exact ih buf0 r hr

theorem twitchLoop_stops (sT : ℚ) (e : ℚ) (pre : List TComment) (c0 : TComment)
    (post : List TComment) :
    ∀ (buf0 : List (List (String × JVal))),
      (∀ c ∈ pre, ¬c.content_offset_seconds < sT →
        ¬c.content_offset_seconds > e ∧ (twitchRecordO c).isSome = true) →
      ¬c0.content_offset_seconds < sT →
      c0.content_offset_seconds > e →
      twitchCommentsLoop sT (some e) (pre ++ c0 :: post) buf0 =
        some (buf0 ++ pre.filterMap (fun c =>
          if c.content_offset_seconds < sT then none else twitchRecordO c), true) := by
  induction pre with
  | nil =>
    intro buf0 _ hc0s hc0e
    simp only [List.nil_append, twitchCommentsLoop, List.filterMap_nil, List.append_nil]
    rw [if_neg hc0s, if_pos hc0e]
  | cons c pre ih =>
    intro buf0 hpre hc0s hc0e
    simp only [List.cons_append, twitchCommentsLoop]
    by_cases hcs : c.content_offset_seconds < sT
    · rw [if_pos hcs]
      show twitchCommentsLoop sT (some e) (pre ++ c0 :: post) buf0 = _
      rw [ih buf0 (fun x hx => hpre x (by simp [hx])) hc0s hc0e]
      simp [List.filterMap_cons, hcs]
    · rw [if_neg hcs]
      obtain ⟨hce, hsome⟩ := hpre c (by simp) hcs
      rw [if_neg hce]
      cases hrec : twitchRecordO c with
      | none => rw [hrec] at hsome; exact Bool.noConfusion hsome
      | some r =>
        show twitchCommentsLoop sT (some e) (pre ++ c0 :: post) (buf0 ++ [r]) = _
        rw [ih (buf0 ++ [r]) (fun x hx => hpre x (by simp [hx])) hc0s hc0e]
        simp [List.filterMap_cons, hcs, hrec, List.append_assoc]

/-- C1 (amended): in replay mode with `end_time` set, the YouTube record
    loop returns the buffer on the FIRST record whose `time_in_seconds`
    compares strictly greater than `end_time` — without appending it — and
    a record can only be appended after the `> end_time` comparison came
    out false; the Twitch per-comment loop does the same ONLY for comments
    at or past `start_time`: a comment below `start_time` is skipped by
    the start-time check before the end-time check is reached, even when
    its offset exceeds `end_time`. -/
theorem C1_end_time_termination :
    (∀ (sT : Option Int) (e : Int) (pre : List (List (String × JVal)))
       (r0 : List (String × JVal)) (post : List (List (String × JVal)))
       (buf0 : List (List (String × JVal))),
      (∀ r ∈ pre, recordFate false sT (some e) r ≠ .ret) →
      recordFate false sT (some e) r0 = .ret →
      processItems false sT (some e) (pre ++ r0 :: post) buf0 =
        (buf0 ++ pre.filter (fun r =>
          match recordFate false sT (some e) r with
          | .app => true
          | _ => false), true)) ∧
    (∀ (sT : Option Int) (e : Int) (r : List (String × JVal)),
      recordFate false sT (some e) r = .ret ↔
        ∃ v, dictGet "time_in_seconds" r = some v ∧ pyCmpIntGt v e = some true) ∧
    (∀ (sT : Option Int) (e : Int) (r : List (String × JVal)) (v : JVal),
      recordFate false sT (some e) r = .app →
      dictGet "time_in_seconds" r = some v →
      pyCmpIntGt v e = some false) ∧
    (∀ (sT : Option Int) (e : Int) (records buf0 : List (List (String × JVal)))
       (r : List (String × JVal)),
      r ∈ (processItems false sT (some e) records buf0).1 →
      r ∈ buf0 ∨ recordFate false sT (some e) r = .app) ∧
    (∀ (sT e : ℚ) (pre : List TComment) (c0 : TComment) (post : List TComment)
       (buf0 : List (List (String × JVal))),
      (∀ c ∈ pre, ¬c.content_offset_seconds < sT →
        ¬c.content_offset_seconds > e ∧ (twitchRecordO c).isSome = true) →
      ¬c0.content_offset_seconds < sT →
      c0.content_offset_seconds > e →
      twitchCommentsLoop sT (some e) (pre ++ c0 :: post) buf0 =
        some (buf0 ++ pre.filterMap (fun c =>
          if c.content_offset_seconds < sT then none else twitchRecordO c), true)) :=
  ⟨fun sT e pre r0 post buf0 => processItems_stops sT e pre r0 post buf0,
   recordFate_ret_iff,
   recordFate_app_le,
   fun sT e records buf0 r => processItems_buf_mem sT e records buf0 r,
   fun sT e pre c0 post buf0 => twitchLoop_stops sT e pre c0 post buf0⟩

/-- C1 counterexample to the original claim's Twitch half: with
    `start_time = 100`, `end_time = 50` and a single comment at offset 60,
    the comment's offset strictly exceeds `end_time`, yet the loop skips
    it via the start-time check and returns normally with `false` (no
    early termination on that record). -/
theorem C1_counterexample :
    (60 : ℚ) > 50 ∧
    twitchCommentsLoop 100 (some 50) [⟨"2020-01-01T00:00:00Z", 60, "a", "b"⟩] [] =
      some ([], false) := by
  constructor
  · norm_num
  · simp only [twitchCommentsLoop]
    rw [if_pos (by norm_num : ((⟨"2020-01-01T00:00:00Z", 60, "a", "b"⟩ : TComment)).content_offset_seconds < 100)]

/-- C1 witness: `C1_end_time_termination` applied to concrete record lists:
    the YouTube loop keeps the record at 10 s and stops on the record at
    99 s with end 50 s; the Twitch loop stops immediately on a comment at
    offset 60 s past end 50 s with start 0 s. -/
theorem C1_witness :
    processItems false none (some 50)
      ([[("time_in_seconds", .num 10)]] ++ [("time_in_seconds", .num 99)] :: []) [] =
      ([] ++ [[(("time_in_seconds" : String), JVal.num 10)]].filter (fun r =>
        match recordFate false none (some 50) r with
        | .app => true
        | _ => false), true) ∧
    twitchCommentsLoop 0 (some 50) ([] ++ (⟨"t", 60, "a", "b"⟩ : TComment) :: []) [] =
      some (([] : List (List (String × JVal))) ++
        ([] : List TComment).filterMap (fun c =>
          if c.content_offset_seconds < 0 then none else twitchRecordO c), true) :=
  ⟨C1_end_time_termination.1 none 50 [[("time_in_seconds", .num 10)]]
      [("time_in_seconds", .num 99)] [] []
      (by
        intro r hr
        rw [List.mem_singleton] at hr
        subst hr
        intro hc
        have hco : RecFate.app = RecFate.ret :=
          (rfl : recordFate false none (some 50)
            [("time_in_seconds", JVal.num 10)] = .app).symm.trans hc
        exact RecFate.noConfusion hco)
      rfl,
   C1_end_time_termination.2.2.2.2 0 50 [] ⟨"t", 60, "a", "b"⟩ [] []
      (by intro c hc; cases hc)
      (by norm_num)
      (by norm_num)⟩
